import Mathlib

/-!
# validators-monitoring: status tracking, alert dispatch and cache-aside queries

A shallow embedding of the status-change detection (`scrapper.go`), the alert
dispatcher (`notifier.go`) and the cache-aside query layer (`clickhouse.go`,
`cache.go`) of the validators-monitoring service.

Modelling conventions.

* `time.Time` is an integer number of nanoseconds since the Unix epoch, its
  range (hundreds of billions of years) taken as unbounded; a `time.Duration`
  is an integer number of nanoseconds, an `int64` in the program, and
  `Time.Sub` saturates at its bounds as the library does. The several
  `time.Now()` reads made during one call are one instant `now`.
* A Go string is a Lean string; `len` and slicing count characters, which are
  bytes for the ASCII keys and callback data the program builds.
* A finite `float64` (efficiencies arrive through JSON, the threshold is an
  integer converted to `float64`) is the rational number it denotes; only the
  order of such values is used.
* The cache is a key/value store whose values are the JSON documents the program
  writes; a document is kept as the value that was marshalled (`Payload`), so
  that unmarshalling is a projection and fails on a document of another shape.
* A dependency that can fail is given a switch in `Faults`.
-/

namespace ValidatorsMonitoring

/-! ## Time -/

/-- Nanoseconds since the Unix epoch (`time.Time`). -/
abbrev Time := Int

/-- Nanoseconds (`time.Duration`). -/
abbrev Duration := Int

def Nanosecond : Duration := 1
def Second : Duration := 1000000000 * Nanosecond
def Minute : Duration := 60 * Second
def Hour : Duration := 60 * Minute

/-- Largest `time.Duration`, `1<<63 - 1` nanoseconds. -/
def maxDuration : Duration := 9223372036854775807

/-- Smallest `time.Duration`, `-1 << 63` nanoseconds. -/
def minDuration : Duration := -9223372036854775808

/-- The Unix second of an instant: whole seconds since the epoch, rounded down.
It is what `t.Unix()` returns for every instant whose Unix second is an
`int64`, the clock's among them; `Time.Unix64` is `t.Unix()` for every
instant. -/
def Time.Unix (t : Time) : Int := t / 1000000000

/-- An integer reduced to the `int64` it is congruent to, as `int64`
arithmetic does on overflow. -/
def wrapInt64 (n : Int) : Int :=
  (n + 9223372036854775808) % 18446744073709551616 - 9223372036854775808

/-- `t.Unix()`: `t.sec() + internalToUnix` computed in `int64`, so the Unix
second of the instant when that is an `int64`, and 2^64 more for an instant
whose Unix second lies below the least `int64`. The cache keys carry this
value. -/
def Time.Unix64 (t : Time) : Int := wrapInt64 (Time.Unix t)

/-- `t.Add(d)`. -/
def Time.Add (t : Time) (d : Duration) : Time := t + d

/-- `t.Sub(u)`: the difference `t - u`, replaced by the largest (smallest)
duration when it does not fit in a `Duration`. -/
def Time.Sub (t u : Time) : Duration :=
  if maxDuration < t - u then maxDuration
  else if t - u < minDuration then minDuration
  else t - u

/-- `t.Before(u)`. -/
def Time.Before (t u : Time) : Bool := decide (t < u)

/-- `t.Round(d)`: the nearest multiple of `d`, halfway values rounded up; `t`
itself when `d <= 0`. The zero time of the program lies a whole number of
minutes before the Unix epoch, so multiples of a minute are the same for both. -/
def Time.Round (t : Time) (d : Duration) : Time :=
  if d ≤ 0 then t
  else
    let r := t % d
    if r + r < d then t - r else t + (d - r)

/-! ## Models (`models.go`) -/

abbrev ValidatorStatus := String

def StatusOK : ValidatorStatus := "ok"
def StatusNotOK : ValidatorStatus := "not ok"
def StatusAcknowledged : ValidatorStatus := "acknowledged"
def StatusUnknown : ValidatorStatus := "unknown"

/-- The value cached under `validator_status:<validator>` (`scrapper.go`). -/
structure ValidatorStatusInfo where
  Status : String
  Timestamp : Time
deriving DecidableEq, Repr

/-- An alert (`notifier.go`). -/
structure Alert where
  ID : Int
  ADNLAddr : String
  ValidatorADNL : String
  Status : ValidatorStatus
  IsAcknowledged : Bool
  AckBy : Int
  AckByUsername : String
  LastAlert : Time
  Efficiency : ℚ
  PreviousStatus : String
  PreviousStatusSince : Time
  Duration : Duration
  Timestamp : Nat
deriving DecidableEq, Repr

/-- The zero value of `Alert` (`var alert Alert`). -/
def Alert.zero : Alert :=
  { ID := 0, ADNLAddr := "", ValidatorADNL := "", Status := "", IsAcknowledged := false,
    AckBy := 0, AckByUsername := "", LastAlert := 0, Efficiency := 0, PreviousStatus := "",
    PreviousStatusSince := 0, Duration := 0, Timestamp := 0 }

/-- One entry of `models.Meta`. -/
structure MetaEntry where
  Weight : String
  Index : Nat
  Stake : String
  WalletAddress : String
  AvgEfficiency : ℚ
  CycleID : Nat
deriving DecidableEq, Repr

/-- A Go map, as the list of its entries; the first entry of a key is its value. -/
abbrev GoMap (κ ν : Type) := List (κ × ν)

/-- `m[k] = v`. -/
def GoMap.set {κ ν : Type} [DecidableEq κ] (m : GoMap κ ν) (k : κ) (v : ν) : GoMap κ ν :=
  (k, v) :: m.filter (fun p => decide (p.1 ≠ k))

/-- `v, ok := m[k]`. -/
def GoMap.get {κ ν : Type} [DecidableEq κ] (m : GoMap κ ν) (k : κ) : Option ν :=
  (m.find? (fun p => decide (p.1 = k))).map Prod.snd

/-- `models.Meta`. -/
abbrev Meta := GoMap String MetaEntry

/-- Buckets of one validator, `map[uint32]float64`. -/
abbrev Chunk := GoMap Nat ℚ

/-- The status grid, `map[string]map[uint32]float64`. -/
abbrev Statuses := GoMap String Chunk

/-- A row appended to `validator_status_history` by `InsertStatusChange`. -/
structure StatusRecord where
  adnl_addr : String
  validator_adnl : String
  timestamp : Int
  status : String
deriving DecidableEq, Repr

/-- A point of the efficiency chart (`models.ValidatorEfficiency`). -/
structure ValidatorEfficiency where
  ADNLAddr : String
  ValidatorADNL : String
  IntervalStart : Nat
  Efficiency : ℚ
  CycleID : Nat
deriving DecidableEq, Repr

/-! ## The cache (Redis) -/

/-- A value held by the cache: a counter, a plain string, the JSON document of
one of the program's values, or a set of strings. -/
inductive Payload where
  | int (n : Int)
  | raw (s : String)
  | statusInfo (v : ValidatorStatusInfo)
  | alert (a : Alert)
  | adnlList (l : List String)
  | chunk (c : Chunk)
  | meta (m : Meta)
  | chart (l : List ValidatorEfficiency)
  | set (members : List String)
deriving DecidableEq, Repr

/-- A cache entry: its value and the instant at which it expires, if any. -/
structure Entry where
  val : Payload
  expireAt : Option Time
deriving DecidableEq, Repr

/-- The text of a message to the bot: a given string, or the acknowledgement
notice with the values its format receives. -/
inductive MessageText where
  | text (s : String)
  | acknowledged (now : Time) (userName : String) (userID : Int)
deriving DecidableEq, Repr

/-- A message handed to the bot (`bot.SendMessage`) at the instant `sentAt`;
`CallbackData` is the data of its inline button, `ok` whether the call
succeeded. -/
structure BotMessage where
  ChatID : Int
  Text : MessageText
  CallbackData : Option String
  sentAt : Time
  ok : Bool
deriving DecidableEq, Repr

/-- A query issued to the store. -/
inductive StoreQuery where
  | distinctADNLs (from_ to_ : Time)
  | statuses (intervalSeconds : Nat) (adnls : List String) (from_ to_ : Time) (cycleID : Nat)
  | validatorsMeta (from_ to_ : Time) (cycleID : Nat)
  | chart (intervalSeconds : Nat) (adnl : String) (from_ to_ : Time)
deriving DecidableEq, Repr

/-- Everything the components share and act on: the cache's keys, the messages
published on its channels, the rows appended to `validator_status_history`, the
messages handed to the bot and the queries issued to the store. New entries are
put in front. -/
structure World where
  kv : List (String × Entry)
  published : List (String × Payload)
  statusHistory : List StatusRecord
  sent : List BotMessage
  queries : List StoreQuery
deriving DecidableEq, Repr

/-- A world with nothing in it. -/
def World.empty : World :=
  { kv := [], published := [], statusHistory := [], sent := [], queries := [] }

/-- Which dependency calls fail. -/
structure Faults where
  get : String → Bool
  set : String → Bool
  incr : String → Bool
  expire : String → Bool
  publish : Bool
  insertStatus : Bool
  send : Int → Bool
  query : StoreQuery → Bool
  sadd : String → Bool
  srem : String → Bool
  smembers : String → Bool
  sismember : String → Bool
  keys : Bool

/-- Every dependency call succeeds. -/
def noFaults : Faults :=
  { get := fun _ => false, set := fun _ => false, incr := fun _ => false,
    expire := fun _ => false, publish := false, insertStatus := false,
    send := fun _ => false, query := fun _ => false, sadd := fun _ => false,
    srem := fun _ => false, smembers := fun _ => false, sismember := fun _ => false,
    keys := false }

/-- An error value; the text is the message of the Go error. -/
abbrev Error := String

deriving instance DecidableEq for Except

/-- The live entry of a key at `now`: an entry whose expiry has come is gone. -/
def World.live (w : World) (now : Time) (key : String) : Option Entry :=
  match w.kv.lookup key with
  | some e =>
    match e.expireAt with
    | some t => if t ≤ now then none else some e
    | none => some e
  | none => none

/-- Outcome of `GET`: the value, `redis.Nil`, or another error. -/
inductive GetResult where
  | value (p : Payload)
  | nil
  | err (e : Error)
deriving DecidableEq, Repr

/-- `redisClient.Get(ctx, key).Result()`. -/
def redisGet (f : Faults) (w : World) (now : Time) (key : String) : GetResult :=
  if f.get key then .err "redis: get failed"
  else
    match w.live now key with
    | some e => .value e.val
    | none => .nil

/-- `redisClient.Set(ctx, key, value, ttl)`: a `ttl` of zero means no expiry. -/
def redisSet (f : Faults) (w : World) (now : Time) (key : String) (value : Payload)
    (ttl : Duration) : World × Option Error :=
  if f.set key then (w, some "redis: set failed")
  else
    let e : Entry := { val := value, expireAt := if 0 < ttl then some (now + ttl) else none }
    ({ w with kv := (key, e) :: w.kv }, none)

/-- Largest `int64`. -/
def maxInt64 : Int := 9223372036854775807

/-- `redisClient.Incr(ctx, key).Result()`: an absent key counts from zero, the
expiry of a live key is kept, a value that is not an integer or would overflow
is an error. -/
def redisIncr (f : Faults) (w : World) (now : Time) (key : String) : World × Except Error Int :=
  if f.incr key then (w, .error "redis: incr failed")
  else
    match w.live now key with
    | none => ({ w with kv := (key, { val := .int 1, expireAt := none }) :: w.kv }, .ok 1)
    | some e =>
      match e.val with
      | .int n =>
        if n < maxInt64 then
          ({ w with kv := (key, { val := .int (n + 1), expireAt := e.expireAt }) :: w.kv },
            .ok (n + 1))
        else (w, .error "ERR increment or decrement would overflow")
      | _ => (w, .error "ERR value is not an integer or out of range")

/-- `redisClient.Expire(ctx, key, ttl).Err()`. -/
def redisExpire (f : Faults) (w : World) (now : Time) (key : String) (ttl : Duration) :
    World × Option Error :=
  if f.expire key then (w, some "redis: expire failed")
  else
    match w.live now key with
    | some e => ({ w with kv := (key, { e with expireAt := some (now + ttl) }) :: w.kv }, none)
    | none => (w, none)

/-- `redisClient.Publish(ctx, channel, message).Err()`. -/
def redisPublish (f : Faults) (w : World) (channel : String) (message : Payload) :
    World × Option Error :=
  if f.publish then (w, some "redis: publish failed")
  else ({ w with published := (channel, message) :: w.published }, none)

/-! ## The cache service (`cache.go`) -/

/-- `CacheService.CacheData(key, data, ttl)`: `data` is given as its JSON
document. -/
def CacheData (f : Faults) (w : World) (now : Time) (key : String) (data : Payload)
    (ttl : Duration) : World × Option Error :=
  redisSet f w now key data ttl

/-- `CacheService.CacheChunkData(key, data, ttl)`. -/
def CacheChunkData (f : Faults) (w : World) (now : Time) (key : String) (data : Chunk)
    (ttl : Duration) : World × Option Error :=
  redisSet f w now key (.chunk data) ttl

/-- `CacheService.GetCachedData(key, &result)`: `.ok none` is `(false, nil)`,
`.ok (some v)` is `(true, nil)` with `result` set to `v`; `decode` unmarshals
into the type of `result`. -/
def GetCachedData {α : Type} (decode : Payload → Option α) (f : Faults) (w : World)
    (now : Time) (key : String) : Except Error (Option α) :=
  match redisGet f w now key with
  | .nil => .ok none
  | .err e => .error e
  | .value p =>
    match decode p with
    | some v => .ok (some v)
    | none => .error "json: cannot unmarshal"

/-- `CacheService.IncrementCounter(key)`. -/
def IncrementCounter (f : Faults) (w : World) (now : Time) (key : String) :
    World × Except Error Int :=
  match redisIncr f w now key with
  | (w1, .error e) => (w1, .error ("failed to increment counter: " ++ e))
  | (w1, .ok n) => (w1, .ok n)

def decodeStatusInfo : Payload → Option ValidatorStatusInfo
  | .statusInfo v => some v
  | _ => none

def decodeAlert : Payload → Option Alert
  | .alert a => some a
  | _ => none

def decodeChunk : Payload → Option Chunk
  | .chunk c => some c
  | _ => none

def decodeMeta : Payload → Option Meta
  | .meta m => some m
  | _ => none

def decodeADNLList : Payload → Option (List String)
  | .adnlList l => some l
  | _ => none

/-! ## Decimal rendering -/

/-- `strconv.FormatInt(n, 10)`, also what `%d` prints. -/
def FormatInt (n : Int) : String :=
  match n with
  | .ofNat m => String.mk (Nat.toDigits 10 m)
  | .negSucc m => String.mk ('-' :: Nat.toDigits 10 (m + 1))

/-! ## Publishing an alert and recording a status (`notifier.go`, `clickhouse.go`) -/

/-- `Notifier.PublishAlert(alert)`. -/
def PublishAlert (f : Faults) (w : World) (now : Time) (alert : Alert) : World × Option Error :=
  let alertJSON := Payload.alert alert
  let alertKey := "alert_" ++ FormatInt alert.ID
  match redisSet f w now alertKey alertJSON 0 with
  | (w1, some e) => (w1, some ("failed to save alert to Redis: " ++ e))
  | (w1, none) =>
    match redisPublish f w1 "validator_notifications" alertJSON with
    | (w2, some e) => (w2, some ("failed to publish alert to Redis: " ++ e))
    | (w2, none) => (w2, none)

/-- `ClickhouseService.InsertStatusChange(adnlAddr, validatorAdnl, status, timestamp)`. -/
def InsertStatusChange (f : Faults) (w : World) (adnlAddr validatorAdnl : String)
    (status : ValidatorStatus) (timestamp : Time) : World × Option Error :=
  if f.insertStatus then
    (w, some "error inserting status change into ClickHouse: exec failed")
  else
    ({ w with statusHistory :=
        { adnl_addr := adnlAddr, validator_adnl := validatorAdnl,
          timestamp := Time.Unix timestamp, status := status } :: w.statusHistory }, none)

/-! ## Status-change detection (`scrapper.go`) -/

/-- `Scrapper.generateAlertID()`. -/
def generateAlertID (f : Faults) (w : World) (now : Time) : World × Except Error Int :=
  match IncrementCounter f w now "alert_id" with
  | (w1, .error e) => (w1, .error ("failed to generate alert ID: " ++ e))
  | (w1, .ok alertID) => (w1, .ok alertID)

/-- `Scrapper.checkStatusChange(ADNLAddr, validatorADNL, efficiency, threshold)`
run at `now`; the second component is the returned error (`none` is `nil`). -/
def checkStatusChange (f : Faults) (w : World) (now : Time) (ADNLAddr validatorADNL : String)
    (efficiency threshold : ℚ) : World × Option Error :=
  let currentStatus : ValidatorStatus :=
    if efficiency < threshold then StatusNotOK else StatusOK
  let key := "validator_status:" ++ validatorADNL
  match GetCachedData decodeStatusInfo f w now key with
  | .error e => (w, some ("failed to get cached data: " ++ e))
  | .ok found =>
    let previousStatusInfo : ValidatorStatusInfo :=
      match found with
      | some v => v
      | none => { Status := StatusUnknown, Timestamp := now }
    let previousStatus : ValidatorStatus := previousStatusInfo.Status
    let previousTimestamp := previousStatusInfo.Timestamp
    if currentStatus ≠ previousStatus then
      let duration := Time.Sub now previousTimestamp
      let newStatusInfo : ValidatorStatusInfo := { Status := currentStatus, Timestamp := now }
      match CacheData f w now key (.statusInfo newStatusInfo) 0 with
      | (w1, some e) => (w1, some ("failed to cache new status: " ++ e))
      | (w1, none) =>
        match generateAlertID f w1 now with
        | (w2, .error e) => (w2, some ("failed to generate alert ID: " ++ e))
        | (w2, .ok alertID) =>
          let alert : Alert :=
            { ID := alertID
              ADNLAddr := ADNLAddr
              ValidatorADNL := validatorADNL
              Status := currentStatus
              IsAcknowledged := false
              AckBy := 0
              AckByUsername := ""
              LastAlert := now
              Efficiency := efficiency
              PreviousStatus := previousStatus
              PreviousStatusSince := previousTimestamp
              Duration := duration
              Timestamp := (Time.Unix now % 4294967296).toNat }
          let w3 := (PublishAlert f w2 now alert).1
          let w4 := (InsertStatusChange f w3 ADNLAddr validatorADNL currentStatus now).1
          (w4, none)
    else (w, none)

/-- What `checkStatusChange` takes as the previous status of a validator at
`now`: the value cached under `validator_status:<validator>`, and `unknown`
since `now` when there is none. -/
def cachedInfo (w : World) (now : Time) (validatorADNL : String) : ValidatorStatusInfo :=
  match w.live now ("validator_status:" ++ validatorADNL) with
  | some { val := .statusInfo v, .. } => v
  | _ => { Status := StatusUnknown, Timestamp := now }

/-- The status `checkStatusChange` compares a sample with. -/
def cachedStatus (w : World) (now : Time) (validatorADNL : String) : ValidatorStatus :=
  (cachedInfo w now validatorADNL).Status

/-- The value of a counter at `now`, zero when the key is absent. -/
def counterValue (w : World) (now : Time) (key : String) : Int :=
  match w.live now key with
  | some { val := .int n, .. } => n
  | _ => 0

/-- The classification of a sample in the words of the specification: OK when
the efficiency is at least the threshold, NOT_OK otherwise. -/
def classification (efficiency threshold : ℚ) : ValidatorStatus :=
  if threshold ≤ efficiency then StatusOK else StatusNotOK

/-- The alert `checkStatusChange` builds on a status transition found in `w`
at `now`. -/
def transitionAlert (w : World) (now : Time) (ADNLAddr validatorADNL : String)
    (efficiency threshold : ℚ) : Alert :=
  { ID := counterValue w now "alert_id" + 1
    ADNLAddr := ADNLAddr
    ValidatorADNL := validatorADNL
    Status := classification efficiency threshold
    IsAcknowledged := false
    AckBy := 0
    AckByUsername := ""
    LastAlert := now
    Efficiency := efficiency
    PreviousStatus := cachedStatus w now validatorADNL
    PreviousStatusSince := (cachedInfo w now validatorADNL).Timestamp
    Duration := Time.Sub now (cachedInfo w now validatorADNL).Timestamp
    Timestamp := (Time.Unix now % 4294967296).toNat }

/-- The expiry a counter keeps when it is incremented at `now`. -/
def counterExpiry (w : World) (now : Time) (key : String) : Option Time :=
  match w.live now key with
  | some e => e.expireAt
  | none => none

/-- The cache holds for a validator what `checkStatusChange` itself writes:
nothing or a status without expiry under `validator_status:<validator>`, and
under `alert_id` nothing or a counter without expiry; the counter can be
incremented `m` more times. -/
def TrackerReady (w : World) (validatorADNL : String) (m : Nat) : Prop :=
  (w.kv.lookup ("validator_status:" ++ validatorADNL) = none ∨
    ∃ info, w.kv.lookup ("validator_status:" ++ validatorADNL)
      = some { val := .statusInfo info, expireAt := none }) ∧
  ((w.kv.lookup "alert_id" = none ∧ (m : Int) ≤ maxInt64) ∨
    ∃ n, w.kv.lookup "alert_id" = some { val := .int n, expireAt := none } ∧
      n + (m : Int) ≤ maxInt64)

/-- The statuses of the alerts among published messages. -/
def alertStatuses (msgs : List (String × Payload)) : List ValidatorStatus :=
  msgs.filterMap (fun p => (decodeAlert p.2).map Alert.Status)

/-- Edge-triggered alerting in closed form: for each sample the status it is
compared with and the statuses of the alerts it raises, starting from the
status `prev`. -/
def edgeTriggered (threshold : ℚ) : ValidatorStatus → List ℚ →
    List (ValidatorStatus × List ValidatorStatus)
  | _, [] => []
  | prev, efficiency :: rest =>
    (prev, if classification efficiency threshold = prev then []
           else [classification efficiency threshold]) ::
      edgeTriggered threshold (classification efficiency threshold) rest

/-- The alerts published by a step from `w` to `w1`: the messages of `w1` on
`validator_notifications` that `w` did not have yet. -/
def newAlerts (w w1 : World) : List (String × Payload) :=
  w1.published.take (w1.published.length - w.published.length)

/-- What one evaluated sample looked like. -/
structure SampleStep where
  efficiency : ℚ
  cachedBefore : ValidatorStatus
  alerts : List (String × Payload)
  error : Option Error
deriving DecidableEq, Repr

/-- Evaluate the samples of one validator in order, each at its own instant. -/
def runSamples (f : Faults) (ADNLAddr validatorADNL : String) (threshold : ℚ) :
    World → List (ℚ × Time) → List SampleStep × World
  | w, [] => ([], w)
  | w, (efficiency, now) :: rest =>
    let r := checkStatusChange f w now ADNLAddr validatorADNL efficiency threshold
    let tail := runSamples f ADNLAddr validatorADNL threshold r.1 rest
    ({ efficiency := efficiency, cachedBefore := cachedStatus w now validatorADNL,
       alerts := newAlerts w r.1, error := r.2 } :: tail.1, tail.2)

/-! ## The alert dispatcher (`notifier.go`) -/

def GlobalSubscriptionKey : String := "global_subscribers"

def MaxMessagesPerMinute : Int := 20

/-- `n.bot.SendMessage(ctx, msg)`: the message is handed to the bot; the call
fails when the fault is set for the chat. -/
def botSendMessage (f : Faults) (w : World) (now : Time) (chatID : Int) (text : MessageText)
    (callbackData : Option String) : World × Option Error :=
  ({ w with sent := { ChatID := chatID, Text := text, CallbackData := callbackData,
                      sentAt := now, ok := !f.send chatID } :: w.sent },
    if f.send chatID then some "bot: send failed" else none)

/-- `Notifier.sendMessage(chatID, message, alert)` run at `now`. -/
def sendMessage (f : Faults) (w : World) (now : Time) (chatID : Int) (message : String)
    (alert : Alert) : World :=
  let rateLimitKey := "rate_limit_" ++ FormatInt chatID ++ "_" ++ FormatInt (Time.Unix now)
  match redisIncr f w now rateLimitKey with
  | (w1, .error _) => w1
  | (w1, .ok messageCount) =>
    let w2 := if messageCount = 1 then (redisExpire f w1 now rateLimitKey Minute).1 else w1
    if messageCount > MaxMessagesPerMinute then w2
    else
      let replyMarkup : Option String :=
        if alert.Status = StatusNotOK then some ("ack_" ++ FormatInt alert.ID) else none
      (botSendMessage f w2 now chatID (.text message) replyMarkup).1

/-- The sender of a callback (`models.User`). -/
structure User where
  ID : Int
  Username : String
deriving DecidableEq, Repr

/-- A callback query (`models.CallbackQuery`); `MessageChatID` is the chat of
`callback.Message.Message` when that message is present. -/
structure CallbackQuery where
  From : User
  Data : String
  MessageChatID : Option Int
deriving DecidableEq, Repr

/-- A text message of a chat (`models.Message`). -/
structure Message where
  ChatID : Int
  Text : String
deriving DecidableEq, Repr

/-- An update delivered to a handler (`models.Update`). -/
structure Update where
  CallbackQuery : Option CallbackQuery
  Message : Option Message := none
deriving DecidableEq, Repr

/-- `len(s)`. -/
def len (s : String) : Nat := s.data.length

/-- `s[:n]`. -/
def sliceTo (s : String) (n : Nat) : String := String.mk (s.data.take n)

/-- `s[n:]`. -/
def sliceFrom (s : String) (n : Nat) : String := String.mk (s.data.drop n)

/-- `Notifier.handleCallback(ctx, b, update)` run at `now`. -/
def handleCallback (f : Faults) (w : World) (now : Time) (update : Update) : World :=
  match update.CallbackQuery with
  | none => w
  | some callback =>
    let data := callback.Data
    if len data > 4 ∧ sliceTo data 4 = "ack_" then
      let alertId := sliceFrom data 4
      let alertKey := "alert_" ++ alertId
      match redisGet f w now alertKey with
      | .nil =>
        match callback.MessageChatID with
        | some chatID => (botSendMessage f w now chatID (.text "No such alert.") none).1
        | none => w
      | res =>
        let alertData : Payload :=
          match res with
          | .value p => p
          | _ => .raw ""
        let alert0 : Alert :=
          match decodeAlert alertData with
          | some a => a
          | none => Alert.zero
        let alert : Alert := { alert0 with IsAcknowledged := true, AckBy := callback.From.ID }
        let w1 := (redisSet f w now alertKey alertData 0).1
        let currentStatus : ValidatorStatus := StatusAcknowledged
        let w2 := (InsertStatusChange f w1 alert.ADNLAddr alert.ValidatorADNL currentStatus now).1
        match callback.MessageChatID with
        | some chatID =>
          let userName := if callback.From.Username ≠ "" then callback.From.Username else "user"
          (botSendMessage f w2 now chatID
            (.acknowledged now userName callback.From.ID) none).1
        | none => w2
    else w

/-- Calls of `sendMessage` for one recipient, one after the other, each at its
own instant. -/
def sendAll (f : Faults) (chatID : Int) (message : String) (alert : Alert) :
    World → List Time → World
  | w, [] => w
  | w, now :: rest => sendAll f chatID message alert (sendMessage f w now chatID message alert) rest

/-- How many messages were handed to the bot for `chatID` at an instant `t`
with `start <= t < start + width`. -/
def handedWithin (w : World) (chatID : Int) (start : Time) (width : Duration) : Nat :=
  (w.sent.filter (fun m =>
    decide (m.ChatID = chatID) && decide (start ≤ m.sentAt) && decide (m.sentAt < start + width))).length

/-! ## The query service (`clickhouse.go`) -/

/-- `roundTimeRange(from, to)` called at `now`. -/
def roundTimeRange (now : Time) (from_ to_ : Time) : Time × Time :=
  let fromRounded := Time.Round from_ Minute
  let toRounded := Time.Round to_ Minute
  if Time.Before now toRounded then
    let diff := Time.Sub toRounded fromRounded
    let toRounded1 := Time.Add (Time.Round now Minute) (-Minute)
    let fromRounded1 := Time.Add toRounded1 (-diff)
    (fromRounded1, toRounded1)
  else (fromRounded, toRounded)

/-- A row of the statuses query as `rows.Scan` reads it. -/
structure StatusRow where
  intervalStart : Nat
  avgEfficiency : ℚ
  validatorAdnl : String
  cycleIDRow : Nat
deriving DecidableEq, Repr

/-- A row of the metadata query as `rows.Scan` reads it. -/
structure MetaRow where
  adnl : String
  avgStake : ℚ
  avgWeight : ℚ
  index : Nat
  walletAddress : String
  avgEfficiency : ℚ
  cycleIDRow : Nat
deriving DecidableEq, Repr

/-- What the program runs against. The store is an external system: it is given
by the rows its queries return. The statuses query selects and groups by
validator (`adnl_addr IN (...)`, `GROUP BY adnl_addr, ...`), so its answer is
given per validator: `statusRows adnl intervalSeconds from to cycleID` are the
rows (bucket start, average, cycle) it returns for `adnl`, in result order,
filled buckets included. `distinctADNLs from to` are the validators with a
sample in the date range and `chartRows adnl intervalSeconds from to` the rows
(bucket start, average, cycle) of the chart query. `uint32OfFloat` is the
conversion of a `float64` to `uint32`, applied to the integer part; the
language leaves it to the implementation for values outside `uint32`. -/
structure Env where
  statusRows : String → Nat → Time → Time → Nat → List (Nat × ℚ × Nat)
  metaRows : Time → Time → Nat → List MetaRow
  uint32OfFloat : Int → Nat
  distinctADNLs : Time → Time → List String := fun _ _ => []
  chartRows : String → Nat → Time → Time → List (Nat × ℚ × Nat) := fun _ _ _ _ => []

/-- `uint32(d.Seconds())`: the conversion applied to the whole seconds of `d`
(`d.Seconds()` is exact on a duration of whole seconds). -/
def Env.totalSeconds (env : Env) (d : Duration) : Nat :=
  env.uint32OfFloat (Int.tdiv d Second)

/-- The rows of the statuses query for a list of validators. -/
def Env.statusQueryRows (env : Env) (intervalSeconds : Nat) (adnls : List String)
    (from_ to_ : Time) (cycleID : Nat) : List StatusRow :=
  adnls.flatMap (fun adnl =>
    (env.statusRows adnl intervalSeconds from_ to_ cycleID).map (fun r =>
      { intervalStart := r.1, avgEfficiency := r.2.1, validatorAdnl := adnl,
        cycleIDRow := r.2.2 }))

/-- The loop over `rows.Next()` of `fetchStatusesFromDB`. -/
def scanStatuses : Statuses → List StatusRow → Statuses
  | statuses, [] => statuses
  | statuses, row :: rest =>
    let inner : Chunk :=
      match statuses.get row.validatorAdnl with
      | some c => c
      | none => []
    scanStatuses (statuses.set row.validatorAdnl (inner.set row.intervalStart row.avgEfficiency))
      rest

/-- `ClickhouseService.fetchStatusesFromDB(adnls, from, to, cycleID)`. -/
def fetchStatusesFromDB (env : Env) (f : Faults) (w : World) (adnls : List String)
    (from_ to_ : Time) (cycleID : Nat) : World × Except Error Statuses :=
  let totalSeconds := env.totalSeconds (Time.Sub to_ from_)
  if totalSeconds ≤ 0 then (w, .error "invalid date interval")
  else
    let intervalSeconds := totalSeconds / 60
    let q := StoreQuery.statuses intervalSeconds adnls from_ to_ cycleID
    let w1 := { w with queries := q :: w.queries }
    if f.query q then (w1, .error "clickhouse: query failed")
    else
      (w1, .ok (scanStatuses [] (env.statusQueryRows intervalSeconds adnls from_ to_ cycleID)))

/-- The first loop of `getCachedStatuses`: the validators found in the cache
and those missing, or the first cache error. -/
def readCachedStatuses (f : Faults) (w : World) (now : Time) (from_ to_ : Time) (cycleID : Nat) :
    List String → Statuses → List String → Except Error (Statuses × List String)
  | [], statuses, missingADNLs => .ok (statuses, missingADNLs)
  | adnl :: rest, statuses, missingADNLs =>
    let cacheKey := "ValidatorStatus:" ++ adnl ++ ":" ++ FormatInt (Time.Unix64 from_) ++ ":"
      ++ FormatInt (Time.Unix64 to_) ++ ":" ++ FormatInt cycleID
    match GetCachedData decodeChunk f w now cacheKey with
    | .error e => .error e
    | .ok (some cachedData) =>
      readCachedStatuses f w now from_ to_ cycleID rest (statuses.set adnl cachedData) missingADNLs
    | .ok none =>
      readCachedStatuses f w now from_ to_ cycleID rest statuses (missingADNLs ++ [adnl])

/-- The second loop of `getCachedStatuses`, over the entries of
`missingStatuses`. -/
def cacheMissingStatuses (f : Faults) (now : Time) (from_ to_ : Time) (cycleID : Nat) :
    World → Statuses → List (String × Chunk) → World × Statuses
  | w, statuses, [] => (w, statuses)
  | w, statuses, (adnl, data) :: rest =>
    let cacheKey := "ValidatorStatus:" ++ adnl ++ ":" ++ FormatInt (Time.Unix64 from_) ++ ":"
      ++ FormatInt (Time.Unix64 to_) ++ ":" ++ FormatInt cycleID
    let w1 := (CacheChunkData f w now cacheKey data Hour).1
    cacheMissingStatuses f now from_ to_ cycleID w1 (statuses.set adnl data) rest

/-- `ClickhouseService.getCachedStatuses(adnlList, from, to, cycleID, cacheService)`
run at `now`. -/
def getCachedStatuses (env : Env) (f : Faults) (w : World) (now : Time) (adnlList : List String)
    (from_ to_ : Time) (cycleID : Nat) : World × Except Error Statuses :=
  match readCachedStatuses f w now from_ to_ cycleID adnlList [] [] with
  | .error e => (w, .error e)
  | .ok (statuses, missingADNLs) =>
    if missingADNLs.length > 0 then
      match fetchStatusesFromDB env f w missingADNLs from_ to_ cycleID with
      | (w1, .error e) => (w1, .error e)
      | (w1, .ok missingStatuses) =>
        let r := cacheMissingStatuses f now from_ to_ cycleID w1 statuses missingStatuses
        (r.1, .ok r.2)
    else (w, .ok statuses)

/-- The key under which `getCachedStatuses` caches one validator. -/
def validatorStatusKey (adnl : String) (from_ to_ : Time) (cycleID : Nat) : String :=
  "ValidatorStatus:" ++ adnl ++ ":" ++ FormatInt (Time.Unix64 from_) ++ ":"
    ++ FormatInt (Time.Unix64 to_) ++ ":" ++ FormatInt cycleID

/-- The keys of a map are distinct. -/
def GoMap.Distinct {κ ν : Type} (m : GoMap κ ν) : Prop := (m.map Prod.fst).Nodup

/-- Two results of the status grid are the same: the same error, or maps with
the same entries. -/
def SameStatuses : Except Error Statuses → Except Error Statuses → Prop
  | .ok a, .ok b => ∀ k, a.get k = b.get k
  | .error e1, .error e2 => e1 = e2
  | _, _ => False

/-- `int(x)` for a `float64` within the range of `int`: the integer part. -/
def intOfFloat (x : ℚ) : Int := Int.tdiv x.num x.den

/-- The loop over `rows.Next()` of `GetValidatorsMeta`. -/
def scanMeta : Meta → List MetaRow → Meta
  | m, [] => m
  | m, row :: rest =>
    scanMeta (m.set row.adnl
      { Stake := FormatInt (intOfFloat row.avgStake)
        Weight := FormatInt (intOfFloat row.avgWeight)
        Index := row.index
        WalletAddress := row.walletAddress
        AvgEfficiency := row.avgEfficiency
        CycleID := row.cycleIDRow }) rest

/-- `ClickhouseService.GetValidatorsMeta(from, to, cycleID, cacheService)` run at
`now`. -/
def GetValidatorsMeta (env : Env) (f : Faults) (w : World) (now : Time) (from_ to_ : Time)
    (cycleID : Nat) : World × Except Error Meta :=
  let fromRounded := (roundTimeRange now from_ to_).1
  let toRounded := (roundTimeRange now from_ to_).2
  let cacheKey := "GetValidatorsMeta:" ++ FormatInt (Time.Unix64 fromRounded) ++ ":"
    ++ FormatInt (Time.Unix64 toRounded)
  match GetCachedData decodeMeta f w now cacheKey with
  | .error e => (w, .error e)
  | .ok (some m) => (w, .ok m)
  | .ok none =>
    let q := StoreQuery.validatorsMeta fromRounded toRounded cycleID
    let w1 := { w with queries := q :: w.queries }
    if f.query q then (w1, .error "clickhouse: query failed")
    else
      let m := scanMeta [] (env.metaRows fromRounded toRounded cycleID)
      let w2 := (CacheData f w1 now cacheKey (.meta m) Hour).1
      (w2, .ok m)

/-- The hits of the first loop of `getCachedStatuses` over a list of
validators when the cache answers `hit` for each of them. -/
def hitsOf (hit : String → Option Chunk) : Statuses → List String → Statuses
  | st, [] => st
  | st, a :: l =>
    match hit a with
    | some d => hitsOf hit (st.set a d) l
    | none => hitsOf hit st l

/-! ## Concrete inputs -/

/-- An unacknowledged NOT_OK alert with id 7. -/
def exAlert : Alert :=
  { ID := 7, ADNLAddr := "A", ValidatorADNL := "V", Status := StatusNotOK,
    IsAcknowledged := false, AckBy := 0, AckByUsername := "", LastAlert := 100,
    Efficiency := 0, PreviousStatus := "ok", PreviousStatusSince := 40, Duration := 60,
    Timestamp := 0 }

/-- User 42 presses the acknowledge button of alert 7. -/
def exAck : Update :=
  { CallbackQuery := some { From := { ID := 42, Username := "bob" }, Data := "ack_7",
                            MessageChatID := some 42 } }

/-- Twenty-one instants one second apart, from the epoch on. -/
def exBurst : List Time := (List.range 21).map (fun i => (i : Int) * Second)

/-- A store holding validator `A` in cycle 1 and validator `B` in cycle 2, and
two buckets of samples for `A`. -/
def exEnv : Env :=
  { statusRows := fun adnl _ _ _ _ => if adnl = "A" then [(0, 1, 1), (60, 0, 1)] else []
    metaRows := fun _ _ cycleID =>
      (if cycleID = 2 then [] else
        [{ adnl := "A", avgStake := 5, avgWeight := 3, index := 0, walletAddress := "wa",
           avgEfficiency := 1, cycleIDRow := 1 }]) ++
      (if cycleID = 1 then [] else
        [{ adnl := "B", avgStake := 9, avgWeight := 4, index := 1, walletAddress := "wb",
           avgEfficiency := 0, cycleIDRow := 2 }])
    uint32OfFloat := fun x => (x % 4294967296).toNat }

/-! ## Sets of the cache -/

/-- `strings.HasPrefix(s, pre)`; a key matches the pattern `pre*` of `KEYS`
exactly when it starts with `pre`. -/
def startsWith (pre s : String) : Bool := pre.data.isPrefixOf s.data

/-- The world without the key. -/
def World.delete (w : World) (key : String) : World :=
  { w with kv := w.kv.filter (fun p => decide (p.1 ≠ key)) }

/-- `redisClient.SAdd(ctx, key, member).Err()`: the set is created when the
key is absent; a key that holds another kind of value is an error. -/
def redisSAdd (f : Faults) (w : World) (now : Time) (key member : String) :
    World × Option Error :=
  if f.sadd key then (w, some "redis: sadd failed")
  else
    match w.live now key with
    | none => ({ w with kv := (key, { val := .set [member], expireAt := none }) :: w.kv }, none)
    | some e =>
      match e.val with
      | .set members =>
        if member ∈ members then (w, none)
        else
          ({ w with kv := (key, { val := .set (members ++ [member]),
                                  expireAt := e.expireAt }) :: w.kv }, none)
      | _ => (w, some "WRONGTYPE Operation against a key holding the wrong kind of value")

/-- `redisClient.SRem(ctx, key, member).Err()`: a set left without members is
deleted. -/
def redisSRem (f : Faults) (w : World) (now : Time) (key member : String) :
    World × Option Error :=
  if f.srem key then (w, some "redis: srem failed")
  else
    match w.live now key with
    | none => (w, none)
    | some e =>
      match e.val with
      | .set members =>
        if member ∈ members then
          if members.filter (fun m => decide (m ≠ member)) = [] then (w.delete key, none)
          else
            ({ w with kv := (key, { val := .set (members.filter (fun m => decide (m ≠ member))),
                                    expireAt := e.expireAt }) :: w.kv }, none)
        else (w, none)
      | _ => (w, some "WRONGTYPE Operation against a key holding the wrong kind of value")

/-- `redisClient.SMembers(ctx, key).Result()`. -/
def redisSMembers (f : Faults) (w : World) (now : Time) (key : String) :
    Except Error (List String) :=
  if f.smembers key then .error "redis: smembers failed"
  else
    match w.live now key with
    | none => .ok []
    | some e =>
      match e.val with
      | .set members => .ok members
      | _ => .error "WRONGTYPE Operation against a key holding the wrong kind of value"

/-- `redisClient.SIsMember(ctx, key, member).Result()`. -/
def redisSIsMember (f : Faults) (w : World) (now : Time) (key member : String) :
    Except Error Bool :=
  if f.sismember key then .error "redis: sismember failed"
  else
    match w.live now key with
    | none => .ok false
    | some e =>
      match e.val with
      | .set members => .ok (decide (member ∈ members))
      | _ => .error "WRONGTYPE Operation against a key holding the wrong kind of value"

/-- `redisClient.Keys(ctx, pre + "*").Result()`: the live keys that start with
`pre`. -/
def redisKeys (f : Faults) (w : World) (now : Time) (pre : String) :
    Except Error (List String) :=
  if f.keys then .error "redis: keys failed"
  else
    .ok (((w.kv.map Prod.fst).dedup).filter
      (fun k => (w.live now k).isSome && startsWith pre k))

/-! ## Subscriptions (`notifier.go`) -/

/-- The pieces of a text between single spaces, with the pending piece `cur`
in reverse. -/
def splitSpaces : List Char → List Char → List String
  | [], cur => [String.mk cur.reverse]
  | c :: cs, cur =>
    if c = ' ' then String.mk cur.reverse :: splitSpaces cs []
    else splitSpaces cs (c :: cur)

/-- `strings.Split(s, " ")`. -/
def Split (s : String) : List String := splitSpaces s.data []

/-- `regexp.MatchString("^[A-F0-9]{64}$", adnl)`. -/
def matchADNL (adnl : String) : Bool :=
  decide (adnl.data.length = 64) &&
    adnl.data.all (fun c => (decide ('A' ≤ c) && decide (c ≤ 'F')) ||
      (decide ('0' ≤ c) && decide (c ≤ '9')))

/-- `Notifier.handleAdd(ctx, b, update)` run at `now`. -/
def handleAdd (f : Faults) (w : World) (now : Time) (update : Update) : World :=
  match update.Message with
  | none => w
  | some m =>
    if m.Text = "" then w
    else
      let chatID := m.ChatID
      match Split m.Text with
      | _ :: adnl :: _ =>
        if matchADNL adnl then
          let subscriptionKey := "subscription_" ++ adnl
          match redisSAdd f w now subscriptionKey (FormatInt chatID) with
          | (w1, some _) =>
            (botSendMessage f w1 now chatID (.text "Failed to subscribe to alerts.") none).1
          | (w1, none) =>
            let w2 := (redisSAdd f w1 now GlobalSubscriptionKey (FormatInt chatID)).1
            (botSendMessage f w2 now chatID
              (.text ("Subscribed to alerts for ADNL: " ++ adnl)) none).1
        else
          (botSendMessage f w now chatID
            (.text ("Invalid ADNL format. ADNL must be a 64-character hex string "
              ++ "(uppercase, A-F, 0-9).")) none).1
      | _ => (botSendMessage f w now chatID (.text "Usage: /add <ADNL>") none).1

/-- The loop of `handleDel` over the subscription keys: whether the chat is a
member of one of them. -/
def isSubscribedToOtherADNL (f : Faults) (w : World) (now : Time) (member : String) :
    List String → Bool
  | [] => false
  | subKey :: rest =>
    match redisSIsMember f w now subKey member with
    | .ok true => true
    | _ => isSubscribedToOtherADNL f w now member rest

/-- `Notifier.handleDel(ctx, b, update)` run at `now`. -/
def handleDel (f : Faults) (w : World) (now : Time) (update : Update) : World :=
  match update.Message with
  | none => w
  | some m =>
    if m.Text = "" then w
    else
      let chatID := m.ChatID
      match Split m.Text with
      | _ :: adnl :: _ =>
        let subscriptionKey := "subscription_" ++ adnl
        match redisSRem f w now subscriptionKey (FormatInt chatID) with
        | (w1, some _) =>
          (botSendMessage f w1 now chatID (.text "Failed to unsubscribe from alerts.") none).1
        | (w1, none) =>
          match redisKeys f w1 now "subscription_" with
          | .error _ => w1
          | .ok subscriptions =>
            let w2 :=
              if isSubscribedToOtherADNL f w1 now (FormatInt chatID) subscriptions then w1
              else (redisSRem f w1 now GlobalSubscriptionKey (FormatInt chatID)).1
            (botSendMessage f w2 now chatID
              (.text ("Unsubscribed from alerts for ADNL: " ++ adnl)) none).1
      | _ => (botSendMessage f w now chatID (.text "Usage: /del <ADNL>") none).1

/-- A subscribe or unsubscribe command received at an instant. -/
inductive BotCommand where
  | add (now : Time) (m : Message)
  | del (now : Time) (m : Message)
deriving DecidableEq, Repr

/-- The commands handled one after the other. -/
def runCommands (f : Faults) : World → List BotCommand → World
  | w, [] => w
  | w, .add now m :: rest =>
    runCommands f (handleAdd f w now { CallbackQuery := none, Message := some m }) rest
  | w, .del now m :: rest =>
    runCommands f (handleDel f w now { CallbackQuery := none, Message := some m }) rest

/-- The members of the set under a key, none when the key holds no set. -/
def membersOf (w : World) (now : Time) (key : String) : List String :=
  match w.live now key with
  | some { val := .set members, .. } => members
  | _ => []

/-! ## Delivery of a published alert (`notifier.go`) -/

/-- The digits of a decimal numeral read from the left, `acc` being the value
read so far; nothing for a character that is no digit. -/
def parseDigits : List Char → Nat → Option Nat
  | [], acc => some acc
  | c :: cs, acc =>
    if '0' ≤ c ∧ c ≤ '9' then parseDigits cs (acc * 10 + (c.toNat - '0'.toNat)) else none

/-- `strconv.ParseInt(s, 10, 64)`: an optional sign and at least one digit,
within `int64`; `none` is an error. -/
def ParseInt (s : String) : Option Int :=
  match s.data with
  | [] => none
  | '+' :: ds =>
    if ds = [] then none
    else
      match parseDigits ds 0 with
      | some n => if (n : Int) ≤ maxInt64 then some n else none
      | none => none
  | '-' :: ds =>
    if ds = [] then none
    else
      match parseDigits ds 0 with
      | some n => if (n : Int) ≤ maxInt64 + 1 then some (-(n : Int)) else none
      | none => none
  | ds =>
    match parseDigits ds 0 with
    | some n => if (n : Int) ≤ maxInt64 then some n else none
    | none => none

/-- `Notifier.formatAlertMessage(alert)`; `nowText` is the formatted current
time and `hostname` the value of `HOSTNAME`. Hours and minutes are the whole
hours and minutes of the duration. -/
def formatAlertMessage (nowText hostname : String) (alert : Alert) : String :=
  let statusEmoji := if alert.Status = StatusNotOK then "❌" else "✅"
  let message := statusEmoji ++ " " ++ nowText ++ "\nValidator " ++ alert.ValidatorADNL
    ++ " is now " ++ alert.Status
  let message :=
    if alert.PreviousStatus ≠ "" ∧ alert.PreviousStatus ≠ "unknown" then
      let hours := Int.tdiv alert.Duration Hour
      let minutes := Int.tmod (Int.tdiv alert.Duration Minute) 60
      message ++ "\nPrevious state " ++ alert.PreviousStatus ++ ", duration: "
        ++ FormatInt hours ++ "h " ++ FormatInt minutes ++ " min."
    else message
  message ++ "\n\nCheck details at: https://" ++ hostname ++ "/?adnl=" ++ alert.ValidatorADNL
    ++ "&from=" ++ FormatInt alert.Timestamp ++ "&to="
    ++ FormatInt ((alert.Timestamp + 3600) % 4294967296 : Nat)

/-- The loop of `ListenAndNotify` over the subscribers of the alert's validator. -/
def notifySubscriptions (f : Faults) (now : Time) (message : String) (alert : Alert) :
    World → List String → World
  | w, [] => w
  | w, chatIDStr :: rest =>
    match ParseInt chatIDStr with
    | none => notifySubscriptions f now message alert w rest
    | some chatID =>
      notifySubscriptions f now message alert (sendMessage f w now chatID message alert) rest

/-- The body of the loop of `Notifier.ListenAndNotify` for one message received
on `validator_notifications` at `now`. -/
def notifyMessage (f : Faults) (w : World) (now : Time) (nowText hostname : String)
    (payload : Payload) : World :=
  match decodeAlert payload with
  | none => w
  | some alert =>
    let subscriptionKey := "subscription_" ++ alert.ValidatorADNL
    match redisSMembers f w now subscriptionKey with
    | .error _ => w
    | .ok subscriptions =>
      let message := formatAlertMessage nowText hostname alert
      if subscriptions.length = 0 then
        let defaultUsers : List Int := []
        defaultUsers.foldl (fun w1 chatID => sendMessage f w1 now chatID message alert) w
      else notifySubscriptions f now message alert w subscriptions

/-- One delivery attempt, in order, for each of the chat ids. -/
def sendEach (f : Faults) (now : Time) (message : String) (alert : Alert) :
    World → List Int → World
  | w, [] => w
  | w, chatID :: rest => sendEach f now message alert (sendMessage f w now chatID message alert) rest

/-! ## Chart series and the status grid (`clickhouse.go`) -/

def decodeChart : Payload → Option (List ValidatorEfficiency)
  | .chart l => some l
  | _ => none

/-- The conversion of a `float64` to `uint32` is exact on the values of
`uint32`. -/
def Env.ConvertsExactly (env : Env) : Prop :=
  ∀ n : Int, 0 ≤ n → n < 4294967296 → env.uint32OfFloat n = n.toNat

/-- `ClickhouseService.getCachedADNLList(from, to, cacheService)` run at `now`. -/
def getCachedADNLList (env : Env) (f : Faults) (w : World) (now : Time) (from_ to_ : Time) :
    World × Except Error (List String) :=
  let cacheKey := "ADNLList:" ++ FormatInt (Time.Unix64 from_) ++ ":" ++ FormatInt (Time.Unix64 to_)
  match GetCachedData decodeADNLList f w now cacheKey with
  | .error e => (w, .error e)
  | .ok (some adnlList) => (w, .ok adnlList)
  | .ok none =>
    let q := StoreQuery.distinctADNLs from_ to_
    let w1 := { w with queries := q :: w.queries }
    if f.query q then (w1, .error "clickhouse: query failed")
    else
      let adnlList := env.distinctADNLs from_ to_
      let w2 := (CacheData f w1 now cacheKey (.adnlList adnlList) Hour).1
      (w2, .ok adnlList)

/-- How a call ends: with a value, with an error returned to the caller, or
with the process terminated by `log.Fatalf`. -/
inductive Outcome (α : Type) where
  | ok (a : α)
  | error (e : Error)
  | fatal (e : Error)
deriving DecidableEq, Repr

/-- `ClickhouseService.GetValidatorsStatuses(from, to, cycleID, cacheService)` run
at `now`. -/
def GetValidatorsStatuses (env : Env) (f : Faults) (w : World) (now : Time) (from_ to_ : Time)
    (cycleID : Nat) : World × Outcome Statuses :=
  let fromRounded := (roundTimeRange now from_ to_).1
  let toRounded := (roundTimeRange now from_ to_).2
  match getCachedADNLList env f w now fromRounded toRounded with
  | (w1, .error e) => (w1, .error e)
  | (w1, .ok adnlList) =>
    match getCachedStatuses env f w1 now adnlList fromRounded toRounded cycleID with
    | (w2, .error e) => (w2, .fatal e)
    | (w2, .ok statuses) => (w2, .ok statuses)

/-- `ClickhouseService.fetchEfficiencyChartDataFromDB(adnl, from, to)` run at `now`. -/
def fetchEfficiencyChartDataFromDB (env : Env) (f : Faults) (w : World) (now : Time)
    (adnl : String) (from_ to_ : Time) : World × Except Error (List ValidatorEfficiency) :=
  let fromRounded := (roundTimeRange now from_ to_).1
  let toRounded := (roundTimeRange now from_ to_).2
  let totalSeconds := env.totalSeconds (Time.Sub toRounded fromRounded)
  if totalSeconds ≤ 0 then (w, .error "invalid date interval")
  else
    let intervalSeconds := totalSeconds / 60
    let q := StoreQuery.chart intervalSeconds adnl fromRounded toRounded
    let w1 := { w with queries := q :: w.queries }
    if f.query q then (w1, .error "clickhouse: query failed")
    else
      (w1, .ok ((env.chartRows adnl intervalSeconds fromRounded toRounded).map (fun r =>
        { ADNLAddr := "", ValidatorADNL := adnl, IntervalStart := r.1, Efficiency := r.2.1,
          CycleID := r.2.2 })))

/-- `ClickhouseService.GetEfficiencyChartDataCached(adnl, from, to, cacheService)`
run at `now`. -/
def GetEfficiencyChartDataCached (env : Env) (f : Faults) (w : World) (now : Time)
    (adnl : String) (from_ to_ : Time) : World × Except Error (List ValidatorEfficiency) :=
  let fromRounded := (roundTimeRange now from_ to_).1
  let toRounded := (roundTimeRange now from_ to_).2
  let cacheKey := "GetEfficiencyChartDataCached:" ++ adnl ++ ":"
    ++ FormatInt (Time.Unix64 fromRounded) ++ ":" ++ FormatInt (Time.Unix64 toRounded)
  match GetCachedData decodeChart f w now cacheKey with
  | .error e => (w, .error e)
  | .ok (some results) => (w, .ok results)
  | .ok none =>
    match fetchEfficiencyChartDataFromDB env f w now adnl fromRounded toRounded with
    | (w1, .error e) => (w1, .error e)
    | (w1, .ok results) =>
      let w2 := (CacheData f w1 now cacheKey (.chart results) Hour).1
      (w2, .ok results)

/-- The store of `exEnv` with its validators `A` and `B` listed for every
range. -/
def exGridEnv : Env := { exEnv with distinctADNLs := fun _ _ => ["A", "B"] }

/-- The previous status `checkStatusChange` works with, given what the cache
read found. -/
def previousOf (found : Option ValidatorStatusInfo) (now : Time) : ValidatorStatusInfo :=
  match found with
  | some v => v
  | none => { Status := StatusUnknown, Timestamp := now }

/-- The part of `checkStatusChange` that follows the caching of the new
status: the alert id, the alert, its publication and the status record. -/
def transitionTail (f : Faults) (w1 : World) (now : Time) (ADNLAddr validatorADNL : String)
    (efficiency : ℚ) (currentStatus : ValidatorStatus) (previous : ValidatorStatusInfo) :
    World × Option Error :=
  match generateAlertID f w1 now with
  | (w2, .error e) => (w2, some ("failed to generate alert ID: " ++ e))
  | (w2, .ok alertID) =>
    let alert : Alert :=
      { ID := alertID
        ADNLAddr := ADNLAddr
        ValidatorADNL := validatorADNL
        Status := currentStatus
        IsAcknowledged := false
        AckBy := 0
        AckByUsername := ""
        LastAlert := now
        Efficiency := efficiency
        PreviousStatus := previous.Status
        PreviousStatusSince := previous.Timestamp
        Duration := Time.Sub now previous.Timestamp
        Timestamp := (Time.Unix now % 4294967296).toNat }
    let w3 := (PublishAlert f w2 now alert).1
    let w4 := (InsertStatusChange f w3 ADNLAddr validatorADNL currentStatus now).1
    (w4, none)

/-- A cache in which the chats `5` and `7` and the text `x` are the members of
the subscriber set of validator `V`, and chat `9` is a global subscriber. -/
def exSubscribed : World :=
  { World.empty with
    kv := [("subscription_V", { val := .set ["5", "x", "7"], expireAt := none }),
           ("global_subscribers", { val := .set ["9"], expireAt := none })] }

/-- Every call succeeds except the bot's for chat `5`. -/
def exSendFails : Faults := { noFaults with send := fun chatID => decide (chatID = 5) }

/-- The record of the message `sendMessage` hands to the bot at `now` when the
call is not dropped. -/
def handedMessage (f : Faults) (now : Time) (chatID : Int) (message : String) (alert : Alert) :
    BotMessage :=
  { ChatID := chatID, Text := .text message,
    CallbackData := if alert.Status = StatusNotOK then some ("ack_" ++ FormatInt alert.ID) else none,
    sentAt := now, ok := !f.send chatID }

/-- The rate-limit counter key of `sendMessage` for a chat and a Unix second. -/
def rateLimitKey (chatID : Int) (second : Int) : String :=
  "rate_limit_" ++ FormatInt chatID ++ "_" ++ FormatInt second

/-- The counter under `key` after `k` calls made within the Unix second `s`:
absent before the first call, afterwards the value `k`, without expiry or
expiring a minute after an instant of that second. -/
def RateCounterIs (w : World) (key : String) (s : Int) : Nat → Prop
  | 0 => w.kv.lookup key = none
  | k + 1 =>
    ∃ e, w.kv.lookup key = some e ∧ e.val = .int ((k + 1 : Nat) : Int) ∧
      (e.expireAt = none ∨ ∃ t1 : Time, Time.Unix t1 = s ∧ e.expireAt = some (t1 + Minute))

/-- A cache that holds the buckets of validator `B` for the range 0 s to
3600 s and group 0, until 13600 s. -/
def exPartlyCached : World :=
  { World.empty with
    kv := [(validatorStatusKey "B" 0 3600000000000 0,
            { val := .chunk [(0, 1)], expireAt := some 13600000000000 })] }

/-- What the cache `exPartlyCached` answers for a validator. -/
def exHit (a : String) : Option Chunk := if a = "B" then some [(0, 1)] else none

/-- The key is absent or holds a set without expiry. -/
def HoldsSet (w : World) (key : String) : Prop :=
  w.kv.lookup key = none ∨ ∃ ms, w.kv.lookup key = some { val := .set ms, expireAt := none }

/-- The state the subscription commands keep: the subscription keys and the
global key hold sets, and the members of the global set are the members of
the subscription sets. -/
def SubscriptionsConsistent (w : World) : Prop :=
  (∀ k, startsWith "subscription_" k = true ∨ k = GlobalSubscriptionKey → HoldsSet w k) ∧
  ∀ (t : Time) (m : String),
    m ∈ membersOf w t GlobalSubscriptionKey ↔
      ∃ k, startsWith "subscription_" k = true ∧ m ∈ membersOf w t k

/-- Two validator addresses of the accepted form. -/
def exADNL1 : String := "AAAAAAAAAAAAAAAAAAAAAAAAAAAAAAAAAAAAAAAAAAAAAAAAAAAAAAAAAAAAAAAA"

def exADNL2 : String := "0123456789ABCDEF0123456789ABCDEF0123456789ABCDEF0123456789ABCDEF"

/-- Chat 5 subscribes to two validators and unsubscribes from the first. -/
def exCommands : List BotCommand :=
  [.add 0 { ChatID := 5, Text := "/add " ++ exADNL1 },
   .add 1000000000 { ChatID := 5, Text := "/add " ++ exADNL2 },
   .del 2000000000 { ChatID := 5, Text := "/del " ++ exADNL1 }]

/-! ## The HTTP handlers (`chart.go`, `validators.go`) -/

/-- What a handler writes to the `http.ResponseWriter`: `http.Error(w, text,
code)`, or the JSON encoding of a body with the implicit status 200. A body
made of finite numbers and strings always encodes. -/
inductive HTTPResponse (α : Type) where
  | error (code : Nat) (text : String)
  | ok (body : α)
deriving DecidableEq, Repr

def StatusBadRequest : Nat := 400

def StatusInternalServerError : Nat := 500

/-- `models.EfficiencyDataResponse`. -/
structure EfficiencyDataResponse where
  Timestamp : Nat
  Value : ℚ
  CycleID : Nat
deriving DecidableEq, Repr

/-- `handlers.ChartResponse`. -/
structure ChartResponse where
  ADNL : String
  Efficiency : List EfficiencyDataResponse
deriving DecidableEq, Repr

/-- `unixToInternal`: the seconds from January 1 of year 1, the zero of the
seconds a `time.Time` stores, to the Unix epoch. -/
def unixToInternal : Int := 62135596800

/-- `time.Unix(sec, 0)` for an `int64` `sec`: the stored second is
`sec + unixToInternal` computed in `int64`, so for `sec` above
`9223371974719179007` the sum wraps and the instant lies 2^64 seconds before
the one asked for. -/
def TimeOfUnix (sec : Int) : Time := (wrapInt64 (sec + unixToInternal) - unixToInternal) * Second

/-- The conversion loop of `GetChartData` over a series. -/
def efficiencyListOf (data : List ValidatorEfficiency) : List EfficiencyDataResponse :=
  data.map (fun eff =>
    { Timestamp := eff.IntervalStart, Value := eff.Efficiency, CycleID := eff.CycleID })

/-- The loop of `GetChartData` over the requested validators; `results` is what
has been collected so far. -/
def chartLoop (env : Env) (f : Faults) (now : Time) (fromTime toTime : Time) :
    World → List ChartResponse → List String → World × HTTPResponse (List ChartResponse)
  | w, results, [] => (w, .ok results)
  | w, results, adnl :: rest =>
    let cacheKey := adnl ++ ":" ++ FormatInt (Time.Unix64 fromTime) ++ ":"
      ++ FormatInt (Time.Unix64 toTime)
    match GetCachedData decodeChart f w now cacheKey with
    | .error _ => (w, .error StatusInternalServerError "Failed to access cache")
    | .ok (some cachedData) =>
      chartLoop env f now fromTime toTime w
        (results ++ [{ ADNL := adnl, Efficiency := efficiencyListOf cachedData }]) rest
    | .ok none =>
      match GetEfficiencyChartDataCached env f w now adnl fromTime toTime with
      | (w1, .error _) => (w1, .error StatusInternalServerError "Failed to query ClickHouse")
      | (w1, .ok data) =>
        let efficiencyList := efficiencyListOf data
        match CacheData f w1 now cacheKey (.chart data) Hour with
        | (w2, some _) => (w2, .error StatusInternalServerError "Failed to cache data")
        | (w2, none) =>
          chartLoop env f now fromTime toTime w2
            (results ++ [{ ADNL := adnl, Efficiency := efficiencyList }]) rest

/-- `ChartHandler.GetChartData(w, r)` run at `now` for the query parameters
`adnl` (all its values), `from` and `to`. -/
def GetChartData (env : Env) (f : Faults) (w : World) (now : Time) (adnls : List String)
    (from_ to_ : String) : World × HTTPResponse (List ChartResponse) :=
  if from_ = "" ∨ to_ = "" then
    let toTime := now
    let fromTime := Time.Add toTime (-24 * Hour)
    chartLoop env f now fromTime toTime w [] adnls
  else
    match ParseInt from_ with
    | none => (w, .error StatusBadRequest "Invalid 'from' timestamp")
    | some fromTimestamp =>
      match ParseInt to_ with
      | none => (w, .error StatusBadRequest "Invalid 'to' timestamp")
      | some toTimestamp =>
        chartLoop env f now (TimeOfUnix fromTimestamp) (TimeOfUnix toTimestamp) w [] adnls

/-- The body of the status grid response; `Statuses` is `none` for a nil map. -/
structure StatusesResponse where
  Statuses : Option Statuses
  Meta : Meta
deriving DecidableEq, Repr

/-- How the run of a handler ends: it returns, having written a response, or
the process is terminated by `log.Fatal`, `written` being what had been written
to the response before. -/
inductive Served (α : Type) where
  | returned (response : HTTPResponse α)
  | fatal (written : Option (HTTPResponse α)) (e : Error)
deriving DecidableEq, Repr

/-- `ValidatorsHandler.ValidatorStatusesHandler(w, r)` run at `now` for the
query parameters `from` and `to`; `cycleID` is the value parsed from
`cycle_id`. -/
def ValidatorStatusesHandler (env : Env) (f : Faults) (w : World) (now : Time)
    (fromStr toStr : String) (cycleID : Nat) : World × Served StatusesResponse :=
  if fromStr = "" ∨ toStr = "" then
    (w, .returned (.error StatusBadRequest "Required params: 'from'  'to'"))
  else
    match ParseInt fromStr with
    | none => (w, .returned (.error StatusBadRequest "Invalid param 'from'"))
    | some fromUnix =>
      match ParseInt toStr with
      | none => (w, .returned (.error StatusBadRequest "Invalid param 'to'"))
      | some toUnix =>
        let from_ := TimeOfUnix fromUnix
        let to_ := TimeOfUnix toUnix
        match GetValidatorsStatuses env f w now from_ to_ cycleID with
        | (w1, .fatal e) => (w1, .fatal none e)
        | (w1, res) =>
          let statuses : Option Statuses :=
            match res with
            | .ok s => some s
            | _ => none
          match GetValidatorsMeta env f w1 now from_ to_ cycleID with
          | (w2, .error err) =>
            (w2, .fatal (some (.error StatusInternalServerError
              "Couldn't get validators statuses")) err)
          | (w2, .ok m) => (w2, .returned (.ok { Statuses := statuses, Meta := m }))

/-- The store of `exEnv` with one bucket of the chart series of validator `A`. -/
def exChartEnv : Env :=
  { exEnv with chartRows := fun adnl _ _ _ => if adnl = "A" then [(0, 1, 1)] else [] }

/-- Every call succeeds except the writes to the cache. -/
def exSetFails : Faults := { noFaults with set := fun _ => true }

/-- Every call succeeds except the query for the validators of a range. -/
def exListQueryFails : Faults :=
  { noFaults with
    query := fun q =>
      match q with
      | .distinctADNLs _ _ => true
      | _ => false }

/-- Every call succeeds except the statuses query. -/
def exStatusesQueryFails : Faults :=
  { noFaults with
    query := fun q =>
      match q with
      | .statuses _ _ _ _ _ => true
      | _ => false }

/-- Every call succeeds except the metadata query. -/
def exMetaQueryFails : Faults :=
  { noFaults with
    query := fun q =>
      match q with
      | .validatorsMeta _ _ _ => true
      | _ => false }

/-! ## Connecting to the cache (`clients/redis/redis.go`) -/

/-- What the cache server answers: the error of `client.Ping` and of
`client.Close` at each attempt, `none` for success. -/
structure RedisServer where
  ping : Nat → Option Error
  close : Nat → Option Error

/-- The package variables `redisInstance` (the attempt whose client it holds)
and `redisInitErr` after the first call of `GetRedisClient`, with the attempts
made and the delays slept, in order. -/
structure RedisInit where
  redisInstance : Option Nat
  redisInitErr : Option Error
  attempts : List Nat
  sleeps : List Duration
deriving DecidableEq, Repr

/-- The loop `for attempt := 1; attempt <= maxRetries; attempt++` of
`GetRedisClient` over the attempts still to make. The `err` tested and stored
after the failed ping is the one declared by `err := client.Close()`. -/
def redisConnectLoop (srv : RedisServer) (maxRetries : Nat) (maxBackoff : Duration) :
    List Nat → Duration → RedisInit → RedisInit
  | [], _, s => s
  | attempt :: rest, backoff, s =>
    let s1 := { s with attempts := s.attempts ++ [attempt] }
    match srv.ping attempt with
    | none => { s1 with redisInstance := some attempt }
    | some _ =>
      let err := srv.close attempt
      if err ≠ none then s1
      else if attempt = maxRetries then { s1 with redisInitErr := err }
      else
        let s2 := { s1 with sleeps := s1.sleeps ++ [backoff] }
        let backoff1 := backoff * 2
        let backoff2 := if backoff1 > maxBackoff then maxBackoff else backoff1
        redisConnectLoop srv maxRetries maxBackoff rest backoff2 s2

/-- `GetRedisClient()`, first call: the function returns
`(redisInstance, redisInitErr)`. -/
def GetRedisClient (srv : RedisServer) : RedisInit :=
  let maxRetries := 5
  let initialBackoff := 1 * Second
  let maxBackoff := 30 * Second
  redisConnectLoop srv maxRetries maxBackoff (List.range' 1 maxRetries) initialBackoff
    { redisInstance := none, redisInitErr := none, attempts := [], sleeps := [] }

/-- How a constructor called at startup ends: with a value, with an error, or
with a run-time panic. -/
inductive Startup (α : Type) where
  | ok (a : α)
  | error (e : Error)
  | panic (text : String)
deriving DecidableEq, Repr

/-- `NewCacheService()`: the service holds the client of the attempt that
connected; reading `.Client` of a nil wrapper panics. -/
def NewCacheService (srv : RedisServer) : Startup Nat :=
  match (GetRedisClient srv).redisInitErr with
  | some err => .error err
  | none =>
    match (GetRedisClient srv).redisInstance with
    | some client => .ok client
    | none => .panic "runtime error: invalid memory address or nil pointer dereference"

/-- A cache server that refuses every connection; closing a client succeeds. -/
def exRedisDown : RedisServer :=
  { ping := fun _ => some "dial tcp: connection refused", close := fun _ => none }

/-! ## Connecting to the store (`clients/clickhouse/clickhouse.go`) -/

/-- What happens at one attempt to connect to the store. -/
inductive ConnAttempt where
  | openFails (e : Error)
  | pingFails (e : Error) (closeErr : Option Error)
  | connected
deriving DecidableEq, Repr

/-- The package variables `clickhouseInstance` (the attempt whose connection it
holds) and `clickhouseInitErr` after the first call of `GetClickHouseClient`,
with the attempts made and the delays slept, in order. -/
structure ClickHouseInit where
  clickhouseInstance : Option Nat
  clickhouseInitErr : Option Error
  attempts : List Nat
  sleeps : List Duration
deriving DecidableEq, Repr

/-- The loop `for i := 0; i < retries; i++` of `GetClickHouseClient` over the
attempts still to make, followed by `clickhouseInitErr = err`; `err` is the
variable of the enclosing function, `initialBackoff` the current delay. -/
def clickhouseConnectLoop (srv : Nat → ConnAttempt) :
    List Nat → Duration → Option Error → ClickHouseInit → ClickHouseInit
  | [], _, err, s => { s with clickhouseInitErr := err }
  | i :: rest, initialBackoff, _, s =>
    let s1 := { s with attempts := s.attempts ++ [i] }
    match srv i with
    | .openFails e =>
      clickhouseConnectLoop srv rest (initialBackoff * 2) (some e)
        { s1 with sleeps := s1.sleeps ++ [initialBackoff] }
    | .pingFails e closeErr =>
      if closeErr ≠ none then s1
      else
        clickhouseConnectLoop srv rest (initialBackoff * 2) (some e)
          { s1 with sleeps := s1.sleeps ++ [initialBackoff] }
    | .connected => { s1 with clickhouseInstance := some i }

/-- `GetClickHouseClient()`, first call: the function returns
`(clickhouseInstance, clickhouseInitErr)`. -/
def GetClickHouseClient (srv : Nat → ConnAttempt) : ClickHouseInit :=
  let retries := 5
  let initialBackoff := Second * 2
  clickhouseConnectLoop srv (List.range retries) initialBackoff none
    { clickhouseInstance := none, clickhouseInitErr := none, attempts := [], sleeps := [] }

/-- The error of an attempt that fails with the failed connection closed, if
there was one to close. -/
def ConnAttempt.failure : ConnAttempt → Option Error
  | .openFails e => some e
  | .pingFails e none => some e
  | _ => none

/-- A store that refuses the first two connections and accepts the third. -/
def exStoreSlow (i : Nat) : ConnAttempt :=
  if i = 0 then .openFails "dial tcp: connection refused"
  else if i = 1 then .pingFails "read: connection reset" none
  else .connected

/-- A store that refuses every connection. -/
def exStoreDown (i : Nat) : ConnAttempt :=
  if i = 4 then .pingFails "read: connection reset" none
  else .openFails "dial tcp: connection refused"

/-- Every call succeeds except the increment of the alert-id counter. -/
def exCounterFails : Faults := { noFaults with incr := fun key => decide (key = "alert_id") }

/-! ## Keys -/

theorem statusKey_ne_alertId (v : String) : "validator_status:" ++ v ≠ "alert_id" := by
  intro h
  have h2 := congrArg String.data h
  simp [String.data_append] at h2

theorem alertKey_ne_statusKey (s v : String) : "alert_" ++ s ≠ "validator_status:" ++ v := by
  intro h
  have h2 := congrArg String.data h
  simp [String.data_append] at h2

theorem toDigitsCore_digits (fuel n : Nat) (acc : List Char)
    (hacc : ∀ c ∈ acc, c.isDigit = true) :
    ∀ c ∈ Nat.toDigitsCore 10 fuel n acc, c.isDigit = true := by
  induction fuel generalizing n acc with
  | zero => simpa [Nat.toDigitsCore] using hacc
  | succ k ih =>
    have hd : ∀ d, d < 10 → (Nat.digitChar d).isDigit = true := by decide
    have hacc2 : ∀ c ∈ Nat.digitChar (n % 10) :: acc, c.isDigit = true := by
      intro c hc
      rcases List.mem_cons.1 hc with h | h
      · rw [h]; exact hd _ (Nat.mod_lt _ (by decide))
      · exact hacc c h
    unfold Nat.toDigitsCore
    by_cases h0 : n / 10 = 0
    · simpa [h0] using hacc2
    · simpa [h0] using ih (n / 10) _ hacc2

theorem FormatInt_ne_id (n : Int) : FormatInt n ≠ "id" := by
  intro h
  have h2 := congrArg String.data h
  cases n with
  | ofNat m =>
    have hm := toDigitsCore_digits (m + 1) m [] (by simp)
    simp only [FormatInt, Nat.toDigits] at h2
    rw [h2] at hm
    exact absurd (hm 'i' (by decide)) (by decide)
  | negSucc m =>
    simp [FormatInt] at h2

theorem alertKey_ne_alertId (n : Int) : "alert_" ++ FormatInt n ≠ "alert_id" := by
  intro h
  have h2 := congrArg String.data h
  have h3 : (FormatInt n).data = ['i', 'd'] := by
    simpa [String.data_append] using h2
  exact FormatInt_ne_id n (String.ext h3)

/-! ## Reading the cache -/

theorem live_cons_self (w : World) (now : Time) (key : String) (p : Payload) :
    World.live { w with kv := (key, { val := p, expireAt := none }) :: w.kv } now key
      = some { val := p, expireAt := none } := by
  simp [World.live, List.lookup_cons]

theorem live_cons_ne (w : World) (now : Time) (key k : String) (e : Entry) (h : k ≠ key) :
    World.live { w with kv := (key, e) :: w.kv } now k = w.live now k := by
  have hb : (k == key) = false := by simpa using h
  simp [World.live, List.lookup_cons, hb]

theorem classify_eq (efficiency threshold : ℚ) :
    (if efficiency < threshold then StatusNotOK else StatusOK)
      = classification efficiency threshold := by
  unfold classification
  by_cases h : efficiency < threshold
  · simp [h, not_le.2 h]
  · simp [h, not_lt.1 h]

theorem live_expire_later (w : World) (now : Time) (key : String) (e : Entry)
    (h : w.live now key = some e) : ∀ t, e.expireAt = some t → now < t := by
  intro t ht
  unfold World.live at h
  cases hl : w.kv.lookup key with
  | none => simp [hl] at h
  | some e0 =>
    simp only [hl] at h
    cases he : e0.expireAt with
    | none =>
      simp only [he] at h
      have : e0 = e := by simpa using h
      rw [← this, he] at ht
      exact absurd ht (by simp)
    | some t0 =>
      simp only [he] at h
      by_cases hle : t0 ≤ now
      · simp [hle] at h
      · simp only [hle, if_false] at h
        have : e0 = e := by simpa using h
        rw [← this, he] at ht
        have : t0 = t := by simpa using ht
        rw [← this]
        exact not_le.1 hle

/-- A sample classified as the cached status changes nothing. -/
theorem checkStatusChange_same_world (f : Faults) (w : World) (now : Time)
    (ADNLAddr validatorADNL : String) (efficiency threshold : ℚ)
    (info : ValidatorStatusInfo) (exp : Option Time)
    (hget : f.get ("validator_status:" ++ validatorADNL) = false)
    (hcached : w.live now ("validator_status:" ++ validatorADNL)
      = some { val := .statusInfo info, expireAt := exp })
    (hsame : classification efficiency threshold = info.Status) :
    checkStatusChange f w now ADNLAddr validatorADNL efficiency threshold = (w, none) := by
  simp [checkStatusChange, GetCachedData, redisGet, hget, hcached, decodeStatusInfo,
    classify_eq, hsame]

/-- The state `checkStatusChange` leaves behind on a status transition when
every dependency succeeds. -/
theorem checkStatusChange_transition_world (w : World) (now : Time)
    (ADNLAddr validatorADNL : String) (efficiency threshold : ℚ)
    (hdec : w.live now ("validator_status:" ++ validatorADNL) = none ∨
      ∃ info exp, w.live now ("validator_status:" ++ validatorADNL)
        = some { val := .statusInfo info, expireAt := exp })
    (hcnt : w.live now "alert_id" = none ∨
      ∃ n exp, w.live now "alert_id" = some { val := .int n, expireAt := exp } ∧ n < maxInt64)
    (hne : classification efficiency threshold ≠ cachedStatus w now validatorADNL) :
    checkStatusChange noFaults w now ADNLAddr validatorADNL efficiency threshold =
      ({ w with
          kv := ("alert_" ++ FormatInt (counterValue w now "alert_id" + 1),
                  { val := .alert (transitionAlert w now ADNLAddr validatorADNL efficiency threshold),
                    expireAt := none }) ::
                ("alert_id",
                  { val := .int (counterValue w now "alert_id" + 1),
                    expireAt := counterExpiry w now "alert_id" }) ::
                ("validator_status:" ++ validatorADNL,
                  { val := .statusInfo
                      { Status := classification efficiency threshold, Timestamp := now },
                    expireAt := none }) :: w.kv
          published := ("validator_notifications", .alert (transitionAlert w now ADNLAddr validatorADNL efficiency threshold)) :: w.published
          statusHistory :=
            { adnl_addr := ADNLAddr, validator_adnl := validatorADNL,
              timestamp := Time.Unix now,
              status := classification efficiency threshold } :: w.statusHistory },
        none) := by
  have hk : ("alert_id" : String) ≠ "validator_status:" ++ validatorADNL :=
    fun h => statusKey_ne_alertId validatorADNL h.symm
  have hlive : ∀ e, World.live
      { w with kv := ("validator_status:" ++ validatorADNL, e) :: w.kv } now "alert_id"
        = w.live now "alert_id" := fun e => live_cons_ne w now _ _ e hk
  rcases hdec with hnone | ⟨info, exp, hsome⟩
  · have hci : cachedInfo w now validatorADNL = { Status := StatusUnknown, Timestamp := now } := by
      simp [cachedInfo, hnone]
    have hne2 : ¬ classification efficiency threshold = StatusUnknown := by
      simpa [cachedStatus, hci] using hne
    rcases hcnt with hc | ⟨n, cexp, hc, hlt⟩
    · have hce : counterExpiry w now "alert_id" = none := by simp [counterExpiry, hc]
      have hcv : counterValue w now "alert_id" = 0 := by simp [counterValue, hc]
      simp [checkStatusChange, GetCachedData, redisGet, noFaults, hnone, classify_eq, hne2,
        CacheData, redisSet, generateAlertID, IncrementCounter, redisIncr, hlive, hc,
        PublishAlert, redisPublish, InsertStatusChange, hcv, hce, cachedStatus, hci, transitionAlert]
    · have hce : counterExpiry w now "alert_id" = cexp := by simp [counterExpiry, hc]
      have hcv : counterValue w now "alert_id" = n := by simp [counterValue, hc]
      simp [checkStatusChange, GetCachedData, redisGet, noFaults, hnone, classify_eq, hne2,
        CacheData, redisSet, generateAlertID, IncrementCounter, redisIncr, hlive, hc, hlt,
        PublishAlert, redisPublish, InsertStatusChange, hcv, hce, cachedStatus, hci, transitionAlert]
  · have hci : cachedInfo w now validatorADNL = info := by
      simp [cachedInfo, hsome]
    have hne2 : ¬ classification efficiency threshold = info.Status := by
      simpa [cachedStatus, hci] using hne
    rcases hcnt with hc | ⟨n, cexp, hc, hlt⟩
    · have hce : counterExpiry w now "alert_id" = none := by simp [counterExpiry, hc]
      have hcv : counterValue w now "alert_id" = 0 := by simp [counterValue, hc]
      simp [checkStatusChange, GetCachedData, redisGet, noFaults, hsome, classify_eq, hne2,
        CacheData, redisSet, generateAlertID, IncrementCounter, redisIncr, hlive, hc,
        PublishAlert, redisPublish, InsertStatusChange, hcv, hce, cachedStatus, hci,
        decodeStatusInfo, transitionAlert]
    · have hce : counterExpiry w now "alert_id" = cexp := by simp [counterExpiry, hc]
      have hcv : counterValue w now "alert_id" = n := by simp [counterValue, hc]
      simp [checkStatusChange, GetCachedData, redisGet, noFaults, hsome, classify_eq, hne2,
        CacheData, redisSet, generateAlertID, IncrementCounter, redisIncr, hlive, hc, hlt,
        PublishAlert, redisPublish, InsertStatusChange, hcv, hce, cachedStatus, hci,
        decodeStatusInfo, transitionAlert]

/-- C2. When the classification of the sample equals the status cached under
`validator_status:<validator>`, `checkStatusChange` returns no error and leaves
the whole state as it was: no cache write, no increment of `alert_id`, no
published alert, no status record. -/
theorem checkStatusChange_same_status_changes_nothing (f : Faults) (w : World) (now : Time)
    (ADNLAddr validatorADNL : String) (efficiency threshold : ℚ)
    (info : ValidatorStatusInfo) (exp : Option Time)
    (hget : f.get ("validator_status:" ++ validatorADNL) = false)
    (hcached : w.live now ("validator_status:" ++ validatorADNL)
      = some { val := .statusInfo info, expireAt := exp })
    (hsame : classification efficiency threshold = info.Status) :
    checkStatusChange f w now ADNLAddr validatorADNL efficiency threshold = (w, none) :=
  checkStatusChange_same_world f w now ADNLAddr validatorADNL efficiency threshold info exp
    hget hcached hsame

theorem checkStatusChange_same_status_changes_nothing_witness :
    World.live { World.empty with kv := [("validator_status:V",
        { val := .statusInfo { Status := "ok", Timestamp := 5 }, expireAt := none })] } 7
        ("validator_status:" ++ "V")
      = some { val := .statusInfo { Status := "ok", Timestamp := 5 }, expireAt := none } ∧
    checkStatusChange noFaults { World.empty with kv := [("validator_status:V",
        { val := .statusInfo { Status := "ok", Timestamp := 5 }, expireAt := none })] } 7
        "A" "V" 1 0
      = ({ World.empty with kv := [("validator_status:V",
        { val := .statusInfo { Status := "ok", Timestamp := 5 }, expireAt := none })] }, none) :=
  ⟨by decide,
   checkStatusChange_same_status_changes_nothing noFaults _ 7 "A" "V" 1 0
     { Status := "ok", Timestamp := 5 } none rfl (by decide)
     (by simp [classification, StatusOK])⟩

/-- C3. On a status transition with every dependency succeeding,
`checkStatusChange` returns no error and (i) leaves the new status under
`validator_status:<validator>` with no expiry, (ii) has incremented `alert_id`
by one, (iii) has published exactly one alert, whose ID is the incremented
counter, whose Status is the new classification, whose PreviousStatus and
PreviousStatusSince are the cached status and timestamp (`unknown` since `now`
when nothing was cached), whose Efficiency is the sample and which is not
acknowledged, and (iv) has appended exactly one status record, with the new
status. -/
theorem checkStatusChange_transition_effects (w : World) (now : Time)
    (ADNLAddr validatorADNL : String) (efficiency threshold : ℚ)
    (hdec : w.live now ("validator_status:" ++ validatorADNL) = none ∨
      ∃ info exp, w.live now ("validator_status:" ++ validatorADNL)
        = some { val := .statusInfo info, expireAt := exp })
    (hcnt : w.live now "alert_id" = none ∨
      ∃ n exp, w.live now "alert_id" = some { val := .int n, expireAt := exp } ∧ n < maxInt64)
    (hne : classification efficiency threshold ≠ cachedStatus w now validatorADNL) :
    (checkStatusChange noFaults w now ADNLAddr validatorADNL efficiency threshold).2 = none ∧
    (∀ later : Time,
      World.live (checkStatusChange noFaults w now ADNLAddr validatorADNL efficiency threshold).1
          later ("validator_status:" ++ validatorADNL)
        = some { val := .statusInfo
                  { Status := classification efficiency threshold, Timestamp := now },
                 expireAt := none }) ∧
    counterValue (checkStatusChange noFaults w now ADNLAddr validatorADNL efficiency threshold).1
        now "alert_id" = counterValue w now "alert_id" + 1 ∧
    (∃ a : Alert,
      newAlerts w (checkStatusChange noFaults w now ADNLAddr validatorADNL efficiency threshold).1
        = [("validator_notifications", .alert a)] ∧
      a.ID = counterValue
        (checkStatusChange noFaults w now ADNLAddr validatorADNL efficiency threshold).1
        now "alert_id" ∧
      a.Status = classification efficiency threshold ∧
      a.PreviousStatus = cachedStatus w now validatorADNL ∧
      a.PreviousStatusSince = (cachedInfo w now validatorADNL).Timestamp ∧
      a.Efficiency = efficiency ∧
      a.IsAcknowledged = false ∧
      a.ValidatorADNL = validatorADNL) ∧
    (∃ r : StatusRecord,
      (checkStatusChange noFaults w now ADNLAddr validatorADNL efficiency threshold).1.statusHistory
        = r :: w.statusHistory ∧
      r.status = classification efficiency threshold ∧
      r.validator_adnl = validatorADNL ∧ r.adnl_addr = ADNLAddr) := by
  have h := checkStatusChange_transition_world w now ADNLAddr validatorADNL
    efficiency threshold hdec hcnt hne
  have hexp : ∀ t, counterExpiry w now "alert_id" = some t → now < t := by
    intro t ht
    unfold counterExpiry at ht
    cases hl : w.live now "alert_id" with
    | none => simp [hl] at ht
    | some e =>
      simp only [hl] at ht
      exact live_expire_later w now _ e hl t ht
  rw [h]
  generalize counterExpiry w now "alert_id" = exp at hexp
  have k1 := alertKey_ne_statusKey (FormatInt (counterValue w now "alert_id" + 1)) validatorADNL
  have k2 := statusKey_ne_alertId validatorADNL
  have k3 := alertKey_ne_alertId (counterValue w now "alert_id" + 1)
  have b1 : (("validator_status:" ++ validatorADNL)
      == "alert_" ++ FormatInt (counterValue w now "alert_id" + 1)) = false := by
    simpa using fun h => k1 h.symm
  have b2 : (("validator_status:" ++ validatorADNL) == "alert_id") = false := by
    simpa using k2
  have b3 : ("alert_id" == "alert_" ++ FormatInt (counterValue w now "alert_id" + 1)) = false := by
    simpa using fun h => k3 h.symm
  have hcv : counterValue
      { w with
          kv := ("alert_" ++ FormatInt (counterValue w now "alert_id" + 1),
                  { val := .alert (transitionAlert w now ADNLAddr validatorADNL efficiency threshold),
                    expireAt := none }) ::
                ("alert_id",
                  { val := .int (counterValue w now "alert_id" + 1), expireAt := exp }) ::
                ("validator_status:" ++ validatorADNL,
                  { val := .statusInfo
                      { Status := classification efficiency threshold, Timestamp := now },
                    expireAt := none }) :: w.kv
          published := ("validator_notifications", .alert
              (transitionAlert w now ADNLAddr validatorADNL efficiency threshold)) :: w.published
          statusHistory :=
            { adnl_addr := ADNLAddr, validator_adnl := validatorADNL,
              timestamp := Time.Unix now,
              status := classification efficiency threshold } :: w.statusHistory }
      now "alert_id" = counterValue w now "alert_id" + 1 := by
    generalize counterValue w now "alert_id" + 1 = c at b3
    cases exp with
    | none => simp [counterValue, World.live, List.lookup_cons, b3]
    | some t =>
      have := hexp t rfl
      simp [counterValue, World.live, List.lookup_cons, b3, not_le.2 this]
  refine ⟨rfl, ?_, hcv,
    ⟨transitionAlert w now ADNLAddr validatorADNL efficiency threshold, ?_, ?_,
      rfl, rfl, rfl, rfl, rfl, rfl⟩, ⟨_, rfl, rfl, rfl, rfl⟩⟩
  · intro later
    simp [World.live, List.lookup_cons, b1, b2]
  · simp [newAlerts]
  · rw [hcv]; rfl

theorem checkStatusChange_transition_effects_witness :
    (checkStatusChange noFaults World.empty 7 "A" "V" 1 0).2 = none ∧
    counterValue (checkStatusChange noFaults World.empty 7 "A" "V" 1 0).1 7 "alert_id"
      = counterValue World.empty 7 "alert_id" + 1 :=
  have h := checkStatusChange_transition_effects World.empty 7 "A" "V" 1 0
    (Or.inl (by decide)) (Or.inl (by decide))
    (by simp [classification, cachedStatus, cachedInfo, World.live, World.empty, StatusOK,
      StatusUnknown])
  ⟨h.1, h.2.2.1⟩

theorem live_of_lookup_none (w : World) (now : Time) (key : String)
    (h : w.kv.lookup key = none) : w.live now key = none := by
  simp [World.live, h]

theorem live_of_lookup_noexp (w : World) (now : Time) (key : String) (p : Payload)
    (h : w.kv.lookup key = some { val := p, expireAt := none }) :
    w.live now key = some { val := p, expireAt := none } := by
  simp [World.live, h]

theorem classification_ne_unknown (efficiency threshold : ℚ) :
    classification efficiency threshold ≠ StatusUnknown := by
  unfold classification
  split <;> decide

/-- One sample evaluated in a ready cache: no error, the cache stays ready, the
cached status becomes the classification, and an alert is published exactly
when the classification differs from the cached status. -/
theorem checkStatusChange_ready_step (w : World) (now : Time) (ADNLAddr validatorADNL : String)
    (efficiency threshold : ℚ) (m : Nat) (h : TrackerReady w validatorADNL (m + 1)) :
    (checkStatusChange noFaults w now ADNLAddr validatorADNL efficiency threshold).2 = none ∧
    TrackerReady (checkStatusChange noFaults w now ADNLAddr validatorADNL efficiency threshold).1
      validatorADNL m ∧
    (∀ later, cachedStatus
      (checkStatusChange noFaults w now ADNLAddr validatorADNL efficiency threshold).1
      later validatorADNL = classification efficiency threshold) ∧
    newAlerts w (checkStatusChange noFaults w now ADNLAddr validatorADNL efficiency threshold).1
      = (if classification efficiency threshold = cachedStatus w now validatorADNL then []
         else [("validator_notifications",
                .alert (transitionAlert w now ADNLAddr validatorADNL efficiency threshold))]) := by
  obtain ⟨hs, hc⟩ := h
  by_cases hsame : classification efficiency threshold = cachedStatus w now validatorADNL
  · -- nothing changes
    rcases hs with hnone | ⟨info, hsome⟩
    · exfalso
      have : cachedStatus w now validatorADNL = StatusUnknown := by
        simp [cachedStatus, cachedInfo, live_of_lookup_none w now _ hnone]
      exact classification_ne_unknown efficiency threshold (hsame.trans this)
    · have hlive := live_of_lookup_noexp w now _ _ hsome
      have hcs : cachedStatus w now validatorADNL = info.Status := by
        simp [cachedStatus, cachedInfo, hlive]
      have hw := checkStatusChange_same_world noFaults w now ADNLAddr validatorADNL efficiency
        threshold info none rfl hlive (hsame.trans hcs)
      rw [hw]
      refine ⟨rfl, ⟨Or.inr ⟨info, hsome⟩, ?_⟩, ?_, ?_⟩
      · rcases hc with ⟨h0, hm⟩ | ⟨n, hn, hm⟩
        · exact Or.inl ⟨h0, by push_cast at hm; omega⟩
        · exact Or.inr ⟨n, hn, by push_cast at hm; omega⟩
      · intro later
        rw [hsame, hcs]
        simp [cachedStatus, cachedInfo, live_of_lookup_noexp w later _ _ hsome]
      · simp [hsame, newAlerts]
  · -- a transition
    have hdec : w.live now ("validator_status:" ++ validatorADNL) = none ∨
        ∃ info exp, w.live now ("validator_status:" ++ validatorADNL)
          = some { val := .statusInfo info, expireAt := exp } := by
      rcases hs with hnone | ⟨info, hsome⟩
      · exact Or.inl (live_of_lookup_none w now _ hnone)
      · exact Or.inr ⟨info, none, live_of_lookup_noexp w now _ _ hsome⟩
    have hcnt : w.live now "alert_id" = none ∨
        ∃ n exp, w.live now "alert_id" = some { val := .int n, expireAt := exp } ∧
          n < maxInt64 := by
      rcases hc with ⟨h0, _⟩ | ⟨n, hn, hm⟩
      · exact Or.inl (live_of_lookup_none w now _ h0)
      · exact Or.inr ⟨n, none, live_of_lookup_noexp w now _ _ hn, by push_cast at hm; omega⟩
    have hce : counterExpiry w now "alert_id" = none := by
      rcases hc with ⟨h0, _⟩ | ⟨n, hn, _⟩
      · simp [counterExpiry, live_of_lookup_none w now _ h0]
      · simp [counterExpiry, live_of_lookup_noexp w now _ _ hn]
    have hcv : counterValue w now "alert_id" + 1 + (m : Int) ≤ maxInt64 := by
      rcases hc with ⟨h0, hm⟩ | ⟨n, hn, hm⟩
      · have : counterValue w now "alert_id" = 0 := by
          simp [counterValue, live_of_lookup_none w now _ h0]
        rw [this]; push_cast at hm; omega
      · have : counterValue w now "alert_id" = n := by
          simp [counterValue, live_of_lookup_noexp w now _ _ hn]
        rw [this]; push_cast at hm; omega
    have hw := checkStatusChange_transition_world w now ADNLAddr validatorADNL
      efficiency threshold hdec hcnt hsame
    rw [hw, hce]
    have k1 := alertKey_ne_statusKey (FormatInt (counterValue w now "alert_id" + 1)) validatorADNL
    have k2 := statusKey_ne_alertId validatorADNL
    have k3 := alertKey_ne_alertId (counterValue w now "alert_id" + 1)
    have b1 : (("validator_status:" ++ validatorADNL)
        == "alert_" ++ FormatInt (counterValue w now "alert_id" + 1)) = false := by
      simpa using fun h => k1 h.symm
    have b2 : (("validator_status:" ++ validatorADNL) == "alert_id") = false := by
      simpa using k2
    have b3 : ("alert_id" == "alert_" ++ FormatInt (counterValue w now "alert_id" + 1))
        = false := by
      simpa using fun h => k3 h.symm
    refine ⟨rfl, ⟨Or.inr ⟨{ Status := classification efficiency threshold, Timestamp := now }, ?_⟩,
      Or.inr ⟨counterValue w now "alert_id" + 1, ?_, hcv⟩⟩, ?_, ?_⟩
    · simp [List.lookup_cons, b1, b2]
    · simp [List.lookup_cons, b3]
    · intro later
      simp [cachedStatus, cachedInfo, World.live, List.lookup_cons, b1, b2]
    · simp [hsame, newAlerts]

/-- Samples evaluated in order in a ready cache: one step per sample, each
without error and with one alert exactly when its classification differs from
the status cached just before it, and each step after the first finds cached
the classification of the sample before it. -/
theorem runSamples_edge (ADNLAddr validatorADNL : String) (threshold : ℚ) :
    ∀ (samples : List (ℚ × Time)) (w : World),
      TrackerReady w validatorADNL samples.length →
      ((runSamples noFaults ADNLAddr validatorADNL threshold w samples).1.map
          SampleStep.efficiency = samples.map Prod.fst) ∧
      (∀ s ∈ (runSamples noFaults ADNLAddr validatorADNL threshold w samples).1,
        s.error = none ∧
        s.alerts.length
          = if classification s.efficiency threshold = s.cachedBefore then 0 else 1) ∧
      ((runSamples noFaults ADNLAddr validatorADNL threshold w samples).1.Chain'
        (fun s s1 => s1.cachedBefore = classification s.efficiency threshold)) := by
  intro samples
  induction samples with
  | nil => intro w _; simp [runSamples]
  | cons hd rest ih =>
    intro w hw
    obtain ⟨efficiency, now⟩ := hd
    obtain ⟨herr, hready, hlater, halerts⟩ :=
      checkStatusChange_ready_step w now ADNLAddr validatorADNL efficiency threshold
        rest.length hw
    obtain ⟨ih1, ih2, ih3⟩ := ih _ hready
    refine ⟨?_, ?_, ?_⟩
    · simp [runSamples, ih1]
    · intro s hs
      simp only [runSamples, List.mem_cons] at hs
      rcases hs with rfl | hs
      · refine ⟨herr, ?_⟩
        simp only [halerts]
        split <;> simp
      · exact ih2 s hs
    · simp only [runSamples]
      rw [List.chain'_cons']
      refine ⟨?_, ih3⟩
      intro s1 hs1
      cases rest with
      | nil => simp [runSamples] at hs1
      | cons hd2 rest2 =>
        obtain ⟨e2, now2⟩ := hd2
        simp only [runSamples, List.head?_cons, Option.mem_def, Option.some.injEq] at hs1
        rw [← hs1]
        exact hlater now2

/-- Samples evaluated in order in a ready cache follow the closed form
`edgeTriggered`, started from the status cached at the beginning. -/
theorem runSamples_closed_form (ADNLAddr validatorADNL : String) (threshold : ℚ) :
    ∀ (samples : List (ℚ × Time)) (w : World) (prev : ValidatorStatus),
      TrackerReady w validatorADNL samples.length →
      (∀ now, cachedStatus w now validatorADNL = prev) →
      (runSamples noFaults ADNLAddr validatorADNL threshold w samples).1.map
          (fun s => (s.cachedBefore, alertStatuses s.alerts))
        = edgeTriggered threshold prev (samples.map Prod.fst) := by
  intro samples
  induction samples with
  | nil => intro w prev _ _; simp [runSamples, edgeTriggered]
  | cons hd rest ih =>
    intro w prev hw hprev
    obtain ⟨efficiency, now⟩ := hd
    obtain ⟨_, hready, hlater, halerts⟩ :=
      checkStatusChange_ready_step w now ADNLAddr validatorADNL efficiency threshold
        rest.length hw
    have ih1 := ih _ (classification efficiency threshold) hready hlater
    simp only [runSamples, List.map_cons, edgeTriggered, ih1, halerts, hprev now]
    congr 2
    split
    · simp [alertStatuses]
    · simp [alertStatuses, decodeAlert, transitionAlert]

/-- C1. Samples of one validator evaluated in order by `checkStatusChange`, all
dependencies succeeding, from any cached status: every sample is evaluated
without error; an alert is published at a sample exactly when its
classification differs from the status cached immediately before it (one alert
then, none otherwise); and every sample after the first finds cached the
classification of the sample before it, so within a run of equally classified
samples only the first can raise an alert. -/
theorem checkStatusChange_alerts_exactly_on_change (ADNLAddr validatorADNL : String)
    (threshold : ℚ) (samples : List (ℚ × Time)) (w : World)
    (hready : TrackerReady w validatorADNL samples.length) :
    ((runSamples noFaults ADNLAddr validatorADNL threshold w samples).1.map
        SampleStep.efficiency = samples.map Prod.fst) ∧
    (∀ s ∈ (runSamples noFaults ADNLAddr validatorADNL threshold w samples).1,
      s.error = none ∧
      s.alerts.length
        = if classification s.efficiency threshold = s.cachedBefore then 0 else 1) ∧
    ((runSamples noFaults ADNLAddr validatorADNL threshold w samples).1.Chain'
      (fun s s1 => s1.cachedBefore = classification s.efficiency threshold)) :=
  runSamples_edge ADNLAddr validatorADNL threshold samples w hready

theorem checkStatusChange_alerts_exactly_on_change_witness :
    TrackerReady
      { World.empty with kv := [("validator_status:V",
        { val := .statusInfo { Status := "not ok", Timestamp := 5 }, expireAt := none })] }
      "V" 3 ∧
    ((runSamples noFaults "A" "V" 1
      { World.empty with kv := [("validator_status:V",
        { val := .statusInfo { Status := "not ok", Timestamp := 5 }, expireAt := none })] }
      [(0, 10), (2, 20), (3, 30)]).1.map SampleStep.efficiency = [0, 2, 3]) :=
  have hr : TrackerReady
      { World.empty with kv := [("validator_status:V",
        { val := .statusInfo { Status := "not ok", Timestamp := 5 }, expireAt := none })] }
      "V" 3 :=
    ⟨Or.inr ⟨{ Status := "not ok", Timestamp := 5 }, by decide⟩,
     Or.inl ⟨by decide, by decide⟩⟩
  ⟨hr, (checkStatusChange_alerts_exactly_on_change "A" "V" 1 [(0, 10), (2, 20), (3, 30)] _ hr).1⟩

/-- C4, as the code behaves. With threshold 0.9 and a validator without cached
status, the stream 0.95, 0.92, 0.80, 0.85, 0.93 publishes exactly three alerts:
OK at the first sample (the previous status is `unknown`), NOT_OK at the third
and OK at the fifth; none at the second and fourth. -/
theorem example_stream_alerts (ADNLAddr validatorADNL : String) (w : World)
    (t1 t2 t3 t4 t5 : Time)
    (hnone : w.kv.lookup ("validator_status:" ++ validatorADNL) = none)
    (hready : TrackerReady w validatorADNL 5) :
    (runSamples noFaults ADNLAddr validatorADNL 0.9 w
        [(0.95, t1), (0.92, t2), (0.80, t3), (0.85, t4), (0.93, t5)]).1.map
      (fun s => alertStatuses s.alerts)
      = [[StatusOK], [], [StatusNotOK], [], [StatusOK]] := by
  have h := runSamples_closed_form ADNLAddr validatorADNL 0.9
    [(0.95, t1), (0.92, t2), (0.80, t3), (0.85, t4), (0.93, t5)] w StatusUnknown hready
    (fun now => by simp [cachedStatus, cachedInfo, live_of_lookup_none w now _ hnone])
  have h2 := congrArg (List.map Prod.snd) h
  simp only [List.map_map] at h2
  rw [show (Prod.snd ∘ fun s : SampleStep => (s.cachedBefore, alertStatuses s.alerts))
      = (fun s => alertStatuses s.alerts) from rfl] at h2
  rw [h2]
  have e1 : ¬ ("ok" : String) = "unknown" := by decide
  have e2 : ¬ ("not ok" : String) = "ok" := by decide
  have e3 : ¬ ("ok" : String) = "not ok" := by decide
  norm_num [edgeTriggered, classification, StatusOK, StatusNotOK, StatusUnknown, e1, e2, e3]

theorem example_stream_alerts_witness :
    (runSamples noFaults "A" "V" 0.9 World.empty
        [(0.95, 1), (0.92, 2), (0.80, 3), (0.85, 4), (0.93, 5)]).1.map
      (fun s => alertStatuses s.alerts)
      = [[StatusOK], [], [StatusNotOK], [], [StatusOK]] :=
  example_stream_alerts "A" "V" World.empty 1 2 3 4 5 (by decide)
    ⟨Or.inl (by decide), Or.inl ⟨by decide, by decide⟩⟩

/-- C4, counterexample. On the example stream, started from an empty cache,
the alerts are not "NOT_OK at the third sample, OK at the fifth and nothing
else": the first sample raises an alert too. -/
theorem example_stream_first_sample_alerts :
    (runSamples noFaults "A" "V" 0.9 World.empty
        [(0.95, 1), (0.92, 2), (0.80, 3), (0.85, 4), (0.93, 5)]).1.map
      (fun s => alertStatuses s.alerts)
      ≠ [[], [], [StatusNotOK], [], [StatusOK]] := by
  have h := runSamples_closed_form "A" "V" 0.9
    [(0.95, 1), (0.92, 2), (0.80, 3), (0.85, 4), (0.93, 5)] World.empty StatusUnknown
    ⟨Or.inl (by decide), Or.inl ⟨by decide, by decide⟩⟩
    (fun now => by simp [cachedStatus, cachedInfo, World.live, World.empty])
  have h2 := congrArg (List.map Prod.snd) h
  simp only [List.map_map] at h2
  rw [show (Prod.snd ∘ fun s : SampleStep => (s.cachedBefore, alertStatuses s.alerts))
      = (fun s => alertStatuses s.alerts) from rfl] at h2
  rw [h2]
  have e1 : ¬ ("ok" : String) = "unknown" := by decide
  have e2 : ¬ ("not ok" : String) = "ok" := by decide
  have e3 : ¬ ("ok" : String) = "not ok" := by decide
  norm_num [edgeTriggered, classification, StatusOK, StatusNotOK, StatusUnknown, e1, e2, e3]

/-- C5, the defect at a concrete input. Alert 7 is stored by `PublishAlert`,
then user 42 acknowledges it through the callback data `ack_7`: the value
stored under `alert_7` afterwards is still the alert as it was published, with
`IsAcknowledged` false and `AckBy` 0, although the acknowledgement was
recorded in the status history. -/
theorem handleCallback_stored_alert_not_acknowledged :
    redisGet noFaults
        (handleCallback noFaults (PublishAlert noFaults World.empty 100 exAlert).1 200 exAck)
        300 "alert_7" = .value (.alert exAlert) ∧
    exAlert.IsAcknowledged = false ∧ exAlert.AckBy = 0 ∧
    (handleCallback noFaults (PublishAlert noFaults World.empty 100 exAlert).1 200
        exAck).statusHistory
      = [{ adnl_addr := "A", validator_adnl := "V", timestamp := 0,
           status := StatusAcknowledged }] := by
  decide

/-- C6, the defect at a concrete input. Twenty-one `sendMessage` calls for
recipient 5, one second apart: all twenty-one messages are handed to the bot
within one window of 60 seconds, because each call counts under the key of
its own second. Twenty-one calls within the same second hand over twenty. -/
theorem sendMessage_hands_21_within_a_minute :
    handedWithin (sendAll noFaults 5 "m" exAlert World.empty exBurst) 5 0 Minute = 21 ∧
    handedWithin (sendAll noFaults 5 "m" exAlert World.empty (List.replicate 21 0)) 5 0 Minute
      = 20 := by
  decide

/-! ## Go maps -/

theorem GoMap.get_nil {κ ν : Type} [DecidableEq κ] (k : κ) :
    GoMap.get ([] : GoMap κ ν) k = none := rfl

theorem GoMap.get_cons {κ ν : Type} [DecidableEq κ] (m : GoMap κ ν) (k0 : κ) (v0 : ν) (k : κ) :
    GoMap.get ((k0, v0) :: m) k = if k0 = k then some v0 else GoMap.get m k := by
  unfold GoMap.get
  by_cases h : k0 = k
  · simp [List.find?_cons, h]
  · simp [List.find?_cons, h]

theorem GoMap.get_filter_ne {κ ν : Type} [DecidableEq κ] (m : GoMap κ ν) (k0 k : κ)
    (h : k0 ≠ k) :
    GoMap.get (m.filter (fun p => decide (p.1 ≠ k0))) k = GoMap.get m k := by
  induction m with
  | nil => rfl
  | cons p m ih =>
    obtain ⟨a, b⟩ := p
    by_cases ha : a = k0
    · subst ha
      have : GoMap.get ((a, b) :: m) k = GoMap.get m k := by
        rw [GoMap.get_cons]; simp [h]
      rw [this, ← ih]
      simp [List.filter_cons]
    · have hf : List.filter (fun p : κ × ν => decide (p.1 ≠ k0)) ((a, b) :: m)
          = (a, b) :: List.filter (fun p : κ × ν => decide (p.1 ≠ k0)) m := by
        simp [List.filter_cons, ha]
      rw [hf, GoMap.get_cons, GoMap.get_cons, ih]

theorem GoMap.get_set_self {κ ν : Type} [DecidableEq κ] (m : GoMap κ ν) (k : κ) (v : ν) :
    GoMap.get (GoMap.set m k v) k = some v := by
  unfold GoMap.set
  rw [GoMap.get_cons]; simp

theorem GoMap.get_set_ne {κ ν : Type} [DecidableEq κ] (m : GoMap κ ν) (k0 k : κ) (v : ν)
    (h : k0 ≠ k) : GoMap.get (GoMap.set m k0 v) k = GoMap.get m k := by
  unfold GoMap.set
  rw [GoMap.get_cons]
  simp only [h, if_false]
  exact GoMap.get_filter_ne m k0 k h

theorem GoMap.get_set {κ ν : Type} [DecidableEq κ] (m : GoMap κ ν) (k0 k : κ) (v : ν) :
    GoMap.get (GoMap.set m k0 v) k = if k0 = k then some v else GoMap.get m k := by
  by_cases h : k0 = k
  · subst h; simp [GoMap.get_set_self]
  · simp [h, GoMap.get_set_ne m k0 k v h]

theorem GoMap.distinct_set {κ ν : Type} [DecidableEq κ] (m : GoMap κ ν) (k : κ) (v : ν)
    (h : GoMap.Distinct m) : GoMap.Distinct (GoMap.set m k v) := by
  unfold GoMap.Distinct GoMap.set
  rw [List.map_cons, List.nodup_cons]
  constructor
  · intro hmem
    obtain ⟨p, hp, hk⟩ := List.mem_map.1 hmem
    have := (List.mem_filter.1 hp).2
    simp at this
    exact this hk
  · exact (List.Nodup.sublist ((List.filter_sublist m).map Prod.fst) h)

theorem GoMap.get_none_of_not_mem {κ ν : Type} [DecidableEq κ] (m : GoMap κ ν) (k : κ)
    (h : k ∉ m.map Prod.fst) : GoMap.get m k = none := by
  induction m with
  | nil => rfl
  | cons p m ih =>
    obtain ⟨a, b⟩ := p
    simp only [List.map_cons, List.mem_cons, not_or] at h
    rw [GoMap.get_cons]
    have hne : ¬ a = k := fun e => h.1 e.symm
    rw [if_neg hne]
    exact ih h.2

/-! ## The status grid: cold and warm cache -/

theorem validatorStatusKey_inj (a b : String) (from_ to_ : Time) (cycleID : Nat)
    (h : validatorStatusKey a from_ to_ cycleID = validatorStatusKey b from_ to_ cycleID) :
    a = b := by
  have h2 := congrArg String.data h
  simp only [validatorStatusKey, String.data_append, List.append_assoc] at h2
  have h3 := List.append_cancel_left h2
  exact String.ext (List.append_cancel_right h3)

/-- Reading an empty cache: every validator is missing. -/
theorem readCachedStatuses_cold (w : World) (hw : w.kv = []) (now from_ to_ : Time)
    (cycleID : Nat) :
    ∀ (l : List String) (st : Statuses) (miss : List String),
      readCachedStatuses noFaults w now from_ to_ cycleID l st miss = .ok (st, miss ++ l) := by
  intro l
  induction l with
  | nil => intro st miss; simp [readCachedStatuses]
  | cons a l ih =>
    intro st miss
    have hget : ∀ key, GetCachedData decodeChunk noFaults w now key = .ok none := by
      intro key
      simp [GetCachedData, redisGet, noFaults, World.live, hw]
    simp only [readCachedStatuses, hget, ih, List.append_assoc, List.singleton_append]

/-- Which validators the scan of the result rows leaves without an entry. -/
theorem scanStatuses_get_none (a : String) :
    ∀ (rows : List StatusRow) (st : Statuses),
      (scanStatuses st rows).get a = none ↔
        st.get a = none ∧ ∀ r ∈ rows, r.validatorAdnl ≠ a := by
  intro rows
  induction rows with
  | nil => intro st; simp [scanStatuses]
  | cons r rows ih =>
    intro st
    simp only [scanStatuses]
    rw [ih, GoMap.get_set]
    by_cases h : r.validatorAdnl = a
    · simp [h]
    · simp [h]

theorem scanStatuses_distinct :
    ∀ (rows : List StatusRow) (st : Statuses), GoMap.Distinct st →
      GoMap.Distinct (scanStatuses st rows) := by
  intro rows
  induction rows with
  | nil => intro st h; simpa [scanStatuses] using h
  | cons r rows ih =>
    intro st h
    simp only [scanStatuses]
    exact ih _ (GoMap.distinct_set _ _ _ h)

theorem statusQueryRows_adnl (env : Env) (i : Nat) (adnls : List String) (from_ to_ : Time)
    (cycleID : Nat) (a : String) :
    (∀ r ∈ env.statusQueryRows i adnls from_ to_ cycleID, r.validatorAdnl ≠ a) ↔
      (a ∈ adnls → env.statusRows a i from_ to_ cycleID = []) := by
  unfold Env.statusQueryRows
  constructor
  · intro h ha
    by_contra hne
    obtain ⟨t, rest, ht⟩ := List.exists_cons_of_ne_nil hne
    have hmem : StatusRow.mk t.1 t.2.1 a t.2.2 ∈
        adnls.flatMap (fun adnl =>
          (env.statusRows adnl i from_ to_ cycleID).map (fun r =>
            { intervalStart := r.1, avgEfficiency := r.2.1, validatorAdnl := adnl,
              cycleIDRow := r.2.2 })) := by
      rw [List.mem_flatMap]
      refine ⟨a, ha, ?_⟩
      rw [List.mem_map]
      exact ⟨t, by rw [ht]; exact List.mem_cons_self _ _, rfl⟩
    exact h _ hmem rfl
  · intro h r hr
    rw [List.mem_flatMap] at hr
    obtain ⟨b, hb, hr2⟩ := hr
    rw [List.mem_map] at hr2
    obtain ⟨t, ht, rfl⟩ := hr2
    intro hba
    simp only at hba
    subst hba
    rw [h hb] at ht
    exact absurd ht (by simp)

theorem cacheMissingStatuses_cons (now from_ to_ : Time) (cycleID : Nat) (w : World)
    (st : Statuses) (adnl : String) (data : Chunk) (rest : List (String × Chunk)) :
    cacheMissingStatuses noFaults now from_ to_ cycleID w st ((adnl, data) :: rest) =
      cacheMissingStatuses noFaults now from_ to_ cycleID
        { w with kv := (validatorStatusKey adnl from_ to_ cycleID,
                        { val := .chunk data, expireAt := some (now + Hour) }) :: w.kv }
        (st.set adnl data) rest := by
  have hh : (0 : Int) < Hour := by decide
  simp [cacheMissingStatuses, CacheChunkData, redisSet, noFaults, validatorStatusKey, hh]

/-- What the second loop of `getCachedStatuses` leaves in the result and in
the cache. -/
theorem cacheMissingStatuses_spec (now from_ to_ : Time) (cycleID : Nat) :
    ∀ (es : List (String × Chunk)) (w : World) (st : Statuses), GoMap.Distinct es →
      (∀ k, (cacheMissingStatuses noFaults now from_ to_ cycleID w st es).2.get k =
        match GoMap.get es k with
        | some d => some d
        | none => st.get k) ∧
      (∀ a, (cacheMissingStatuses noFaults now from_ to_ cycleID w st es).1.kv.lookup
          (validatorStatusKey a from_ to_ cycleID) =
        match GoMap.get es a with
        | some d => some { val := .chunk d, expireAt := some (now + Hour) }
        | none => w.kv.lookup (validatorStatusKey a from_ to_ cycleID)) := by
  intro es
  induction es with
  | nil => intro w st _; simp [cacheMissingStatuses, GoMap.get_nil]
  | cons p es ih =>
    intro w st hd
    obtain ⟨a0, d0⟩ := p
    have hd2 : GoMap.Distinct es := by
      unfold GoMap.Distinct at hd ⊢
      rw [List.map_cons, List.nodup_cons] at hd
      exact hd.2
    have hnot : GoMap.get es a0 = none := by
      apply GoMap.get_none_of_not_mem
      unfold GoMap.Distinct at hd
      rw [List.map_cons, List.nodup_cons] at hd
      exact hd.1
    rw [cacheMissingStatuses_cons]
    obtain ⟨ih1, ih2⟩ := ih
      { w with kv := (validatorStatusKey a0 from_ to_ cycleID,
                      { val := .chunk d0, expireAt := some (now + Hour) }) :: w.kv }
      (st.set a0 d0) hd2
    constructor
    · intro k
      rw [ih1 k, GoMap.get_cons, GoMap.get_set]
      by_cases h : a0 = k
      · subst h; simp [hnot]
      · simp [h]
    · intro a
      rw [ih2 a, GoMap.get_cons]
      by_cases h : a0 = a
      · subst h; simp [hnot, List.lookup_cons]
      · have hk : (validatorStatusKey a from_ to_ cycleID
            == validatorStatusKey a0 from_ to_ cycleID) = false := by
          simpa using fun e => h (validatorStatusKey_inj _ _ _ _ _ e).symm
        simp [h, List.lookup_cons, hk]

theorem hitsOf_get (hit : String → Option Chunk) (k : String) :
    ∀ (l : List String) (st : Statuses),
      (hitsOf hit st l).get k =
        if k ∈ l ∧ hit k ≠ none then hit k else st.get k := by
  intro l
  induction l with
  | nil => intro st; simp [hitsOf]
  | cons a l ih =>
    intro st
    unfold hitsOf
    cases ha : hit a with
    | none =>
      simp only [ih]
      by_cases hk : k = a
      · subst hk; simp [ha]
      · simp [hk]
    | some d =>
      simp only [ih, GoMap.get_set]
      by_cases hk : a = k
      · subst hk
        simp [ha]
      · have hk2 : ¬ k = a := fun e => hk e.symm
        simp [hk, hk2]

theorem readCachedStatuses_warm (w : World) (now from_ to_ : Time) (cycleID : Nat)
    (hit : String → Option Chunk)
    (hw : ∀ a, GetCachedData decodeChunk noFaults w now (validatorStatusKey a from_ to_ cycleID)
      = .ok (hit a)) :
    ∀ (l : List String) (st : Statuses) (miss : List String),
      readCachedStatuses noFaults w now from_ to_ cycleID l st miss =
        .ok (hitsOf hit st l, miss ++ l.filter (fun a => decide (hit a = none))) := by
  intro l
  induction l with
  | nil => intro st miss; simp [readCachedStatuses, hitsOf]
  | cons a l ih =>
    intro st miss
    have hwa := hw a
    unfold validatorStatusKey at hwa
    cases ha : hit a with
    | none =>
      rw [ha] at hwa
      simp only [readCachedStatuses, hwa, ih, hitsOf, ha, List.filter_cons, decide_True,
        if_true, List.append_assoc, List.singleton_append]
    | some d =>
      rw [ha] at hwa
      simp [readCachedStatuses, hwa, ih, hitsOf, ha, List.filter_cons]

theorem getCachedStatuses_of_read (env : Env) (w : World) (now : Time) (adnlList : List String)
    (from_ to_ : Time) (cycleID : Nat) (st : Statuses) (miss : List String)
    (h : readCachedStatuses noFaults w now from_ to_ cycleID adnlList [] [] = .ok (st, miss)) :
    getCachedStatuses env noFaults w now adnlList from_ to_ cycleID =
      if miss.length > 0 then
        if env.totalSeconds (Time.Sub to_ from_) ≤ 0 then (w, .error "invalid date interval")
        else
          let i := env.totalSeconds (Time.Sub to_ from_) / 60
          let r := cacheMissingStatuses noFaults now from_ to_ cycleID
            { w with queries := StoreQuery.statuses i miss from_ to_ cycleID :: w.queries } st
            (scanStatuses [] (env.statusQueryRows i miss from_ to_ cycleID))
          (r.1, .ok r.2)
      else (w, .ok st) := by
  unfold getCachedStatuses
  rw [h]
  simp only
  by_cases hm : miss.length > 0
  · simp only [hm, if_true]
    unfold fetchStatusesFromDB
    by_cases ht : env.totalSeconds (Time.Sub to_ from_) ≤ 0
    · simp [ht]
    · simp [ht, noFaults]
  · simp [hm]

theorem statusQueryRows_nil_of_all_nil (env : Env) (i : Nat) (from_ to_ : Time) (cycleID : Nat) :
    ∀ (l : List String), (∀ a ∈ l, env.statusRows a i from_ to_ cycleID = []) →
      env.statusQueryRows i l from_ to_ cycleID = [] := by
  intro l h
  unfold Env.statusQueryRows
  rw [List.flatMap_eq_nil_iff]
  intro a ha
  simp [h a ha]

theorem GetCachedData_absent {α : Type} (decode : Payload → Option α) (w : World) (now : Time)
    (key : String) (h : w.kv.lookup key = none) :
    GetCachedData decode noFaults w now key = .ok none := by
  simp [GetCachedData, redisGet, noFaults, World.live, h]

theorem GetCachedData_chunk (w : World) (now t : Time) (key : String) (d : Chunk)
    (h : w.kv.lookup key = some { val := .chunk d, expireAt := some t }) (ht : now < t) :
    GetCachedData decodeChunk noFaults w now key = .ok (some d) := by
  have hnle : ¬ t ≤ now := not_le.2 ht
  simp [GetCachedData, redisGet, noFaults, World.live, h, hnle, decodeChunk]

/-- Cold and warm calls of `getCachedStatuses` return the same. -/
theorem getCachedStatuses_cold_warm (env : Env) (w0 : World) (hcold : w0.kv = [])
    (adnlList : List String) (from_ to_ : Time) (cycleID : Nat) (now1 now2 : Time)
    (hlive : now2 < now1 + Hour) :
    SameStatuses (getCachedStatuses env noFaults w0 now1 adnlList from_ to_ cycleID).2
      (getCachedStatuses env noFaults
        (getCachedStatuses env noFaults w0 now1 adnlList from_ to_ cycleID).1
        now2 adnlList from_ to_ cycleID).2 := by
  have hread := readCachedStatuses_cold w0 hcold now1 from_ to_ cycleID adnlList [] []
  rw [List.nil_append] at hread
  have hc := getCachedStatuses_of_read env w0 now1 adnlList from_ to_ cycleID [] adnlList hread
  by_cases hm : adnlList.length > 0
  · by_cases ht : env.totalSeconds (Time.Sub to_ from_) ≤ 0
    · -- the range is rejected, before and after
      have hc2 : getCachedStatuses env noFaults w0 now1 adnlList from_ to_ cycleID
          = (w0, .error "invalid date interval") := by
        rw [hc]; simp [hm, ht]
      have hread2 := readCachedStatuses_cold w0 hcold now2 from_ to_ cycleID adnlList [] []
      rw [List.nil_append] at hread2
      have hw := getCachedStatuses_of_read env w0 now2 adnlList from_ to_ cycleID [] adnlList
        hread2
      have hw2 : getCachedStatuses env noFaults w0 now2 adnlList from_ to_ cycleID
          = (w0, .error "invalid date interval") := by
        rw [hw]; simp [hm, ht]
      rw [hc2]
      simp only
      rw [hw2]
      simp [SameStatuses]
    · -- the store is queried once and its answer cached
      generalize hi : env.totalSeconds (Time.Sub to_ from_) / 60 = i at hc
      generalize hM : scanStatuses [] (env.statusQueryRows i adnlList from_ to_ cycleID) = M
        at hc
      generalize hw1 : ({ w0 with queries := StoreQuery.statuses i adnlList from_ to_ cycleID :: w0.queries } : World) = w1 at hc
      have hc2 : getCachedStatuses env noFaults w0 now1 adnlList from_ to_ cycleID
          = ((cacheMissingStatuses noFaults now1 from_ to_ cycleID w1 [] M).1,
              .ok (cacheMissingStatuses noFaults now1 from_ to_ cycleID w1 [] M).2) := by
        rw [hc]
        simp only [hm, ht, if_true, if_false]
        rw [hM, hw1]
      have hMd : GoMap.Distinct M := by
        rw [← hM]
        exact scanStatuses_distinct _ [] (by simp [GoMap.Distinct])
      obtain ⟨s1, s2⟩ := cacheMissingStatuses_spec now1 from_ to_ cycleID M w1 [] hMd
      have hw1kv : w1.kv = [] := by rw [← hw1]; exact hcold
      -- what the warm call finds in the cache
      have hget : ∀ a, GetCachedData decodeChunk noFaults
          (cacheMissingStatuses noFaults now1 from_ to_ cycleID w1 [] M).1 now2
          (validatorStatusKey a from_ to_ cycleID) = .ok (GoMap.get M a) := by
        intro a
        have h2 := s2 a
        cases hMa : GoMap.get M a with
        | none =>
          rw [hMa] at h2
          simp only [hw1kv, List.lookup_nil] at h2
          exact GetCachedData_absent _ _ _ _ h2
        | some d =>
          rw [hMa] at h2
          simp only at h2
          exact GetCachedData_chunk _ _ _ _ _ h2 hlive
      have hread2 := readCachedStatuses_warm
        (cacheMissingStatuses noFaults now1 from_ to_ cycleID w1 [] M).1 now2 from_ to_ cycleID
        (GoMap.get M) hget adnlList [] []
      rw [List.nil_append] at hread2
      have hw := getCachedStatuses_of_read env
        (cacheMissingStatuses noFaults now1 from_ to_ cycleID w1 [] M).1 now2 adnlList
        from_ to_ cycleID _ _ hread2
      -- the validators still missing have no rows at all
      have hnorows : ∀ a ∈ adnlList.filter (fun a => decide (GoMap.get M a = none)),
          env.statusRows a i from_ to_ cycleID = [] := by
        intro a ha
        rw [List.mem_filter] at ha
        obtain ⟨hmem, hnone⟩ := ha
        have hnone2 : GoMap.get M a = none := by simpa using hnone
        rw [← hM, scanStatuses_get_none] at hnone2
        exact (statusQueryRows_adnl env i adnlList from_ to_ cycleID a).1 hnone2.2 hmem
      have hrows := statusQueryRows_nil_of_all_nil env i from_ to_ cycleID _ hnorows
      have hw2 : (getCachedStatuses env noFaults
          (cacheMissingStatuses noFaults now1 from_ to_ cycleID w1 [] M).1
          now2 adnlList from_ to_ cycleID).2 = .ok (hitsOf (GoMap.get M) [] adnlList) := by
        rw [hw]
        by_cases hm2 : (adnlList.filter (fun a => decide (GoMap.get M a = none))).length > 0
        · simp only [hm2, if_true, ht, if_false, hi, hrows, scanStatuses, cacheMissingStatuses]
        · simp only [hm2, if_false]
      rw [hc2]
      simp only
      rw [hw2]
      simp only [SameStatuses]
      intro k
      rw [s1 k, hitsOf_get]
      cases hMk : GoMap.get M k with
      | none => simp [GoMap.get_nil]
      | some d =>
        have hk : k ∈ adnlList := by
          by_contra hnot
          have : GoMap.get M k = none := by
            rw [← hM, scanStatuses_get_none]
            exact ⟨GoMap.get_nil k,
              (statusQueryRows_adnl env i adnlList from_ to_ cycleID k).2
                (fun hin => absurd hin hnot)⟩
          rw [this] at hMk
          exact absurd hMk (by simp)
        simp [hk]
  · -- no validator: nothing is read or queried
    have hnil : adnlList = [] := by
      cases adnlList with
      | nil => rfl
      | cons a l => exact absurd (by simp) hm
    subst hnil
    simp [getCachedStatuses, readCachedStatuses, SameStatuses]

/-- C7. `getCachedStatuses` called on an empty cache, and called again with the
same arguments on the cache the first call left behind before any entry of it
expires, return the same: the same error, or maps with the same validators and
the same buckets for each. -/
theorem getCachedStatuses_cold_equals_warm (env : Env) (w0 : World) (hcold : w0.kv = [])
    (adnlList : List String) (from_ to_ : Time) (cycleID : Nat) (now1 now2 : Time)
    (hlive : now2 < now1 + Hour) :
    SameStatuses (getCachedStatuses env noFaults w0 now1 adnlList from_ to_ cycleID).2
      (getCachedStatuses env noFaults
        (getCachedStatuses env noFaults w0 now1 adnlList from_ to_ cycleID).1
        now2 adnlList from_ to_ cycleID).2 :=
  getCachedStatuses_cold_warm env w0 hcold adnlList from_ to_ cycleID now1 now2 hlive

theorem getCachedStatuses_cold_equals_warm_witness :
    (getCachedStatuses exEnv noFaults World.empty 10000000000000 ["A", "B"] 0 3600000000000
        0).2 = .ok [("A", [(60, 0), (0, 1)])] ∧
    SameStatuses
      (getCachedStatuses exEnv noFaults World.empty 10000000000000 ["A", "B"] 0 3600000000000
        0).2
      (getCachedStatuses exEnv noFaults
        (getCachedStatuses exEnv noFaults World.empty 10000000000000 ["A", "B"] 0
          3600000000000 0).1
        10060000000000 ["A", "B"] 0 3600000000000 0).2 :=
  ⟨by decide,
   getCachedStatuses_cold_equals_warm exEnv World.empty rfl ["A", "B"] 0 3600000000000 0
     10000000000000 10060000000000 (by decide)⟩

/-- C8, the defect at a concrete input. A request for the range 0 s to
3600 s with group id 1 fills the cache; a request for the same range with
group id 2, a minute later, is served the metadata computed for group id 1,
which is not what the store returns for group id 2. -/
theorem GetValidatorsMeta_serves_other_group :
    (GetValidatorsMeta exEnv noFaults
        (GetValidatorsMeta exEnv noFaults World.empty 10000000000000 0 3600000000000 1).1
        10060000000000 0 3600000000000 2).2
      = .ok (scanMeta [] (exEnv.metaRows 0 3600000000000 1)) ∧
    scanMeta [] (exEnv.metaRows 0 3600000000000 1)
      ≠ scanMeta [] (exEnv.metaRows 0 3600000000000 2) ∧
    roundTimeRange 10060000000000 0 3600000000000 = (0, 3600000000000) := by
  decide

theorem round_minute_cases (t : Int) :
    (Time.Round t Minute = t - t % 60000000000 ∧ t % 60000000000 + t % 60000000000 < 60000000000) ∨
    (Time.Round t Minute = t + (60000000000 - t % 60000000000) ∧
      60000000000 ≤ t % 60000000000 + t % 60000000000) := by
  have hm : Minute = (60000000000 : Int) := by decide
  unfold Time.Round
  rw [hm]
  by_cases h : t % 60000000000 + t % 60000000000 < (60000000000 : Int)
  · left; simp [h]
  · right
    refine ⟨by simp [h], by omega⟩

theorem sub_of_fits (t u : Int) (h1 : minDuration ≤ t - u) (h2 : t - u ≤ maxDuration) :
    Time.Sub t u = t - u := by
  unfold Time.Sub
  have a : ¬ maxDuration < t - u := not_lt.2 h2
  have b : ¬ t - u < minDuration := not_lt.2 h1
  simp [a, b]

theorem roundTimeRange_duration (now from_ to_ : Int)
    (hfit : now < Time.Round to_ Minute →
      minDuration ≤ Time.Round to_ Minute - Time.Round from_ Minute ∧
      Time.Round to_ Minute - Time.Round from_ Minute ≤ maxDuration) :
    (roundTimeRange now from_ to_).2 - (roundTimeRange now from_ to_).1
      = Time.Round to_ Minute - Time.Round from_ Minute := by
  unfold roundTimeRange
  by_cases h : now < Time.Round to_ Minute
  · obtain ⟨h1, h2⟩ := hfit h
    simp only [Time.Before, h, decide_True, if_true, Time.Add, sub_of_fits _ _ h1 h2]
    ring
  · simp [Time.Before, h]

theorem roundTimeRange_shifted_end (now from_ to_ : Int) (h : now < Time.Round to_ Minute) :
    (roundTimeRange now from_ to_).2 = Time.Round now Minute - Minute ∧
    now - 90 * Second < (roundTimeRange now from_ to_).2 ∧
    (roundTimeRange now from_ to_).2 ≤ now - 30 * Second ∧
    (now % Minute = 0 → (roundTimeRange now from_ to_).2 = now - Minute) := by
  have hm : Minute = (60000000000 : Int) := by decide
  have hs : Second = (1000000000 : Int) := by decide
  have hend : (roundTimeRange now from_ to_).2 = Time.Round now Minute - Minute := by
    unfold roundTimeRange
    simp [Time.Before, h, Time.Add]
    ring
  rw [hend]
  rcases round_minute_cases now with ⟨hr, hlt⟩ | ⟨hr, hge⟩
  · rw [hr, hm, hs]
    delta Time
    refine ⟨rfl, by omega, by omega, by intro h0; omega⟩
  · rw [hr, hm, hs]
    delta Time
    refine ⟨rfl, by omega, by omega, by intro h0; omega⟩

theorem round_after_of_half_minute (now to_ : Int) (h : now + 30 * Second ≤ to_) :
    now < Time.Round to_ Minute := by
  have hs : Second = (1000000000 : Int) := by decide
  rw [hs] at h
  rcases round_minute_cases to_ with ⟨hr, hlt⟩ | ⟨hr, hge⟩
  · rw [hr]; omega
  · rw [hr]; omega

/-- C9, as the code behaves. The window returned by `roundTimeRange` has the
duration of the minute-rounded request, `Round(to) - Round(from)`, shifted or
not, provided that, when the window is shifted, this duration fits in a
`time.Duration` (about 292 years either way). -/
theorem roundTimeRange_preserves_duration (now from_ to_ : Time)
    (hfit : now < Time.Round to_ Minute →
      minDuration ≤ Time.Round to_ Minute - Time.Round from_ Minute ∧
      Time.Round to_ Minute - Time.Round from_ Minute ≤ maxDuration) :
    (roundTimeRange now from_ to_).2 - (roundTimeRange now from_ to_).1
      = Time.Round to_ Minute - Time.Round from_ Minute :=
  roundTimeRange_duration now from_ to_ hfit

theorem roundTimeRange_preserves_duration_witness :
    (1000000000000 : Time) < Time.Round 7200000000000 Minute ∧
    (roundTimeRange 1000000000000 0 7200000000000).2
        - (roundTimeRange 1000000000000 0 7200000000000).1
      = Time.Round 7200000000000 Minute - Time.Round 0 Minute :=
  ⟨by decide, roundTimeRange_preserves_duration 1000000000000 0 7200000000000
    (fun _ => ⟨by decide, by decide⟩)⟩

/-- C9, counterexample. A request from the epoch to 9 300 000 000 s after it,
made 1 700 000 000 s after the epoch: the rounded end is in the future, the
window is shifted, and its duration is the largest `time.Duration`, not the
9 300 000 000 s of the rounded request. -/
theorem roundTimeRange_long_range_duration_differs :
    (roundTimeRange 1700000000000000000 0 9300000000000000000).2
        - (roundTimeRange 1700000000000000000 0 9300000000000000000).1
      ≠ Time.Round 9300000000000000000 Minute - Time.Round 0 Minute := by
  decide

/-- C10, as the code behaves. When `now` is before the minute-rounded end of
the request (as it is whenever the requested end is at least 30 seconds after
`now`), the returned window ends at `now` rounded to the minute, minus one
minute: less than 90 seconds and at least 30 seconds before `now`, and exactly
one minute before `now` when `now` is a whole minute. -/
theorem roundTimeRange_future_end (now from_ to_ : Time)
    (h : now < Time.Round to_ Minute) :
    (roundTimeRange now from_ to_).2 = Time.Round now Minute - Minute ∧
    now - 90 * Second < (roundTimeRange now from_ to_).2 ∧
    (roundTimeRange now from_ to_).2 ≤ now - 30 * Second ∧
    (now % Minute = 0 → (roundTimeRange now from_ to_).2 = now - Minute) ∧
    (∀ to1 : Time, now + 30 * Second ≤ to1 → now < Time.Round to1 Minute) :=
  have r := roundTimeRange_shifted_end now from_ to_ h
  ⟨r.1, r.2.1, r.2.2.1, r.2.2.2, fun to1 h1 => round_after_of_half_minute now to1 h1⟩

theorem roundTimeRange_future_end_witness :
    (90000000000 : Time) < Time.Round 200000000000 Minute ∧
    (roundTimeRange 90000000000 0 200000000000).2 = Time.Round 90000000000 Minute - Minute :=
  ⟨by decide, (roundTimeRange_future_end 90000000000 0 200000000000 (by decide)).1⟩

/-- C10, counterexample. At 90 s after the epoch a request ending 200 s after
the epoch ends after `now`, yet the returned window ends 60 s after the epoch,
which is not `now` minus one minute (30 s). -/
theorem roundTimeRange_future_end_not_now_minus_minute :
    (90000000000 : Time) < 200000000000 ∧
    (roundTimeRange 90000000000 0 200000000000).2 = 60000000000 ∧
    (roundTimeRange 90000000000 0 200000000000).2 ≠ 90000000000 - Minute := by
  decide

theorem roundTimeRange_end_le_now (now from_ to_ : Int) :
    (roundTimeRange now from_ to_).2 ≤ now := by
  by_cases h : now < Time.Round to_ Minute
  · have h3 := (roundTimeRange_shifted_end now from_ to_ h).2.2.1
    have hs : Second = (1000000000 : Int) := by decide
    rw [hs] at h3
    delta Time at h3 ⊢
    omega
  · unfold roundTimeRange
    simp only [Time.Before, h, decide_False, Bool.false_eq_true, if_false]
    exact not_lt.1 h

/-- C12, the defect at a concrete input. With the conversion of a negative
`float64` to `uint32` wrapping around (as `exEnv` has it), a range from 120 s
to 60 s after the epoch, one minute long backwards, is not rejected:
`fetchStatusesFromDB` and `fetchEfficiencyChartDataFromDB` find
4294967236 seconds, send the store a query with a bucket width of 71582787
seconds and return its rows. A range of no duration is rejected without a
query. -/
theorem fetch_negative_range_not_rejected :
    exEnv.totalSeconds (Time.Sub 60000000000 120000000000) = 4294967236 ∧
    (fetchStatusesFromDB exEnv noFaults World.empty ["A"] 120000000000 60000000000 0).1.queries
      = [.statuses 71582787 ["A"] 120000000000 60000000000 0] ∧
    (fetchStatusesFromDB exEnv noFaults World.empty ["A"] 120000000000 60000000000 0).2
      = .ok [("A", [(60, 0), (0, 1)])] ∧
    (fetchEfficiencyChartDataFromDB exEnv noFaults World.empty 600000000000 "A"
        120000000000 60000000000).1.queries
      = [.chart 71582787 "A" 120000000000 60000000000] ∧
    (fetchEfficiencyChartDataFromDB exEnv noFaults World.empty 600000000000 "A"
        120000000000 60000000000).2 = .ok [] ∧
    fetchStatusesFromDB exEnv noFaults World.empty ["A"] 60000000000 60000000000 0
      = (World.empty, .error "invalid date interval") ∧
    fetchEfficiencyChartDataFromDB exEnv noFaults World.empty 600000000000 "A"
        60000000000 60000000000
      = (World.empty, .error "invalid date interval") :=
  ⟨by decide, by decide, by decide, by decide, by decide, by decide, by decide⟩

/-! ## Rounded ranges -/

theorem round_minute_mod (t : Int) : Time.Round t Minute % 60000000000 = 0 := by
  rcases round_minute_cases t with ⟨hr, _⟩ | ⟨hr, _⟩
  · rw [hr]; delta Time; omega
  · rw [hr]; delta Time; omega

theorem round_minute_of_mod (t : Int) (h : t % 60000000000 = 0) : Time.Round t Minute = t := by
  rcases round_minute_cases t with ⟨hr, _⟩ | ⟨hr, hge⟩
  · rw [hr]; delta Time; omega
  · omega

theorem sub_self_zero (t : Int) : Time.Sub t t = 0 := by
  unfold Time.Sub
  simp [maxDuration, minDuration]

theorem sub_cases (t u : Int) :
    Time.Sub t u = t - u ∨ Time.Sub t u = maxDuration ∨ Time.Sub t u = minDuration := by
  unfold Time.Sub
  by_cases h1 : maxDuration < t - u
  · simp [h1]
  · by_cases h2 : t - u < minDuration
    · simp [h1, h2]
    · simp [h1, h2]

/-- The two ends of the returned window, by case. -/
theorem roundTimeRange_cases (now from_ to_ : Int) :
    (¬ now < Time.Round to_ Minute ∧
      roundTimeRange now from_ to_ = (Time.Round from_ Minute, Time.Round to_ Minute)) ∨
    (now < Time.Round to_ Minute ∧
      roundTimeRange now from_ to_ =
        (Time.Round now Minute - 60000000000
            - Time.Sub (Time.Round to_ Minute) (Time.Round from_ Minute),
         Time.Round now Minute - 60000000000)) := by
  have hm : -Minute = (-60000000000 : Int) := by decide
  unfold roundTimeRange
  by_cases h : now < Time.Round to_ Minute
  · right
    refine ⟨h, ?_⟩
    simp only [Time.Before, h, decide_True, if_true, Time.Add]
    rw [hm]
    refine Prod.ext ?_ ?_
    · simp only; ring
    · simp only; ring
  · left
    refine ⟨h, ?_⟩
    simp [Time.Before, h]

/-- A window of a whole number of seconds has both ends on whole minutes and a
number of seconds that is a multiple of 60 (a saturated duration is no whole
number of seconds). -/
theorem roundTimeRange_whole_minutes (now from_ to_ : Int) (d : Nat)
    (hd : (roundTimeRange now from_ to_).2 - (roundTimeRange now from_ to_).1
      = (d : Int) * 1000000000) :
    (roundTimeRange now from_ to_).1 % 60000000000 = 0 ∧
    (roundTimeRange now from_ to_).2 % 60000000000 = 0 ∧ d % 60 = 0 := by
  have hf := round_minute_mod from_
  have ht := round_minute_mod to_
  have hn := round_minute_mod now
  rcases roundTimeRange_cases now from_ to_ with ⟨_, hr⟩ | ⟨_, hr⟩
  · rw [hr] at hd ⊢
    simp only at hd ⊢
    delta Time at hd hf ht
    refine ⟨hf, ht, ?_⟩
    omega
  · rw [hr] at hd ⊢
    simp only at hd ⊢
    rcases sub_cases (Time.Round to_ Minute) (Time.Round from_ Minute) with hs | hs | hs
    · rw [hs] at hd ⊢
      delta Time at hd hf ht hn ⊢
      refine ⟨by omega, by omega, by omega⟩
    · rw [hs] at hd
      simp only [maxDuration] at hd
      delta Time Duration at hd
      omega
    · rw [hs] at hd
      simp only [minDuration] at hd
      delta Time Duration at hd
      omega

/-- Rounding a window again, when it ends on whole minutes not after `now`,
returns it. -/
theorem roundTimeRange_fixed (now a b : Int) (ha : a % 60000000000 = 0)
    (hb : b % 60000000000 = 0) (hle : b ≤ now) : roundTimeRange now a b = (a, b) := by
  rcases roundTimeRange_cases now a b with ⟨_, hr⟩ | ⟨hlt, _⟩
  · rw [hr, round_minute_of_mod a ha, round_minute_of_mod b hb]
  · rw [round_minute_of_mod b hb] at hlt
    omega

theorem totalSeconds_whole (env : Env) (hconv : env.ConvertsExactly) (a b : Int) (d : Nat)
    (hlt : d < 4294967296) (hd : b - a = (d : Int) * 1000000000) :
    env.totalSeconds (Time.Sub b a) = d := by
  have hsub : Time.Sub b a = (d : Int) * 1000000000 := by
    have h1 : minDuration ≤ b - a := by
      show (-9223372036854775808 : Int) ≤ b - a
      omega
    have h2 : b - a ≤ maxDuration := by
      show b - a ≤ (9223372036854775807 : Int)
      omega
    rw [sub_of_fits b a h1 h2]
    exact hd
  have hs : Second = (1000000000 : Int) := by decide
  unfold Env.totalSeconds
  rw [hsub, hs, Int.tdiv_eq_ediv (by positivity) (by decide),
    Int.mul_ediv_cancel _ (by decide)]
  rw [hconv (d : Int) (by omega) (by omega)]
  simp

theorem bucket_width (d : Nat) (hpos : 0 < d) (h60 : d % 60 = 0) :
    d / 60 = (d + 59) / 60 ∧ 1 ≤ d / 60 ∧ 60 * (d / 60) = d := by
  omega

/-! ## The queries sent to the store -/

theorem redisSet_queries (f : Faults) (w : World) (now : Time) (key : String) (v : Payload)
    (ttl : Duration) : (redisSet f w now key v ttl).1.queries = w.queries := by
  unfold redisSet
  by_cases h : f.set key = true
  · simp [h]
  · simp [h]

theorem cacheMissingStatuses_queries (f : Faults) (now from_ to_ : Time) (cycleID : Nat) :
    ∀ (es : List (String × Chunk)) (w : World) (st : Statuses),
      (cacheMissingStatuses f now from_ to_ cycleID w st es).1.queries = w.queries := by
  intro es
  induction es with
  | nil => intro w st; rfl
  | cons p es ih =>
    intro w st
    obtain ⟨a, d⟩ := p
    simp only [cacheMissingStatuses]
    rw [ih]
    exact redisSet_queries _ _ _ _ _ _

/-- `getCachedStatuses` sends the store nothing, or one statuses query, whose
bucket width is a sixtieth of the converted seconds of the range. -/
theorem getCachedStatuses_queries (env : Env) (f : Faults) (w : World) (now : Time)
    (adnlList : List String) (from_ to_ : Time) (cycleID : Nat) :
    (getCachedStatuses env f w now adnlList from_ to_ cycleID).1.queries = w.queries ∨
    ∃ miss, (getCachedStatuses env f w now adnlList from_ to_ cycleID).1.queries
      = .statuses (env.totalSeconds (Time.Sub to_ from_) / 60) miss from_ to_ cycleID
          :: w.queries := by
  unfold getCachedStatuses
  cases hread : readCachedStatuses f w now from_ to_ cycleID adnlList [] [] with
  | error e => left; rfl
  | ok r =>
    obtain ⟨st, miss⟩ := r
    simp only
    by_cases hm : miss.length > 0
    · simp only [hm, if_true]
      unfold fetchStatusesFromDB
      by_cases ht : env.totalSeconds (Time.Sub to_ from_) ≤ 0
      · left; simp [ht]
      · right
        refine ⟨miss, ?_⟩
        by_cases hq : f.query (.statuses (env.totalSeconds (Time.Sub to_ from_) / 60) miss
            from_ to_ cycleID) = true
        · simp [ht, hq]
        · simp [ht, hq, cacheMissingStatuses_queries]
    · left; simp [hm]

theorem getCachedADNLList_queries (env : Env) (f : Faults) (w : World) (now from_ to_ : Time) :
    (getCachedADNLList env f w now from_ to_).1.queries = w.queries ∨
    (getCachedADNLList env f w now from_ to_).1.queries
      = .distinctADNLs from_ to_ :: w.queries := by
  unfold getCachedADNLList
  simp only
  cases hget : GetCachedData decodeADNLList f w now
      ("ADNLList:" ++ FormatInt (Time.Unix64 from_) ++ ":" ++ FormatInt (Time.Unix64 to_)) with
  | error e => left; rfl
  | ok r =>
    cases r with
    | some l => left; rfl
    | none =>
      right
      by_cases hq : f.query (.distinctADNLs from_ to_) = true
      · simp [hq]
      · simp only [hq, CacheData]
        exact redisSet_queries _ _ _ _ _ _

theorem GetValidatorsStatuses_queries (env : Env) (f : Faults) (w : World)
    (now from_ to_ : Time) (cycleID : Nat) :
    ∃ pre : List StoreQuery,
      (GetValidatorsStatuses env f w now from_ to_ cycleID).1.queries = pre ++ w.queries ∧
      ∀ q ∈ pre,
        q = .distinctADNLs (roundTimeRange now from_ to_).1 (roundTimeRange now from_ to_).2 ∨
        ∃ miss, q = .statuses
          (env.totalSeconds (Time.Sub (roundTimeRange now from_ to_).2
            (roundTimeRange now from_ to_).1) / 60)
          miss (roundTimeRange now from_ to_).1 (roundTimeRange now from_ to_).2 cycleID := by
  unfold GetValidatorsStatuses
  simp only
  generalize (roundTimeRange now from_ to_).1 = a
  generalize (roundTimeRange now from_ to_).2 = b
  have h1 := getCachedADNLList_queries env f w now a b
  cases hl : getCachedADNLList env f w now a b with
  | mk w1 r1 =>
    rw [hl] at h1
    simp only at h1
    cases r1 with
    | error e =>
      simp only
      rcases h1 with h1 | h1
      · exact ⟨[], by simpa using h1, by simp⟩
      · exact ⟨[.distinctADNLs a b], by simpa using h1, by simp⟩
    | ok adnlList =>
      simp only
      have h2 := getCachedStatuses_queries env f w1 now adnlList a b cycleID
      cases hs : getCachedStatuses env f w1 now adnlList a b cycleID with
      | mk w2 r2 =>
        rw [hs] at h2
        simp only at h2
        have hq : ∃ pre : List StoreQuery, w2.queries = pre ++ w.queries ∧
            ∀ q ∈ pre, q = .distinctADNLs a b ∨
              ∃ miss, q = .statuses (env.totalSeconds (Time.Sub b a) / 60) miss a b cycleID := by
          rcases h1 with h1 | h1 <;> rcases h2 with h2 | ⟨miss, h2⟩
          · exact ⟨[], by rw [h2, h1]; rfl, by simp⟩
          · exact ⟨[.statuses (env.totalSeconds (Time.Sub b a) / 60) miss a b cycleID],
              by rw [h2, h1]; rfl, by intro q hq; right; exact ⟨miss, by simpa using hq⟩⟩
          · exact ⟨[.distinctADNLs a b], by rw [h2, h1]; rfl, by simp⟩
          · refine ⟨[.statuses (env.totalSeconds (Time.Sub b a) / 60) miss a b cycleID,
              .distinctADNLs a b], by rw [h2, h1]; rfl, ?_⟩
            intro q hq
            simp only [List.mem_cons, List.mem_singleton, List.not_mem_nil, or_false] at hq
            rcases hq with hq | hq
            · right; exact ⟨miss, hq⟩
            · left; exact hq
        cases r2 with
        | error e => simpa using hq
        | ok st => simpa using hq

theorem fetchEfficiencyChartDataFromDB_queries (env : Env) (f : Faults) (w : World)
    (now : Time) (adnl : String) (a b : Time) :
    (fetchEfficiencyChartDataFromDB env f w now adnl a b).1.queries = w.queries ∨
    (0 < env.totalSeconds (Time.Sub (roundTimeRange now a b).2 (roundTimeRange now a b).1) ∧
     (fetchEfficiencyChartDataFromDB env f w now adnl a b).1.queries
      = .chart (env.totalSeconds (Time.Sub (roundTimeRange now a b).2
            (roundTimeRange now a b).1) / 60) adnl
          (roundTimeRange now a b).1 (roundTimeRange now a b).2 :: w.queries) := by
  unfold fetchEfficiencyChartDataFromDB
  simp only
  by_cases ht : env.totalSeconds (Time.Sub (roundTimeRange now a b).2
      (roundTimeRange now a b).1) ≤ 0
  · left; simp [ht]
  · right
    refine ⟨by omega, ?_⟩
    simp only [ht, if_false]
    split <;> rfl

theorem GetEfficiencyChartDataCached_queries (env : Env) (f : Faults) (w : World)
    (now : Time) (adnl : String) (from_ to_ : Time) :
    (GetEfficiencyChartDataCached env f w now adnl from_ to_).1.queries = w.queries ∨
    (GetEfficiencyChartDataCached env f w now adnl from_ to_).1.queries
      = .chart (env.totalSeconds (Time.Sub
            (roundTimeRange now (roundTimeRange now from_ to_).1
              (roundTimeRange now from_ to_).2).2
            (roundTimeRange now (roundTimeRange now from_ to_).1
              (roundTimeRange now from_ to_).2).1) / 60) adnl
          (roundTimeRange now (roundTimeRange now from_ to_).1 (roundTimeRange now from_ to_).2).1
          (roundTimeRange now (roundTimeRange now from_ to_).1 (roundTimeRange now from_ to_).2).2
          :: w.queries := by
  unfold GetEfficiencyChartDataCached
  simp only
  generalize (roundTimeRange now from_ to_).1 = a
  generalize (roundTimeRange now from_ to_).2 = b
  cases hget : GetCachedData decodeChart f w now
      ("GetEfficiencyChartDataCached:" ++ adnl ++ ":" ++ FormatInt (Time.Unix64 a) ++ ":"
        ++ FormatInt (Time.Unix64 b)) with
  | error e => left; rfl
  | ok r =>
    cases r with
    | some l => left; rfl
    | none =>
      simp only
      have h := fetchEfficiencyChartDataFromDB_queries env f w now adnl a b
      cases hf : fetchEfficiencyChartDataFromDB env f w now adnl a b with
      | mk w1 r1 =>
        rw [hf] at h
        simp only at h
        cases r1 with
        | error e =>
          simp only
          rcases h with h | ⟨_, h⟩
          · left; exact h
          · right; exact h
        | ok l =>
          simp only [CacheData, redisSet_queries]
          rcases h with h | ⟨_, h⟩
          · left; exact h
          · right; exact h

/-- C14. When the range returned by `roundTimeRange` for a request lasts a
positive number `d < 2^32` of seconds (and the conversion to `uint32` is exact
on such values), every statuses query sent by `GetValidatorsStatuses` and every
chart query sent by `GetEfficiencyChartDataCached` carries the bucket width
`ceil(d / 60)`, which is at least 1 and sixty times which is `d`; on a cache
miss the chart query is indeed sent. -/
theorem bucket_width_is_sixtieth_of_range (env : Env) (hconv : env.ConvertsExactly)
    (f : Faults) (w : World) (now from_ to_ : Time) (cycleID : Nat) (adnl : String) (d : Nat)
    (hpos : 0 < d) (hlt : d < 4294967296)
    (hd : (roundTimeRange now from_ to_).2 - (roundTimeRange now from_ to_).1
      = (d : Int) * Second) :
    (∀ i adnls a b c,
      StoreQuery.statuses i adnls a b c
          ∈ (GetValidatorsStatuses env f w now from_ to_ cycleID).1.queries →
        StoreQuery.statuses i adnls a b c ∈ w.queries ∨ i = (d + 59) / 60) ∧
    (∀ i ad a b,
      StoreQuery.chart i ad a b
          ∈ (GetEfficiencyChartDataCached env f w now adnl from_ to_).1.queries →
        StoreQuery.chart i ad a b ∈ w.queries ∨ i = (d + 59) / 60) ∧
    (GetCachedData decodeChart f w now
        ("GetEfficiencyChartDataCached:" ++ adnl ++ ":"
          ++ FormatInt (Time.Unix64 (roundTimeRange now from_ to_).1) ++ ":"
          ++ FormatInt (Time.Unix64 (roundTimeRange now from_ to_).2)) = .ok none →
      (GetEfficiencyChartDataCached env f w now adnl from_ to_).1.queries
        = .chart ((d + 59) / 60) adnl (roundTimeRange now from_ to_).1
            (roundTimeRange now from_ to_).2 :: w.queries) ∧
    1 ≤ (d + 59) / 60 ∧ 60 * ((d + 59) / 60) = d := by
  have hs : Second = (1000000000 : Int) := by decide
  rw [hs] at hd
  obtain ⟨h1, h2, h60⟩ := roundTimeRange_whole_minutes now from_ to_ d hd
  have hts := totalSeconds_whole env hconv _ _ d hlt hd
  have hfix := roundTimeRange_fixed now _ _ h1 h2 (roundTimeRange_end_le_now now from_ to_)
  obtain ⟨bw1, bw2, bw3⟩ := bucket_width d hpos h60
  refine ⟨?_, ?_, ?_, by omega, by omega⟩
  · intro i adnls a b c hmem
    obtain ⟨pre, hq, hpre⟩ := GetValidatorsStatuses_queries env f w now from_ to_ cycleID
    rw [hq, List.mem_append] at hmem
    rcases hmem with hmem | hmem
    · right
      rcases hpre _ hmem with h | ⟨miss, h⟩
      · exact absurd h (by simp)
      · rw [hts] at h
        have hi : i = d / 60 := by
          injection h
        omega
    · left; exact hmem
  · intro i ad a b hmem
    rcases GetEfficiencyChartDataCached_queries env f w now adnl from_ to_ with h | h
    · left; rw [h] at hmem; exact hmem
    · rw [h, hfix] at hmem
      simp only [hts] at hmem
      rcases List.mem_cons.1 hmem with h | h
      · right
        have hi : i = d / 60 := by
          injection h
        omega
      · left; exact h
  · intro hmiss
    unfold GetEfficiencyChartDataCached
    simp only [hmiss]
    unfold fetchEfficiencyChartDataFromDB
    simp only [hfix, hts]
    have hnz : ¬ d ≤ 0 := by omega
    simp only [hnz, if_false, ← bw1]
    by_cases hq : f.query (.chart (d / 60) adnl (roundTimeRange now from_ to_).1
        (roundTimeRange now from_ to_).2) = true
    · simp [hq]
    · simp [hq, CacheData, redisSet_queries]

theorem exEnv_converts : exEnv.ConvertsExactly := by
  intro n h0 h1
  show (n % 4294967296).toNat = n.toNat
  rw [Int.emod_eq_of_lt h0 h1]

theorem bucket_width_is_sixtieth_of_range_witness :
    (roundTimeRange 10000000000000 0 3600000000000).2
        - (roundTimeRange 10000000000000 0 3600000000000).1 = ((3600 : Nat) : Int) * Second ∧
    (GetEfficiencyChartDataCached exEnv noFaults World.empty 10000000000000 "A" 0
        3600000000000).1.queries
      = .chart ((3600 + 59) / 60) "A" (roundTimeRange 10000000000000 0 3600000000000).1
          (roundTimeRange 10000000000000 0 3600000000000).2 :: World.empty.queries :=
  ⟨by decide,
   (bucket_width_is_sixtieth_of_range exEnv exEnv_converts noFaults World.empty
      10000000000000 0 3600000000000 0 "A" 3600 (by decide) (by decide) (by decide)).2.2.1
      (by decide)⟩

/-- A request whose two ends round to the same minute gets a window with equal
ends. -/
theorem roundTimeRange_zero (now from_ to_ : Int)
    (hzero : Time.Round to_ Minute = Time.Round from_ Minute) :
    (roundTimeRange now from_ to_).1 = (roundTimeRange now from_ to_).2 := by
  rcases roundTimeRange_cases now from_ to_ with ⟨_, hr⟩ | ⟨_, hr⟩
  · rw [hr]; exact hzero.symm
  · rw [hr, hzero, sub_self_zero]
    simp

theorem totalSeconds_zero (env : Env) (hconv : env.ConvertsExactly) (t : Int) :
    env.totalSeconds (Time.Sub t t) = 0 := by
  unfold Env.totalSeconds
  rw [sub_self_zero]
  have h := hconv 0 (le_refl _) (by decide)
  simpa using h

/-- On a range of no duration `getCachedStatuses` leaves everything as it was. -/
theorem getCachedStatuses_zero_world (env : Env) (hconv : env.ConvertsExactly) (f : Faults)
    (w : World) (now : Time) (adnlList : List String) (t : Time) (cycleID : Nat) :
    (getCachedStatuses env f w now adnlList t t cycleID).1 = w := by
  unfold getCachedStatuses
  cases hread : readCachedStatuses f w now t t cycleID adnlList [] [] with
  | error e => rfl
  | ok r =>
    obtain ⟨st, miss⟩ := r
    simp only
    by_cases hm : miss.length > 0
    · simp only [hm, if_true]
      unfold fetchStatusesFromDB
      simp [totalSeconds_zero env hconv t]
    · simp [hm]

theorem fetchEfficiencyChartDataFromDB_zero (env : Env) (hconv : env.ConvertsExactly)
    (f : Faults) (w : World) (now : Time) (adnl : String) (t : Time) :
    fetchEfficiencyChartDataFromDB env f w now adnl t t = (w, .error "invalid date interval") := by
  unfold fetchEfficiencyChartDataFromDB
  simp only
  rw [roundTimeRange_zero now t t rfl]
  simp [totalSeconds_zero env hconv]

/-- What the two read operations do on a request of no rounded duration. -/
theorem zero_range_reads (env : Env) (hconv : env.ConvertsExactly) (f : Faults) (w : World)
    (now from_ to_ : Time) (cycleID : Nat) (adnl : String)
    (hzero : Time.Round to_ Minute = Time.Round from_ Minute) :
    (GetEfficiencyChartDataCached env f w now adnl from_ to_).1 = w ∧
    (GetCachedData decodeChart f w now
        ("GetEfficiencyChartDataCached:" ++ adnl ++ ":"
          ++ FormatInt (Time.Unix64 (roundTimeRange now from_ to_).1) ++ ":"
          ++ FormatInt (Time.Unix64 (roundTimeRange now from_ to_).2)) = .ok none →
      (GetEfficiencyChartDataCached env f w now adnl from_ to_).2
        = .error "invalid date interval") ∧
    (∀ cached, GetCachedData decodeChart f w now
        ("GetEfficiencyChartDataCached:" ++ adnl ++ ":"
          ++ FormatInt (Time.Unix64 (roundTimeRange now from_ to_).1) ++ ":"
          ++ FormatInt (Time.Unix64 (roundTimeRange now from_ to_).2)) = .ok (some cached) →
      (GetEfficiencyChartDataCached env f w now adnl from_ to_).2 = .ok cached) ∧
    (GetValidatorsStatuses env f w now from_ to_ cycleID).1
      = (getCachedADNLList env f w now (roundTimeRange now from_ to_).1
          (roundTimeRange now from_ to_).2).1 ∧
    ((GetValidatorsStatuses env f w now from_ to_ cycleID).1.queries = w.queries ∨
     (GetValidatorsStatuses env f w now from_ to_ cycleID).1.queries
       = .distinctADNLs (roundTimeRange now from_ to_).1 (roundTimeRange now from_ to_).2
          :: w.queries) := by
  have hz := roundTimeRange_zero now from_ to_ hzero
  have hgrid : (GetValidatorsStatuses env f w now from_ to_ cycleID).1
      = (getCachedADNLList env f w now (roundTimeRange now from_ to_).1
          (roundTimeRange now from_ to_).2).1 := by
    unfold GetValidatorsStatuses
    simp only
    cases hl : getCachedADNLList env f w now (roundTimeRange now from_ to_).1
        (roundTimeRange now from_ to_).2 with
    | mk w1 r1 =>
      cases r1 with
      | error e => rfl
      | ok adnlList =>
        simp only
        have h := getCachedStatuses_zero_world env hconv f w1 now adnlList
          (roundTimeRange now from_ to_).2 cycleID
        rw [hz]
        cases hs : getCachedStatuses env f w1 now adnlList (roundTimeRange now from_ to_).2
            (roundTimeRange now from_ to_).2 cycleID with
        | mk w2 r2 =>
          rw [hs] at h
          cases r2 with
          | error e => exact h
          | ok st => exact h
  refine ⟨?_, ?_, ?_, hgrid, ?_⟩
  · unfold GetEfficiencyChartDataCached
    simp only
    split
    · rfl
    · rfl
    · rw [hz, fetchEfficiencyChartDataFromDB_zero env hconv]
  · intro hmiss
    unfold GetEfficiencyChartDataCached
    simp only [hmiss]
    rw [hz, fetchEfficiencyChartDataFromDB_zero env hconv]
  · intro cached hhit
    unfold GetEfficiencyChartDataCached
    simp only [hhit]
  · rw [hgrid]
    exact getCachedADNLList_queries env f w now _ _

/-- C13, as the code behaves. For a request whose two ends round to the same
minute (no rounded duration), with the conversion to `uint32` exact:
`GetEfficiencyChartDataCached` reads the cache first and leaves cache and store
untouched, returning `invalid date interval` on a miss and the cached series
on a hit; `GetValidatorsStatuses` changes nothing beyond what looking up the
validators of the range does, so the only query it can send the store is the
one for those validators, never a statuses query. -/
theorem zero_range_rejected_only_after_cache (env : Env) (hconv : env.ConvertsExactly)
    (f : Faults) (w : World) (now from_ to_ : Time) (cycleID : Nat) (adnl : String)
    (hzero : Time.Round to_ Minute = Time.Round from_ Minute) :
    (GetEfficiencyChartDataCached env f w now adnl from_ to_).1 = w ∧
    (GetCachedData decodeChart f w now
        ("GetEfficiencyChartDataCached:" ++ adnl ++ ":"
          ++ FormatInt (Time.Unix64 (roundTimeRange now from_ to_).1) ++ ":"
          ++ FormatInt (Time.Unix64 (roundTimeRange now from_ to_).2)) = .ok none →
      (GetEfficiencyChartDataCached env f w now adnl from_ to_).2
        = .error "invalid date interval") ∧
    (∀ cached, GetCachedData decodeChart f w now
        ("GetEfficiencyChartDataCached:" ++ adnl ++ ":"
          ++ FormatInt (Time.Unix64 (roundTimeRange now from_ to_).1) ++ ":"
          ++ FormatInt (Time.Unix64 (roundTimeRange now from_ to_).2)) = .ok (some cached) →
      (GetEfficiencyChartDataCached env f w now adnl from_ to_).2 = .ok cached) ∧
    (GetValidatorsStatuses env f w now from_ to_ cycleID).1
      = (getCachedADNLList env f w now (roundTimeRange now from_ to_).1
          (roundTimeRange now from_ to_).2).1 ∧
    ((GetValidatorsStatuses env f w now from_ to_ cycleID).1.queries = w.queries ∨
     (GetValidatorsStatuses env f w now from_ to_ cycleID).1.queries
       = .distinctADNLs (roundTimeRange now from_ to_).1 (roundTimeRange now from_ to_).2
          :: w.queries) :=
  zero_range_reads env hconv f w now from_ to_ cycleID adnl hzero

theorem zero_range_rejected_only_after_cache_witness :
    Time.Round 60000000000 Minute = Time.Round 60000000000 Minute ∧
    (GetEfficiencyChartDataCached exGridEnv noFaults World.empty 10000000000000 "A"
        60000000000 60000000000).1 = World.empty ∧
    (GetEfficiencyChartDataCached exGridEnv noFaults World.empty 10000000000000 "A"
        60000000000 60000000000).2 = .error "invalid date interval" :=
  have h := zero_range_rejected_only_after_cache exGridEnv exEnv_converts noFaults World.empty
    10000000000000 60000000000 60000000000 0 "A" rfl
  ⟨rfl, h.1, h.2.1 (by decide)⟩

/-- C13, counterexample. A request from 60 s to 60 s after the epoch on an
empty cache: before it ends, `GetValidatorsStatuses` has sent the store the
query for the validators of the range and written their list to the cache. -/
theorem zero_range_reaches_store_and_cache :
    Time.Sub (roundTimeRange 10000000000000 60000000000 60000000000).2
        (roundTimeRange 10000000000000 60000000000 60000000000).1 = 0 ∧
    (GetValidatorsStatuses exGridEnv noFaults World.empty 10000000000000 60000000000
        60000000000 0).1.queries = [.distinctADNLs 60000000000 60000000000] ∧
    (GetValidatorsStatuses exGridEnv noFaults World.empty 10000000000000 60000000000
        60000000000 0).1.kv
      = [("ADNLList:60:60", { val := .adnlList ["A", "B"],
                              expireAt := some 13600000000000 })] :=
  ⟨by decide, by decide, by decide⟩

/-! ## Acknowledgement -/

theorem toDigitsCore_ne_nil (fuel n : Nat) (acc : List Char) (hacc : acc ≠ []) :
    Nat.toDigitsCore 10 fuel n acc ≠ [] := by
  induction fuel generalizing n acc with
  | zero => simpa [Nat.toDigitsCore] using hacc
  | succ k ih =>
    unfold Nat.toDigitsCore
    by_cases h0 : n / 10 = 0
    · simp [h0]
    · simpa [h0] using ih (n / 10) _ (by simp)

theorem FormatInt_ne_empty (n : Int) : (FormatInt n).data ≠ [] := by
  cases n with
  | ofNat m =>
    simp only [FormatInt, Nat.toDigits]
    unfold Nat.toDigitsCore
    by_cases h0 : m / 10 = 0
    · simp [h0]
    · simpa [h0] using toDigitsCore_ne_nil m (m / 10) _ (by simp)
  | negSucc m => simp [FormatInt]

/-- The callback data `ack_<s>` passes the test of `handleCallback` and names
`s`. -/
theorem ack_data (s : String) (hs : s.data ≠ []) :
    (len ("ack_" ++ s) > 4 ∧ sliceTo ("ack_" ++ s) 4 = "ack_") ∧
    sliceFrom ("ack_" ++ s) 4 = s := by
  have hd : ("ack_" ++ s).data = ['a', 'c', 'k', '_'] ++ s.data := by
    rw [String.data_append]
  refine ⟨⟨?_, ?_⟩, ?_⟩
  · unfold len
    rw [hd]
    have : 0 < s.data.length := List.length_pos.2 hs
    simp only [List.length_append, List.length_cons, List.length_nil]
    omega
  · unfold sliceTo
    rw [hd]
    rfl
  · unfold sliceFrom
    rw [hd]
    rfl

/-- The acknowledgement of a stored alert, every dependency succeeding. -/
theorem handleCallback_stored (w : World) (now : Time) (s : String) (hs : s.data ≠ [])
    (user : User) (mc : Option Int) (a : Alert) (exp : Option Time)
    (hlive : w.live now ("alert_" ++ s) = some { val := .alert a, expireAt := exp }) :
    (handleCallback noFaults w now
        { CallbackQuery := some { From := user, Data := "ack_" ++ s, MessageChatID := mc } }).statusHistory
      = { adnl_addr := a.ADNLAddr, validator_adnl := a.ValidatorADNL,
          timestamp := Time.Unix now, status := StatusAcknowledged } :: w.statusHistory := by
  obtain ⟨hc, hf⟩ := ack_data s hs
  unfold handleCallback
  simp only [hc, hf, and_self, if_true]
  cases mc with
  | none =>
    simp [redisGet, noFaults, hlive, decodeAlert, redisSet, InsertStatusChange]
  | some chat =>
    simp [redisGet, noFaults, hlive, decodeAlert, redisSet, InsertStatusChange, botSendMessage]

/-- The acknowledgement of an alert that is not stored, every dependency
succeeding. -/
theorem handleCallback_absent (w : World) (now : Time) (s : String) (hs : s.data ≠ [])
    (user : User) (mc : Option Int) (hlive : w.live now ("alert_" ++ s) = none) :
    (handleCallback noFaults w now
        { CallbackQuery := some { From := user, Data := "ack_" ++ s, MessageChatID := mc } }).statusHistory
      = w.statusHistory ∧
    (handleCallback noFaults w now
        { CallbackQuery := some { From := user, Data := "ack_" ++ s, MessageChatID := mc } }).kv
      = w.kv := by
  obtain ⟨hc, hf⟩ := ack_data s hs
  unfold handleCallback
  simp only [hc, hf, and_self, if_true]
  cases mc with
  | none => simp [redisGet, noFaults, hlive]
  | some chat => simp [redisGet, noFaults, hlive, botSendMessage]

/-- C17. For the callback data `ack_<X>`, every dependency succeeding: if an
alert is stored under `alert_<X>`, `handleCallback` appends exactly one status
record, with status ACKNOWLEDGED and the two addresses of that alert; if
nothing is stored under `alert_<X>`, it appends no status record and leaves
every key of the cache, so every stored alert, as it was. -/
theorem handleCallback_appends_one_acknowledged_record (w : World) (now : Time) (X : Int)
    (user : User) (mc : Option Int) :
    (∀ (a : Alert) (exp : Option Time),
      w.live now ("alert_" ++ FormatInt X) = some { val := .alert a, expireAt := exp } →
      (handleCallback noFaults w now
          { CallbackQuery := some { From := user, Data := "ack_" ++ FormatInt X,
                                    MessageChatID := mc } }).statusHistory
        = { adnl_addr := a.ADNLAddr, validator_adnl := a.ValidatorADNL,
            timestamp := Time.Unix now, status := StatusAcknowledged } :: w.statusHistory) ∧
    (w.live now ("alert_" ++ FormatInt X) = none →
      (handleCallback noFaults w now
          { CallbackQuery := some { From := user, Data := "ack_" ++ FormatInt X,
                                    MessageChatID := mc } }).statusHistory = w.statusHistory ∧
      (handleCallback noFaults w now
          { CallbackQuery := some { From := user, Data := "ack_" ++ FormatInt X,
                                    MessageChatID := mc } }).kv = w.kv) :=
  ⟨fun a exp h => handleCallback_stored w now _ (FormatInt_ne_empty X) user mc a exp h,
   fun h => handleCallback_absent w now _ (FormatInt_ne_empty X) user mc h⟩

theorem handleCallback_appends_one_acknowledged_record_witness :
    (handleCallback noFaults (PublishAlert noFaults World.empty 100 exAlert).1 200
        { CallbackQuery := some { From := { ID := 42, Username := "bob" },
                                  Data := "ack_" ++ FormatInt 7,
                                  MessageChatID := some 42 } }).statusHistory
      = { adnl_addr := exAlert.ADNLAddr, validator_adnl := exAlert.ValidatorADNL,
          timestamp := Time.Unix 200, status := StatusAcknowledged }
          :: (PublishAlert noFaults World.empty 100 exAlert).1.statusHistory ∧
    (handleCallback noFaults World.empty 200
        { CallbackQuery := some { From := { ID := 42, Username := "bob" },
                                  Data := "ack_" ++ FormatInt 7,
                                  MessageChatID := some 42 } }).kv = World.empty.kv :=
  ⟨(handleCallback_appends_one_acknowledged_record
      (PublishAlert noFaults World.empty 100 exAlert).1 200 7
      { ID := 42, Username := "bob" } (some 42)).1 exAlert none (by decide),
   ((handleCallback_appends_one_acknowledged_record World.empty 200 7
      { ID := 42, Username := "bob" } (some 42)).2 (by decide)).2⟩

theorem botSendMessage_kv (f : Faults) (w : World) (now : Time) (chatID : Int)
    (text : MessageText) (cb : Option String) :
    (botSendMessage f w now chatID text cb).1.kv = w.kv := rfl

theorem InsertStatusChange_kv (f : Faults) (w : World) (a v : String) (s : ValidatorStatus)
    (t : Time) : (InsertStatusChange f w a v s t).1.kv = w.kv := by
  unfold InsertStatusChange
  split <;> rfl

theorem redisSet_kv (f : Faults) (w : World) (now : Time) (key : String) (v : Payload)
    (ttl : Duration) :
    (redisSet f w now key v ttl).1.kv = w.kv ∨
    ∃ e, (redisSet f w now key v ttl).1.kv = (key, e) :: w.kv := by
  unfold redisSet
  split
  · left; rfl
  · right; exact ⟨_, rfl⟩

/-- The only key `handleCallback` can write is `alert_` followed by what comes
after the first four characters of the callback data. -/
theorem handleCallback_kv (f : Faults) (w : World) (now : Time) (cq : CallbackQuery)
    (m : Option Message) :
    (handleCallback f w now { CallbackQuery := some cq, Message := m }).kv = w.kv ∨
    ∃ e, (handleCallback f w now { CallbackQuery := some cq, Message := m }).kv
      = ("alert_" ++ sliceFrom cq.Data 4, e) :: w.kv := by
  unfold handleCallback
  simp only
  split
  · split
    · split <;> (left; rfl)
    · have h := redisSet_kv f w now ("alert_" ++ sliceFrom cq.Data 4)
        (match redisGet f w now ("alert_" ++ sliceFrom cq.Data 4) with
          | .value p => p
          | _ => .raw "") 0
      split
      · simp only [botSendMessage_kv, InsertStatusChange_kv]
        exact h
      · simp only [InsertStatusChange_kv]
        exact h
  · left; rfl

theorem live_of_kv_cons (w w1 : World) (key k : String) (e : Entry) (t : Time)
    (h : w1.kv = w.kv ∨ w1.kv = (key, e) :: w.kv) (hk : k ≠ key) :
    w1.live t k = w.live t k := by
  rcases h with h | h
  · simp [World.live, h]
  · have hb : (k == key) = false := by simpa using hk
    simp [World.live, h, List.lookup_cons, hb]

theorem newAlerts_of_cons (w u : World) (x : String × Payload)
    (h : u.published = x :: w.published) : newAlerts w u = [x] := by
  simp [newAlerts, h]

theorem newAlerts_of_same (w u : World) (h : u.published = w.published) :
    newAlerts w u = [] := by
  simp [newAlerts, h]

theorem GetCachedData_congr {α : Type} (decode : Payload → Option α) (f : Faults)
    (w w1 : World) (now : Time) (key : String) (h : w1.live now key = w.live now key) :
    GetCachedData decode f w1 now key = GetCachedData decode f w now key := by
  unfold GetCachedData redisGet
  rw [h]

theorem redisIncr_published (f : Faults) (w : World) (now : Time) (key : String) :
    (redisIncr f w now key).1.published = w.published := by
  unfold redisIncr
  split
  · rfl
  · split
    · rfl
    · split
      · split <;> rfl
      · rfl

theorem redisIncr_congr (f : Faults) (w w1 : World) (now : Time) (key : String)
    (h : w1.live now key = w.live now key) :
    (redisIncr f w1 now key).2 = (redisIncr f w now key).2 := by
  unfold redisIncr
  rw [h]
  split
  · rfl
  · split
    · rfl
    · split
      · split <;> rfl
      · rfl

theorem generateAlertID_published (f : Faults) (w : World) (now : Time) :
    (generateAlertID f w now).1.published = w.published := by
  have h := redisIncr_published f w now "alert_id"
  unfold generateAlertID IncrementCounter
  cases hr : redisIncr f w now "alert_id" with
  | mk u r =>
    rw [hr] at h
    cases r <;> exact h

theorem generateAlertID_congr (f : Faults) (w w1 : World) (now : Time)
    (h : w1.live now "alert_id" = w.live now "alert_id") :
    (generateAlertID f w1 now).2 = (generateAlertID f w now).2 := by
  have hc := redisIncr_congr f w w1 now "alert_id" h
  unfold generateAlertID IncrementCounter
  cases hr1 : redisIncr f w1 now "alert_id" with
  | mk u1 r1 =>
    cases hr : redisIncr f w now "alert_id" with
    | mk u r =>
      rw [hr1, hr] at hc
      simp only at hc
      subst hc
      cases r1 <;> rfl

theorem PublishAlert_published (f : Faults) (w : World) (now : Time) (alert : Alert) :
    (PublishAlert f w now alert).1.published =
      if f.set ("alert_" ++ FormatInt alert.ID) = true ∨ f.publish = true then w.published
      else ("validator_notifications", .alert alert) :: w.published := by
  unfold PublishAlert redisSet redisPublish
  by_cases h1 : f.set ("alert_" ++ FormatInt alert.ID) = true
  · simp [h1]
  · by_cases h2 : f.publish = true
    · simp [h1, h2]
    · simp [h1, h2]

theorem InsertStatusChange_published (f : Faults) (w : World) (a v : String)
    (s : ValidatorStatus) (t : Time) :
    (InsertStatusChange f w a v s t).1.published = w.published := by
  unfold InsertStatusChange
  split <;> rfl

/-- `checkStatusChange` in stages. -/
theorem checkStatusChange_stages (f : Faults) (w : World) (now : Time)
    (ADNLAddr validatorADNL : String) (efficiency threshold : ℚ) :
    checkStatusChange f w now ADNLAddr validatorADNL efficiency threshold =
      match GetCachedData decodeStatusInfo f w now ("validator_status:" ++ validatorADNL) with
      | .error e => (w, some ("failed to get cached data: " ++ e))
      | .ok found =>
        if classification efficiency threshold = (previousOf found now).Status then (w, none)
        else if f.set ("validator_status:" ++ validatorADNL) = true then
          (w, some ("failed to cache new status: " ++ "redis: set failed"))
        else
          transitionTail f
            { w with kv := ("validator_status:" ++ validatorADNL,
                { val := .statusInfo
                    { Status := classification efficiency threshold, Timestamp := now },
                  expireAt := none }) :: w.kv }
            now ADNLAddr validatorADNL efficiency (classification efficiency threshold)
            (previousOf found now) := by
  simp only [checkStatusChange, classify_eq]
  generalize GetCachedData decodeStatusInfo f w now ("validator_status:" ++ validatorADNL) = r
  cases r with
  | error e => rfl
  | ok found =>
    have hp : (match found with
        | some v => v
        | none => ({ Status := StatusUnknown, Timestamp := now } : ValidatorStatusInfo))
        = previousOf found now := rfl
    simp only [hp]
    by_cases hsame : classification efficiency threshold = (previousOf found now).Status
    · simp [hsame]
    · by_cases hs : f.set ("validator_status:" ++ validatorADNL) = true
      · simp [hsame, hs, CacheData, redisSet]
      · simp only [ne_eq, hsame, not_false_eq_true, if_true, if_false, hs, CacheData, redisSet]
        simp only [lt_self_iff_false, if_false]
        rfl

theorem transitionTail_congr (f : Faults) (w w1 u u1 : World) (now : Time)
    (ADNLAddr validatorADNL : String) (efficiency : ℚ) (cls : ValidatorStatus)
    (previous : ValidatorStatusInfo)
    (hp1 : u1.published = w1.published) (hp : u.published = w.published)
    (hl : u1.live now "alert_id" = u.live now "alert_id") :
    (transitionTail f u1 now ADNLAddr validatorADNL efficiency cls previous).2
      = (transitionTail f u now ADNLAddr validatorADNL efficiency cls previous).2 ∧
    newAlerts w1 (transitionTail f u1 now ADNLAddr validatorADNL efficiency cls previous).1
      = newAlerts w (transitionTail f u now ADNLAddr validatorADNL efficiency cls previous).1 := by
  have hc := generateAlertID_congr f u u1 now hl
  have hq1 := generateAlertID_published f u1 now
  have hq := generateAlertID_published f u now
  unfold transitionTail
  cases hg1 : generateAlertID f u1 now with
  | mk v1 r1 =>
    cases hg : generateAlertID f u now with
    | mk v r =>
      rw [hg1, hg] at hc
      rw [hg1] at hq1
      rw [hg] at hq
      simp only at hc hq1 hq
      subst hc
      cases r1 with
      | error e =>
        simp only [true_and]
        rw [newAlerts_of_same _ _ (hq1.trans hp1), newAlerts_of_same _ _ (hq.trans hp)]
      | ok alertID =>
        simp only [true_and]
        by_cases hf : f.set ("alert_" ++ FormatInt alertID) = true ∨ f.publish = true
        · rw [newAlerts_of_same, newAlerts_of_same]
          · rw [InsertStatusChange_published, PublishAlert_published]
            simp only [hf, if_true]
            exact hq.trans hp
          · rw [InsertStatusChange_published, PublishAlert_published]
            simp only [hf, if_true]
            exact hq1.trans hp1
        · rw [newAlerts_of_cons _ _ _ (by
              rw [InsertStatusChange_published, PublishAlert_published]
              simp only [hf, if_false]
              rw [hq1, hp1]),
            newAlerts_of_cons _ _ _ (by
              rw [InsertStatusChange_published, PublishAlert_published]
              simp only [hf, if_false]
              rw [hq, hp])]

/-- What `checkStatusChange` returns and publishes depends on the cache only
through the live entries of the validator's status and of `alert_id`. -/
theorem checkStatusChange_congr (f : Faults) (w w1 : World) (now : Time)
    (ADNLAddr validatorADNL : String) (efficiency threshold : ℚ)
    (h1 : w1.live now ("validator_status:" ++ validatorADNL)
      = w.live now ("validator_status:" ++ validatorADNL))
    (h2 : w1.live now "alert_id" = w.live now "alert_id") :
    (checkStatusChange f w1 now ADNLAddr validatorADNL efficiency threshold).2
      = (checkStatusChange f w now ADNLAddr validatorADNL efficiency threshold).2 ∧
    newAlerts w1 (checkStatusChange f w1 now ADNLAddr validatorADNL efficiency threshold).1
      = newAlerts w (checkStatusChange f w now ADNLAddr validatorADNL efficiency threshold).1 := by
  have hk : ("alert_id" : String) ≠ "validator_status:" ++ validatorADNL :=
    fun h => statusKey_ne_alertId validatorADNL h.symm
  rw [checkStatusChange_stages f w1, checkStatusChange_stages f w,
    GetCachedData_congr decodeStatusInfo f w w1 now _ h1]
  cases hget : GetCachedData decodeStatusInfo f w now ("validator_status:" ++ validatorADNL) with
  | error e => simp [newAlerts_of_same]
  | ok found =>
    simp only
    by_cases hsame : classification efficiency threshold = (previousOf found now).Status
    · simp [hsame, newAlerts_of_same]
    · by_cases hs : f.set ("validator_status:" ++ validatorADNL) = true
      · simp [hsame, hs, newAlerts_of_same]
      · simp only [hsame, hs, if_false]
        apply transitionTail_congr
        · rfl
        · rfl
        · rw [live_cons_ne w1 now _ _ _ hk, live_cons_ne w now _ _ _ hk, h2]

theorem handleCallback_ack_lives (f : Faults) (w : World) (now : Time) (X : Int) (user : User)
    (mc : Option Int) (m : Option Message) (t : Time) (k : String)
    (hk : k ≠ "alert_" ++ FormatInt X) :
    (handleCallback f w now
        { CallbackQuery := some { From := user, Data := "ack_" ++ FormatInt X,
                                  MessageChatID := mc }, Message := m }).live t k
      = w.live t k := by
  have hf := (ack_data (FormatInt X) (FormatInt_ne_empty X)).2
  rcases handleCallback_kv f w now
    { From := user, Data := "ack_" ++ FormatInt X, MessageChatID := mc } m with h | ⟨e, h⟩
  · exact live_of_kv_cons w _ ("alert_" ++ FormatInt X) k ⟨.raw "", none⟩ t (Or.inl h) hk
  · simp only [hf] at h
    exact live_of_kv_cons w _ ("alert_" ++ FormatInt X) k e t (Or.inr h) hk

theorem handleCallback_ack_frame (f f2 : Faults) (w : World) (now : Time) (X : Int)
    (user : User) (mc : Option Int) (m : Option Message) (now2 : Time)
    (ADNLAddr validatorADNL : String) (efficiency threshold : ℚ) :
    (∀ t : Time,
      (handleCallback f w now
          { CallbackQuery := some { From := user, Data := "ack_" ++ FormatInt X,
                                    MessageChatID := mc }, Message := m }).live t
          ("validator_status:" ++ validatorADNL)
        = w.live t ("validator_status:" ++ validatorADNL)) ∧
    (checkStatusChange f2
        (handleCallback f w now
          { CallbackQuery := some { From := user, Data := "ack_" ++ FormatInt X,
                                    MessageChatID := mc }, Message := m })
        now2 ADNLAddr validatorADNL efficiency threshold).2
      = (checkStatusChange f2 w now2 ADNLAddr validatorADNL efficiency threshold).2 ∧
    newAlerts
        (handleCallback f w now
          { CallbackQuery := some { From := user, Data := "ack_" ++ FormatInt X,
                                    MessageChatID := mc }, Message := m })
        (checkStatusChange f2
          (handleCallback f w now
            { CallbackQuery := some { From := user, Data := "ack_" ++ FormatInt X,
                                      MessageChatID := mc }, Message := m })
          now2 ADNLAddr validatorADNL efficiency threshold).1
      = newAlerts w (checkStatusChange f2 w now2 ADNLAddr validatorADNL efficiency threshold).1 := by
  have hs : ∀ t : Time, _ := fun t => handleCallback_ack_lives f w now X user mc m t
    ("validator_status:" ++ validatorADNL)
    (fun h => alertKey_ne_statusKey (FormatInt X) validatorADNL h.symm)
  have hi := handleCallback_ack_lives f w now X user mc m now2 "alert_id"
    (fun h => alertKey_ne_alertId X h.symm)
  exact ⟨hs, checkStatusChange_congr f2 w _ now2 ADNLAddr validatorADNL efficiency threshold
    (hs now2) hi⟩

/-- C16. For every alert id X, whatever fails or succeeds while it runs,
`handleCallback` on the callback data `ack_<X>` leaves the cache entry
`validator_status:<validator>` of every validator as it was, at every instant;
the next `checkStatusChange` for that validator therefore returns the same
error or success and publishes the same alerts (none when the status did not
change, the one alert with the same status when it did) as it would have
without the acknowledgement. -/
theorem acknowledgement_keeps_tracked_status (f f2 : Faults) (w : World) (now : Time) (X : Int)
    (user : User) (mc : Option Int) (m : Option Message) (now2 : Time)
    (ADNLAddr validatorADNL : String) (efficiency threshold : ℚ) :
    (∀ t : Time,
      (handleCallback f w now
          { CallbackQuery := some { From := user, Data := "ack_" ++ FormatInt X,
                                    MessageChatID := mc }, Message := m }).live t
          ("validator_status:" ++ validatorADNL)
        = w.live t ("validator_status:" ++ validatorADNL)) ∧
    (checkStatusChange f2
        (handleCallback f w now
          { CallbackQuery := some { From := user, Data := "ack_" ++ FormatInt X,
                                    MessageChatID := mc }, Message := m })
        now2 ADNLAddr validatorADNL efficiency threshold).2
      = (checkStatusChange f2 w now2 ADNLAddr validatorADNL efficiency threshold).2 ∧
    newAlerts
        (handleCallback f w now
          { CallbackQuery := some { From := user, Data := "ack_" ++ FormatInt X,
                                    MessageChatID := mc }, Message := m })
        (checkStatusChange f2
          (handleCallback f w now
            { CallbackQuery := some { From := user, Data := "ack_" ++ FormatInt X,
                                      MessageChatID := mc }, Message := m })
          now2 ADNLAddr validatorADNL efficiency threshold).1
      = newAlerts w (checkStatusChange f2 w now2 ADNLAddr validatorADNL efficiency threshold).1 :=
  handleCallback_ack_frame f f2 w now X user mc m now2 ADNLAddr validatorADNL efficiency threshold

/-! ## Sets of the cache -/

theorem lookup_filter_ne (kv : List (String × Entry)) (key k : String) (h : k ≠ key) :
    (kv.filter (fun p => decide (p.1 ≠ key))).lookup k = kv.lookup k := by
  induction kv with
  | nil => rfl
  | cons p kv ih =>
    obtain ⟨a, e⟩ := p
    by_cases ha : a = key
    · subst ha
      have hb : (k == a) = false := by simpa using h
      rw [List.filter_cons_of_neg (by simp), List.lookup_cons, hb]
      exact ih
    · rw [List.filter_cons_of_pos (by simpa using ha), List.lookup_cons, List.lookup_cons, ih]

theorem lookup_filter_self (kv : List (String × Entry)) (key : String) :
    (kv.filter (fun p => decide (p.1 ≠ key))).lookup key = none := by
  induction kv with
  | nil => rfl
  | cons p kv ih =>
    obtain ⟨a, e⟩ := p
    by_cases ha : a = key
    · rw [List.filter_cons_of_neg (by simpa using ha)]
      exact ih
    · have hb : (key == a) = false := by simpa using fun h : key = a => ha h.symm
      rw [List.filter_cons_of_pos (by simpa using ha), List.lookup_cons, hb]
      exact ih

theorem mem_keys_of_lookup (kv : List (String × Entry)) (k : String) (e : Entry)
    (h : kv.lookup k = some e) : k ∈ kv.map Prod.fst := by
  induction kv with
  | nil => simp at h
  | cons p kv ih =>
    obtain ⟨a, e1⟩ := p
    by_cases hk : k = a
    · subst hk; simp
    · have hb : (k == a) = false := by simpa using hk
      rw [List.lookup_cons, hb] at h
      simp only [List.map_cons, List.mem_cons]
      exact Or.inr (ih h)

theorem live_eq_of_lookup_eq (w u : World) (t : Time) (k : String)
    (h : u.kv.lookup k = w.kv.lookup k) : u.live t k = w.live t k := by
  unfold World.live
  rw [h]

theorem membersOf_eq_of_lookup_eq (w u : World) (t : Time) (k : String)
    (h : u.kv.lookup k = w.kv.lookup k) : membersOf u t k = membersOf w t k := by
  unfold membersOf
  rw [live_eq_of_lookup_eq w u t k h]

theorem HoldsSet_of_lookup_eq (w u : World) (k : String)
    (h : u.kv.lookup k = w.kv.lookup k) (hw : HoldsSet w k) : HoldsSet u k := by
  unfold HoldsSet at hw ⊢
  rw [h]
  exact hw

theorem live_of_lookup_set (w : World) (t : Time) (k : String) (ms : List String)
    (h : w.kv.lookup k = some { val := .set ms, expireAt := none }) :
    w.live t k = some { val := .set ms, expireAt := none } := by
  simp [World.live, h]

theorem membersOf_of_lookup_none (w : World) (t : Time) (k : String)
    (h : w.kv.lookup k = none) : membersOf w t k = [] := by
  simp [membersOf, live_of_lookup_none w t k h]

theorem membersOf_of_lookup_set (w : World) (t : Time) (k : String) (ms : List String)
    (h : w.kv.lookup k = some { val := .set ms, expireAt := none }) :
    membersOf w t k = ms := by
  simp [membersOf, live_of_lookup_set w t k ms h]

/-- A successful `SADD`: the member joins the set of the key, and no other key
changes. -/
theorem redisSAdd_spec (w : World) (now : Time) (key m0 : String) (hw : HoldsSet w key) :
    HoldsSet (redisSAdd noFaults w now key m0).1 key ∧
    (redisSAdd noFaults w now key m0).2 = none ∧
    (∀ (t : Time) (m : String), m ∈ membersOf (redisSAdd noFaults w now key m0).1 t key ↔
      m ∈ membersOf w t key ∨ m = m0) ∧
    ∀ k, k ≠ key → (redisSAdd noFaults w now key m0).1.kv.lookup k = w.kv.lookup k := by
  have hf : noFaults.sadd key = false := rfl
  rcases hw with h | ⟨ms, h⟩
  · have hl := live_of_lookup_none w now key h
    have hr : redisSAdd noFaults w now key m0
        = ({ w with kv := (key, { val := .set [m0], expireAt := none }) :: w.kv }, none) := by
      simp [redisSAdd, hf, hl]
    rw [hr]
    have hlk : List.lookup key ((key, ({ val := .set [m0], expireAt := none } : Entry)) :: w.kv)
        = some { val := .set [m0], expireAt := none } := by simp [List.lookup_cons]
    refine ⟨Or.inr ⟨[m0], hlk⟩, rfl, ?_, ?_⟩
    · intro t m
      rw [membersOf_of_lookup_set _ t key [m0] hlk, membersOf_of_lookup_none w t key h]
      simp
    · intro k hk
      have hb : (k == key) = false := by simpa using hk
      simp [List.lookup_cons, hb]
  · have hl := live_of_lookup_set w now key ms h
    by_cases hm : m0 ∈ ms
    · have hr : redisSAdd noFaults w now key m0 = (w, none) := by
        simp [redisSAdd, hf, hl, hm]
      rw [hr]
      refine ⟨Or.inr ⟨ms, h⟩, rfl, ?_, fun k _ => rfl⟩
      intro t m
      rw [membersOf_of_lookup_set w t key ms h]
      constructor
      · exact fun x => Or.inl x
      · rintro (x | x)
        · exact x
        · rw [x]; exact hm
    · have hr : redisSAdd noFaults w now key m0
          = ({ w with kv := (key, { val := .set (ms ++ [m0]), expireAt := none }) :: w.kv },
              none) := by
        simp [redisSAdd, hf, hl, hm]
      rw [hr]
      have hlk : List.lookup key
          ((key, ({ val := .set (ms ++ [m0]), expireAt := none } : Entry)) :: w.kv)
          = some { val := .set (ms ++ [m0]), expireAt := none } := by simp [List.lookup_cons]
      refine ⟨Or.inr ⟨ms ++ [m0], hlk⟩, rfl, ?_, ?_⟩
      · intro t m
        rw [membersOf_of_lookup_set _ t key (ms ++ [m0]) hlk, membersOf_of_lookup_set w t key ms h]
        simp
      · intro k hk
        have hb : (k == key) = false := by simpa using hk
        simp [List.lookup_cons, hb]

/-- A successful `SREM`: the member leaves the set of the key, and no other key
changes. -/
theorem redisSRem_spec (w : World) (now : Time) (key m0 : String) (hw : HoldsSet w key) :
    HoldsSet (redisSRem noFaults w now key m0).1 key ∧
    (redisSRem noFaults w now key m0).2 = none ∧
    (∀ (t : Time) (m : String), m ∈ membersOf (redisSRem noFaults w now key m0).1 t key ↔
      m ∈ membersOf w t key ∧ m ≠ m0) ∧
    ∀ k, k ≠ key → (redisSRem noFaults w now key m0).1.kv.lookup k = w.kv.lookup k := by
  have hf : noFaults.srem key = false := rfl
  rcases hw with h | ⟨ms, h⟩
  · have hl := live_of_lookup_none w now key h
    have hr : redisSRem noFaults w now key m0 = (w, none) := by
      simp [redisSRem, hf, hl]
    rw [hr]
    refine ⟨Or.inl h, rfl, ?_, fun k _ => rfl⟩
    intro t m
    rw [membersOf_of_lookup_none w t key h]
    simp
  · have hl := live_of_lookup_set w now key ms h
    by_cases hm : m0 ∈ ms
    · by_cases he : ms.filter (fun m => decide (m ≠ m0)) = []
      · have hr : redisSRem noFaults w now key m0 = (w.delete key, none) := by
          simp only [redisSRem, hf, hl, hm, he, if_true]
          simp
        rw [hr]
        have hlk : (w.delete key).kv.lookup key = none := lookup_filter_self w.kv key
        refine ⟨Or.inl hlk, rfl, ?_, fun k hk => lookup_filter_ne w.kv key k hk⟩
        intro t m
        rw [membersOf_of_lookup_none _ t key hlk, membersOf_of_lookup_set w t key ms h]
        constructor
        · intro x; exact absurd x (by simp)
        · rintro ⟨x1, x2⟩
          have : m ∈ ms.filter (fun m => decide (m ≠ m0)) := by
            rw [List.mem_filter]
            exact ⟨x1, by simpa using x2⟩
          rw [he] at this
          exact absurd this (by simp)
      · have hr : redisSRem noFaults w now key m0
            = ({ w with kv := (key, { val := .set (ms.filter (fun m => decide (m ≠ m0))),
                                      expireAt := none }) :: w.kv }, none) := by
          simp only [redisSRem, hf, hl, hm, he, if_true, if_false]
          simp
        rw [hr]
        have hlk : List.lookup key
            ((key, ({ val := .set (ms.filter (fun m => decide (m ≠ m0))),
                      expireAt := none } : Entry)) :: w.kv)
            = some { val := .set (ms.filter (fun m => decide (m ≠ m0))), expireAt := none } := by
          simp [List.lookup_cons]
        refine ⟨Or.inr ⟨_, hlk⟩, rfl, ?_, ?_⟩
        · intro t m
          rw [membersOf_of_lookup_set _ t key _ hlk, membersOf_of_lookup_set w t key ms h]
          simp [List.mem_filter]
        · intro k hk
          have hb : (k == key) = false := by simpa using hk
          simp [List.lookup_cons, hb]
    · have hr : redisSRem noFaults w now key m0 = (w, none) := by
        simp [redisSRem, hf, hl, hm]
      rw [hr]
      refine ⟨Or.inr ⟨ms, h⟩, rfl, ?_, fun k _ => rfl⟩
      intro t m
      rw [membersOf_of_lookup_set w t key ms h]
      constructor
      · intro x
        exact ⟨x, fun e => hm (e ▸ x)⟩
      · exact fun x => x.1

/-! ## Subscriptions -/

theorem subscriptionKey_startsWith (adnl : String) :
    startsWith "subscription_" ("subscription_" ++ adnl) = true := by
  unfold startsWith
  rw [String.data_append]
  exact List.isPrefixOf_iff_prefix.2 (List.prefix_append _ _)

theorem global_not_subscription : startsWith "subscription_" GlobalSubscriptionKey = false := by
  decide

theorem subscriptionKey_ne_global (adnl : String) :
    "subscription_" ++ adnl ≠ GlobalSubscriptionKey := by
  intro h
  have h1 := subscriptionKey_startsWith adnl
  rw [h, global_not_subscription] at h1
  exact absurd h1 (by decide)

theorem redisSIsMember_iff (w : World) (now : Time) (k m : String) :
    redisSIsMember noFaults w now k m = .ok true ↔ m ∈ membersOf w now k := by
  have hf : noFaults.sismember k = false := rfl
  unfold redisSIsMember membersOf
  rw [hf]
  cases hl : w.live now k with
  | none => simp
  | some e =>
    obtain ⟨val, exp⟩ := e
    cases val <;> simp

theorem isSubscribedToOtherADNL_iff (w : World) (now : Time) (m : String) (ks : List String) :
    isSubscribedToOtherADNL noFaults w now m ks = true ↔ ∃ k ∈ ks, m ∈ membersOf w now k := by
  induction ks with
  | nil => simp [isSubscribedToOtherADNL]
  | cons k ks ih =>
    unfold isSubscribedToOtherADNL
    by_cases hk : m ∈ membersOf w now k
    · have h1 := (redisSIsMember_iff w now k m).2 hk
      rw [h1]
      simp only [true_iff]
      exact ⟨k, List.mem_cons_self _ _, hk⟩
    · have h1 : redisSIsMember noFaults w now k m ≠ .ok true :=
        fun h => hk ((redisSIsMember_iff w now k m).1 h)
      have h2 : (match redisSIsMember noFaults w now k m with
          | .ok true => true
          | _ => isSubscribedToOtherADNL noFaults w now m ks)
          = isSubscribedToOtherADNL noFaults w now m ks := by
        split
        · rename_i h; exact absurd h h1
        · rfl
      rw [h2, ih]
      constructor
      · rintro ⟨k1, hk1, hm1⟩
        exact ⟨k1, List.mem_cons_of_mem _ hk1, hm1⟩
      · rintro ⟨k1, hk1, hm1⟩
        rcases List.mem_cons.1 hk1 with e | e
        · subst e; exact absurd hm1 hk
        · exact ⟨k1, e, hm1⟩

theorem lookup_of_live (w : World) (t : Time) (k : String) (e : Entry)
    (hl : w.live t k = some e) : w.kv.lookup k = some e := by
  unfold World.live at hl
  cases hk : w.kv.lookup k with
  | none => rw [hk] at hl; simp at hl
  | some e1 =>
    rw [hk] at hl
    simp only at hl
    split at hl
    · split at hl
      · simp at hl
      · exact hl
    · exact hl

theorem lookup_some_of_mem_membersOf (w : World) (t : Time) (k m : String)
    (h : m ∈ membersOf w t k) : ∃ e, w.live t k = some e ∧ w.kv.lookup k = some e := by
  unfold membersOf at h
  cases hl : w.live t k with
  | none => rw [hl] at h; simp at h
  | some e => exact ⟨e, rfl, lookup_of_live w t k e hl⟩

/-- The scan of `handleDel` over the keys `subscription_*` finds the chat
exactly when it is a member of one of the subscription sets. -/
theorem subscribed_scan_iff (w : World) (now : Time) (m : String) :
    ∃ ks, redisKeys noFaults w now "subscription_" = .ok ks ∧
      (isSubscribedToOtherADNL noFaults w now m ks = true ↔
        ∃ k, startsWith "subscription_" k = true ∧ m ∈ membersOf w now k) := by
  refine ⟨_, rfl, ?_⟩
  rw [isSubscribedToOtherADNL_iff]
  constructor
  · rintro ⟨k, hk, hm⟩
    rw [List.mem_filter] at hk
    have := hk.2
    simp only [Bool.and_eq_true] at this
    exact ⟨k, this.2, hm⟩
  · rintro ⟨k, hk, hm⟩
    obtain ⟨e, hl, hlk⟩ := lookup_some_of_mem_membersOf w now k m hm
    refine ⟨k, ?_, hm⟩
    rw [List.mem_filter]
    refine ⟨List.mem_dedup.2 (mem_keys_of_lookup w.kv k e hlk), ?_⟩
    simp [hl, hk]

theorem SubscriptionsConsistent_of_kv (w u : World) (h : u.kv = w.kv)
    (hw : SubscriptionsConsistent w) : SubscriptionsConsistent u := by
  obtain ⟨h1, h2⟩ := hw
  have hm : ∀ t k, membersOf u t k = membersOf w t k :=
    fun t k => membersOf_eq_of_lookup_eq w u t k (by rw [h])
  refine ⟨fun k hk => HoldsSet_of_lookup_eq w u k (by rw [h]) (h1 k hk), ?_⟩
  intro t m
  simp only [hm]
  exact h2 t m

/-- A subscription followed by the addition to the global set keeps the state
consistent. -/
theorem subscribe_consistent (w : World) (now now2 : Time) (adnl m0 : String)
    (hw : SubscriptionsConsistent w) :
    SubscriptionsConsistent
      (redisSAdd noFaults (redisSAdd noFaults w now ("subscription_" ++ adnl) m0).1 now2
        GlobalSubscriptionKey m0).1 := by
  obtain ⟨h1, h2⟩ := hw
  have hsub := subscriptionKey_startsWith adnl
  have hne := subscriptionKey_ne_global adnl
  obtain ⟨a1, _, a3, a4⟩ := redisSAdd_spec w now ("subscription_" ++ adnl) m0
    (h1 _ (Or.inl hsub))
  generalize (redisSAdd noFaults w now ("subscription_" ++ adnl) m0).1 = w1 at a1 a3 a4 ⊢
  have hg1 : HoldsSet w1 GlobalSubscriptionKey :=
    HoldsSet_of_lookup_eq w w1 _ (a4 _ (fun e => hne e.symm)) (h1 _ (Or.inr rfl))
  obtain ⟨b1, _, b3, b4⟩ := redisSAdd_spec w1 now2 GlobalSubscriptionKey m0 hg1
  generalize (redisSAdd noFaults w1 now2 GlobalSubscriptionKey m0).1 = w2 at b1 b3 b4 ⊢
  -- the members of each subscription set after the two additions
  have hmem : ∀ t k, startsWith "subscription_" k = true → ∀ m,
      (m ∈ membersOf w2 t k ↔ m ∈ membersOf w t k ∨ (k = "subscription_" ++ adnl ∧ m = m0)) := by
    intro t k hk m
    have hkg : k ≠ GlobalSubscriptionKey := by
      intro e
      rw [e, global_not_subscription] at hk
      exact absurd hk (by decide)
    rw [membersOf_eq_of_lookup_eq w1 w2 t k (b4 k hkg)]
    by_cases hka : k = "subscription_" ++ adnl
    · subst hka
      rw [a3 t m]
      simp
    · rw [membersOf_eq_of_lookup_eq w w1 t k (a4 k hka)]
      simp [hka]
  constructor
  · intro k hk
    rcases hk with hk | hk
    · have hkg : k ≠ GlobalSubscriptionKey := by
        intro e
        rw [e, global_not_subscription] at hk
        exact absurd hk (by decide)
      apply HoldsSet_of_lookup_eq w1 w2 k (b4 k hkg)
      by_cases hka : k = "subscription_" ++ adnl
      · subst hka; exact a1
      · exact HoldsSet_of_lookup_eq w w1 k (a4 k hka) (h1 k (Or.inl hk))
    · subst hk; exact b1
  · intro t m
    rw [b3 t m, membersOf_eq_of_lookup_eq w w1 t _ (a4 _ (fun e => hne e.symm)), h2 t m]
    constructor
    · rintro (⟨k, hk, hm⟩ | hm)
      · exact ⟨k, hk, (hmem t k hk m).2 (Or.inl hm)⟩
      · exact ⟨_, hsub, (hmem t _ hsub m).2 (Or.inr ⟨rfl, hm⟩)⟩
    · rintro ⟨k, hk, hm⟩
      rcases (hmem t k hk m).1 hm with x | ⟨_, x⟩
      · exact Or.inl ⟨k, hk, x⟩
      · exact Or.inr x

theorem membersOf_any_time (w : World) (t t2 : Time) (k : String) (h : HoldsSet w k) :
    membersOf w t k = membersOf w t2 k := by
  rcases h with h | ⟨ms, h⟩
  · rw [membersOf_of_lookup_none w t k h, membersOf_of_lookup_none w t2 k h]
  · rw [membersOf_of_lookup_set w t k ms h, membersOf_of_lookup_set w t2 k ms h]

theorem not_global_of_startsWith (k : String) (hk : startsWith "subscription_" k = true) :
    k ≠ GlobalSubscriptionKey := by
  intro e
  rw [e, global_not_subscription] at hk
  exact absurd hk (by decide)

/-- The removal of a subscription, followed by the removal from the global set
when the scan finds no other subscription of the chat, keeps the state
consistent. -/
theorem unsubscribe_consistent (w : World) (now : Time) (adnl m0 : String) (ks : List String)
    (hw : SubscriptionsConsistent w)
    (hks : redisKeys noFaults (redisSRem noFaults w now ("subscription_" ++ adnl) m0).1 now
      "subscription_" = .ok ks) :
    SubscriptionsConsistent
      (if isSubscribedToOtherADNL noFaults
          (redisSRem noFaults w now ("subscription_" ++ adnl) m0).1 now m0 ks = true
        then (redisSRem noFaults w now ("subscription_" ++ adnl) m0).1
        else (redisSRem noFaults (redisSRem noFaults w now ("subscription_" ++ adnl) m0).1 now
          GlobalSubscriptionKey m0).1) := by
  obtain ⟨h1, h2⟩ := hw
  have hsub := subscriptionKey_startsWith adnl
  have hne := subscriptionKey_ne_global adnl
  obtain ⟨a1, _, a3, a4⟩ := redisSRem_spec w now ("subscription_" ++ adnl) m0
    (h1 _ (Or.inl hsub))
  obtain ⟨ks2, hks2, hscan⟩ := subscribed_scan_iff
    (redisSRem noFaults w now ("subscription_" ++ adnl) m0).1 now m0
  rw [hks] at hks2
  have hkeq : ks2 = ks := by
    injection hks2 with e
    exact e.symm
  subst hkeq
  generalize (redisSRem noFaults w now ("subscription_" ++ adnl) m0).1 = w1 at a1 a3 a4 hscan ⊢
  have hold1 : ∀ k, startsWith "subscription_" k = true ∨ k = GlobalSubscriptionKey →
      HoldsSet w1 k := by
    intro k hk
    by_cases hka : k = "subscription_" ++ adnl
    · subst hka; exact a1
    · exact HoldsSet_of_lookup_eq w w1 k (a4 k hka) (h1 k hk)
  have hmem : ∀ t k, startsWith "subscription_" k = true → ∀ m,
      (m ∈ membersOf w1 t k ↔
        m ∈ membersOf w t k ∧ ¬ (k = "subscription_" ++ adnl ∧ m = m0)) := by
    intro t k hk m
    by_cases hka : k = "subscription_" ++ adnl
    · subst hka
      rw [a3 t m]
      simp
    · rw [membersOf_eq_of_lookup_eq w w1 t k (a4 k hka)]
      simp [hka]
  have hg : ∀ t, membersOf w1 t GlobalSubscriptionKey = membersOf w t GlobalSubscriptionKey :=
    fun t => membersOf_eq_of_lookup_eq w w1 t _ (a4 _ (fun e => hne e.symm))
  by_cases hs : isSubscribedToOtherADNL noFaults w1 now m0 ks2 = true
  · rw [if_pos hs]
    obtain ⟨k0, hk0, hm0⟩ := hscan.1 hs
    refine ⟨hold1, ?_⟩
    intro t m
    rw [hg t, h2 t m]
    constructor
    · rintro ⟨k, hk, hm⟩
      by_cases hx : k = "subscription_" ++ adnl ∧ m = m0
      · refine ⟨k0, hk0, ?_⟩
        rw [hx.2, membersOf_any_time w1 t now k0 (hold1 k0 (Or.inl hk0))]
        exact hm0
      · exact ⟨k, hk, (hmem t k hk m).2 ⟨hm, hx⟩⟩
    · rintro ⟨k, hk, hm⟩
      exact ⟨k, hk, ((hmem t k hk m).1 hm).1⟩
  · rw [if_neg hs]
    obtain ⟨b1, _, b3, b4⟩ := redisSRem_spec w1 now GlobalSubscriptionKey m0
      (hold1 _ (Or.inr rfl))
    generalize (redisSRem noFaults w1 now GlobalSubscriptionKey m0).1 = w2 at b1 b3 b4 ⊢
    constructor
    · intro k hk
      rcases hk with hk | hk
      · exact HoldsSet_of_lookup_eq w1 w2 k (b4 k (not_global_of_startsWith k hk))
          (hold1 k (Or.inl hk))
      · subst hk; exact b1
    · intro t m
      rw [b3 t m, hg t, h2 t m]
      constructor
      · rintro ⟨⟨k, hk, hm⟩, hmne⟩
        refine ⟨k, hk, ?_⟩
        rw [membersOf_eq_of_lookup_eq w1 w2 t k (b4 k (not_global_of_startsWith k hk))]
        exact (hmem t k hk m).2 ⟨hm, fun x => hmne x.2⟩
      · rintro ⟨k, hk, hm⟩
        rw [membersOf_eq_of_lookup_eq w1 w2 t k (b4 k (not_global_of_startsWith k hk))] at hm
        refine ⟨⟨k, hk, ((hmem t k hk m).1 hm).1⟩, ?_⟩
        intro e
        apply hs
        apply hscan.2
        refine ⟨k, hk, ?_⟩
        rw [← e, membersOf_any_time w1 now t k (hold1 k (Or.inl hk))]
        exact hm

theorem handleAdd_consistent (w : World) (now : Time) (update : Update)
    (hw : SubscriptionsConsistent w) :
    SubscriptionsConsistent (handleAdd noFaults w now update) := by
  unfold handleAdd
  split
  · exact hw
  · rename_i m _
    split
    · exact hw
    · simp only
      split
      · rename_i adnl _ _
        split
        · have spec := redisSAdd_spec w now ("subscription_" ++ adnl) (FormatInt m.ChatID)
            (hw.1 _ (Or.inl (subscriptionKey_startsWith adnl)))
          have hc := subscribe_consistent w now now adnl (FormatInt m.ChatID) hw
          split
          · rename_i heq
            have h2 := spec.2.1
            rw [heq] at h2
            exact absurd h2 (by simp)
          · rename_i w1 heq
            have hw1 : w1 = (redisSAdd noFaults w now ("subscription_" ++ adnl)
                (FormatInt m.ChatID)).1 := by rw [heq]
            subst hw1
            exact SubscriptionsConsistent_of_kv _ _ (botSendMessage_kv _ _ _ _ _ _) hc
        · exact SubscriptionsConsistent_of_kv _ _ (botSendMessage_kv _ _ _ _ _ _) hw
      · exact SubscriptionsConsistent_of_kv _ _ (botSendMessage_kv _ _ _ _ _ _) hw

theorem handleDel_consistent (w : World) (now : Time) (update : Update)
    (hw : SubscriptionsConsistent w) :
    SubscriptionsConsistent (handleDel noFaults w now update) := by
  unfold handleDel
  split
  · exact hw
  · rename_i m _
    split
    · exact hw
    · simp only
      split
      · rename_i adnl _ _
        have spec := redisSRem_spec w now ("subscription_" ++ adnl) (FormatInt m.ChatID)
          (hw.1 _ (Or.inl (subscriptionKey_startsWith adnl)))
        split
        · rename_i heq
          have h2 := spec.2.1
          rw [heq] at h2
          exact absurd h2 (by simp)
        · rename_i w1 heq
          have hw1 : w1 = (redisSRem noFaults w now ("subscription_" ++ adnl)
              (FormatInt m.ChatID)).1 := by rw [heq]
          subst hw1
          split
          · rename_i heq2
            exact absurd heq2 (by simp [redisKeys, noFaults])
          · rename_i ks heq2
            exact SubscriptionsConsistent_of_kv _ _ (botSendMessage_kv _ _ _ _ _ _)
              (unsubscribe_consistent w now adnl (FormatInt m.ChatID) ks hw heq2)
      · exact SubscriptionsConsistent_of_kv _ _ (botSendMessage_kv _ _ _ _ _ _) hw

theorem runCommands_consistent (cmds : List BotCommand) :
    ∀ w : World, SubscriptionsConsistent w →
      SubscriptionsConsistent (runCommands noFaults w cmds) := by
  induction cmds with
  | nil => intro w hw; exact hw
  | cons c cmds ih =>
    intro w hw
    cases c with
    | add now m => exact ih _ (handleAdd_consistent w now _ hw)
    | del now m => exact ih _ (handleDel_consistent w now _ hw)

theorem empty_subscriptions_consistent (w : World)
    (hempty : ∀ k, startsWith "subscription_" k = true ∨ k = GlobalSubscriptionKey →
      w.kv.lookup k = none) : SubscriptionsConsistent w := by
  refine ⟨fun k hk => Or.inl (hempty k hk), ?_⟩
  intro t m
  rw [membersOf_of_lookup_none w t _ (hempty _ (Or.inr rfl))]
  constructor
  · intro h; exact absurd h (by simp)
  · rintro ⟨k, hk, hm⟩
    rw [membersOf_of_lookup_none w t k (hempty k (Or.inl hk))] at hm
    exact absurd hm (by simp)

/-- C15. From a cache without subscription sets and without the global set,
after any sequence of `handleAdd` and `handleDel` commands whose cache and bot
calls succeed, a recipient is a member of `global_subscribers` exactly when it
is a member of the set of a key `subscription_...`; so the removal of the last
subscription of a recipient removes it from the global set and the removal of
one of several keeps it there. -/
theorem global_member_iff_subscribed (w0 : World) (cmds : List BotCommand)
    (hempty : ∀ k, startsWith "subscription_" k = true ∨ k = GlobalSubscriptionKey →
      w0.kv.lookup k = none) (t : Time) (m : String) :
    m ∈ membersOf (runCommands noFaults w0 cmds) t GlobalSubscriptionKey ↔
      ∃ k, startsWith "subscription_" k = true ∧
        m ∈ membersOf (runCommands noFaults w0 cmds) t k :=
  (runCommands_consistent cmds w0 (empty_subscriptions_consistent w0 hempty)).2 t m

theorem global_member_iff_subscribed_witness :
    ("5" ∈ membersOf (runCommands noFaults World.empty exCommands) 3000000000
        GlobalSubscriptionKey ↔
      ∃ k, startsWith "subscription_" k = true ∧
        "5" ∈ membersOf (runCommands noFaults World.empty exCommands) 3000000000 k) ∧
    "5" ∈ membersOf (runCommands noFaults World.empty exCommands) 3000000000
        GlobalSubscriptionKey ∧
    "5" ∈ membersOf (runCommands noFaults World.empty exCommands) 3000000000
        ("subscription_" ++ exADNL2) ∧
    "5" ∉ membersOf (runCommands noFaults World.empty exCommands) 3000000000
        ("subscription_" ++ exADNL1) ∧
    "5" ∉ membersOf
        (runCommands noFaults World.empty
          (exCommands ++ [.del 3000000000 { ChatID := 5, Text := "/del " ++ exADNL2 }]))
        4000000000 GlobalSubscriptionKey :=
  ⟨global_member_iff_subscribed World.empty exCommands (fun _ _ => rfl) 3000000000 "5",
   by decide, by decide, by decide, by decide⟩

/-! ## The status grid: one query for the validators missing from the cache -/

/-- The first loop of `getCachedStatuses` when the cache answers `hit` for the
validators of the list. -/
theorem readCachedStatuses_of_hits (w : World) (now from_ to_ : Time) (cycleID : Nat)
    (hit : String → Option Chunk) :
    ∀ (l : List String) (st : Statuses) (miss : List String),
      (∀ a ∈ l, GetCachedData decodeChunk noFaults w now (validatorStatusKey a from_ to_ cycleID)
        = .ok (hit a)) →
      readCachedStatuses noFaults w now from_ to_ cycleID l st miss =
        .ok (hitsOf hit st l, miss ++ l.filter (fun a => decide (hit a = none))) := by
  intro l
  induction l with
  | nil => intro st miss _; simp [readCachedStatuses, hitsOf]
  | cons a l ih =>
    intro st miss hw
    have hwa := hw a (List.mem_cons_self _ _)
    have hwl : ∀ b ∈ l, GetCachedData decodeChunk noFaults w now
        (validatorStatusKey b from_ to_ cycleID) = .ok (hit b) :=
      fun b hb => hw b (List.mem_cons_of_mem _ hb)
    unfold validatorStatusKey at hwa
    cases ha : hit a with
    | none =>
      rw [ha] at hwa
      simp only [readCachedStatuses, hwa, ih _ _ hwl, hitsOf, ha, List.filter_cons, decide_True,
        if_true, List.append_assoc, List.singleton_append]
    | some d =>
      rw [ha] at hwa
      simp [readCachedStatuses, hwa, ih _ _ hwl, hitsOf, ha, List.filter_cons]

theorem getCachedStatuses_batches (env : Env) (w : World) (now : Time) (adnlList : List String)
    (from_ to_ : Time) (cycleID : Nat) (hit : String → Option Chunk)
    (hreads : ∀ a ∈ adnlList,
      GetCachedData decodeChunk noFaults w now (validatorStatusKey a from_ to_ cycleID)
        = .ok (hit a))
    (hpos : 0 < env.totalSeconds (Time.Sub to_ from_)) :
    (adnlList.filter (fun a => decide (hit a = none)) = [] →
      getCachedStatuses env noFaults w now adnlList from_ to_ cycleID
        = (w, .ok (hitsOf hit [] adnlList))) ∧
    (adnlList.filter (fun a => decide (hit a = none)) ≠ [] →
      (getCachedStatuses env noFaults w now adnlList from_ to_ cycleID).1.queries
        = StoreQuery.statuses (env.totalSeconds (Time.Sub to_ from_) / 60)
            (adnlList.filter (fun a => decide (hit a = none))) from_ to_ cycleID :: w.queries ∧
      (∃ st, (getCachedStatuses env noFaults w now adnlList from_ to_ cycleID).2 = .ok st ∧
        ∀ k, st.get k =
          match GoMap.get (scanStatuses [] (env.statusQueryRows
              (env.totalSeconds (Time.Sub to_ from_) / 60)
              (adnlList.filter (fun a => decide (hit a = none))) from_ to_ cycleID)) k with
          | some d => some d
          | none => (hitsOf hit [] adnlList).get k) ∧
      ∀ a d, GoMap.get (scanStatuses [] (env.statusQueryRows
              (env.totalSeconds (Time.Sub to_ from_) / 60)
              (adnlList.filter (fun a => decide (hit a = none))) from_ to_ cycleID)) a = some d →
        (getCachedStatuses env noFaults w now adnlList from_ to_ cycleID).1.kv.lookup
            (validatorStatusKey a from_ to_ cycleID)
          = some { val := .chunk d, expireAt := some (now + Hour) }) := by
  have hread := readCachedStatuses_of_hits w now from_ to_ cycleID hit adnlList [] [] hreads
  rw [List.nil_append] at hread
  have hc := getCachedStatuses_of_read env w now adnlList from_ to_ cycleID _ _ hread
  have ht : ¬ env.totalSeconds (Time.Sub to_ from_) ≤ 0 := by omega
  generalize adnlList.filter (fun a => decide (hit a = none)) = miss at hc ⊢
  constructor
  · intro hm
    rw [hc, hm]
    rfl
  · intro hm
    have hlen : miss.length > 0 := List.length_pos.2 hm
    simp only [hlen, ht, if_true, if_false] at hc
    generalize env.totalSeconds (Time.Sub to_ from_) / 60 = i at hc ⊢
    generalize hM : scanStatuses [] (env.statusQueryRows i miss from_ to_ cycleID) = M at hc ⊢
    have hMd : GoMap.Distinct M := by
      rw [← hM]
      exact scanStatuses_distinct _ [] (by simp [GoMap.Distinct])
    obtain ⟨s1, s2⟩ := cacheMissingStatuses_spec now from_ to_ cycleID M
      { w with queries := StoreQuery.statuses i miss from_ to_ cycleID :: w.queries }
      (hitsOf hit [] adnlList) hMd
    rw [hc]
    refine ⟨?_, ⟨_, rfl, s1⟩, ?_⟩
    · exact cacheMissingStatuses_queries noFaults now from_ to_ cycleID M _ _
    · intro a d had
      have h2 := s2 a
      rw [had] at h2
      exact h2

/-- C18 as amended. When the cache reads of `getCachedStatuses` succeed and
answer `hit`, the range is of positive length in whole seconds, and the store
and the cache writes succeed: if no validator of the list is without a cache
entry, no query is issued, nothing changes and the result is the cached hits;
otherwise exactly one query is added, its validator list being the sub-list,
in order, of the validators without a cache entry, the result is the answer of
that query merged over the cached hits, and every validator of the answer is
cached for an hour under its own key
`ValidatorStatus:<validator>:<from>:<to>:<cycle>`. -/
theorem getCachedStatuses_one_query_for_missing (env : Env) (w : World) (now : Time)
    (adnlList : List String) (from_ to_ : Time) (cycleID : Nat) (hit : String → Option Chunk)
    (hreads : ∀ a ∈ adnlList,
      GetCachedData decodeChunk noFaults w now (validatorStatusKey a from_ to_ cycleID)
        = .ok (hit a))
    (hpos : 0 < env.totalSeconds (Time.Sub to_ from_)) :
    (adnlList.filter (fun a => decide (hit a = none)) = [] →
      getCachedStatuses env noFaults w now adnlList from_ to_ cycleID
        = (w, .ok (hitsOf hit [] adnlList))) ∧
    (adnlList.filter (fun a => decide (hit a = none)) ≠ [] →
      (getCachedStatuses env noFaults w now adnlList from_ to_ cycleID).1.queries
        = StoreQuery.statuses (env.totalSeconds (Time.Sub to_ from_) / 60)
            (adnlList.filter (fun a => decide (hit a = none))) from_ to_ cycleID :: w.queries ∧
      (∃ st, (getCachedStatuses env noFaults w now adnlList from_ to_ cycleID).2 = .ok st ∧
        ∀ k, st.get k =
          match GoMap.get (scanStatuses [] (env.statusQueryRows
              (env.totalSeconds (Time.Sub to_ from_) / 60)
              (adnlList.filter (fun a => decide (hit a = none))) from_ to_ cycleID)) k with
          | some d => some d
          | none => (hitsOf hit [] adnlList).get k) ∧
      ∀ a d, GoMap.get (scanStatuses [] (env.statusQueryRows
              (env.totalSeconds (Time.Sub to_ from_) / 60)
              (adnlList.filter (fun a => decide (hit a = none))) from_ to_ cycleID)) a = some d →
        (getCachedStatuses env noFaults w now adnlList from_ to_ cycleID).1.kv.lookup
            (validatorStatusKey a from_ to_ cycleID)
          = some { val := .chunk d, expireAt := some (now + Hour) }) :=
  getCachedStatuses_batches env w now adnlList from_ to_ cycleID hit hreads hpos

theorem getCachedStatuses_one_query_for_missing_witness :
    (getCachedStatuses exEnv noFaults exPartlyCached 10000000000000 ["A", "B", "C"] 0
        3600000000000 0).1.queries
      = StoreQuery.statuses (exEnv.totalSeconds (Time.Sub 3600000000000 0) / 60)
          (["A", "B", "C"].filter (fun a => decide (exHit a = none))) 0 3600000000000 0
          :: exPartlyCached.queries ∧
    ["A", "B", "C"].filter (fun a => decide (exHit a = none)) = ["A", "C"] ∧
    exEnv.totalSeconds (Time.Sub 3600000000000 0) / 60 = 60 ∧
    (getCachedStatuses exEnv noFaults exPartlyCached 10000000000000 ["A", "B", "C"] 0
        3600000000000 0).2 = .ok [("A", [(60, 0), (0, 1)]), ("B", [(0, 1)])] ∧
    (getCachedStatuses exEnv noFaults exPartlyCached 10000000000000 ["A", "B", "C"] 0
        3600000000000 0).1.kv.lookup (validatorStatusKey "A" 0 3600000000000 0)
      = some { val := .chunk [(60, 0), (0, 1)], expireAt := some (10000000000000 + Hour) } :=
  ⟨((getCachedStatuses_one_query_for_missing exEnv exPartlyCached 10000000000000
      ["A", "B", "C"] 0 3600000000000 0 exHit (by decide) (by decide)).2 (by decide)).1,
   by decide, by decide, by decide, by decide⟩

/-- C18, the claim as stated fails for a range of zero length: validator `A`
has no cache entry, yet `getCachedStatuses` issues no query and returns the
error of the rejected range. -/
theorem getCachedStatuses_zero_range_issues_no_query :
    GetCachedData decodeChunk noFaults World.empty 10000000000000
        (validatorStatusKey "A" 60000000000 60000000000 0) = .ok none ∧
    (getCachedStatuses exEnv noFaults World.empty 10000000000000 ["A"] 60000000000
        60000000000 0).1.queries = [] ∧
    (getCachedStatuses exEnv noFaults World.empty 10000000000000 ["A"] 60000000000
        60000000000 0).2 = .error "invalid date interval" :=
  ⟨by decide, by decide, by decide⟩

/-! ## Delivery of an alert to the subscribers of its validator -/

/-- The loop over the subscribers calls `sendMessage` once, in order, for each
member that parses, whatever the earlier calls did. -/
theorem notifySubscriptions_eq_sendEach (f : Faults) (now : Time) (message : String)
    (alert : Alert) (members : List String) (w : World) :
    notifySubscriptions f now message alert w members
      = sendEach f now message alert w (members.filterMap ParseInt) := by
  induction members generalizing w with
  | nil => rfl
  | cons m rest ih =>
    unfold notifySubscriptions
    cases hp : ParseInt m with
    | none => simp only [List.filterMap_cons, hp]; exact ih w
    | some chatID =>
      simp only [List.filterMap_cons, hp]
      rw [ih]
      rfl

theorem notifyMessage_deliveries (f : Faults) (w : World) (now : Time)
    (nowText hostname : String) (alert : Alert) (members : List String)
    (hmembers : redisSMembers f w now ("subscription_" ++ alert.ValidatorADNL) = .ok members) :
    notifyMessage f w now nowText hostname (.alert alert)
      = sendEach f now (formatAlertMessage nowText hostname alert) alert w
          (members.filterMap ParseInt) ∧
    (members = [] → notifyMessage f w now nowText hostname (.alert alert) = w) := by
  have h : notifyMessage f w now nowText hostname (.alert alert)
      = sendEach f now (formatAlertMessage nowText hostname alert) alert w
          (members.filterMap ParseInt) := by
    unfold notifyMessage
    simp only [decodeAlert, hmembers]
    cases members with
    | nil => rfl
    | cons m rest =>
      simp only [List.length_cons, Nat.succ_ne_zero, if_false]
      exact notifySubscriptions_eq_sendEach f now _ alert (m :: rest) w
  refine ⟨h, fun he => ?_⟩
  rw [h, he]
  rfl

/-- C19. For an alert received on the notification channel whose subscriber
set `subscription_<ValidatorADNL>` is read as `members`, and whatever fails
along the way (rate-limit counter, bot), the loop makes exactly the calls
`sendMessage` for the members that parse as a chat id, one call per such
member in the order of the set, and no other call; with an empty set it makes
no call and changes nothing, whatever `global_subscribers` holds. -/
theorem alert_delivered_once_per_subscriber (f : Faults) (w : World) (now : Time)
    (nowText hostname : String) (alert : Alert) (members : List String)
    (hmembers : redisSMembers f w now ("subscription_" ++ alert.ValidatorADNL) = .ok members) :
    notifyMessage f w now nowText hostname (.alert alert)
      = sendEach f now (formatAlertMessage nowText hostname alert) alert w
          (members.filterMap ParseInt) ∧
    (members = [] → notifyMessage f w now nowText hostname (.alert alert) = w) :=
  notifyMessage_deliveries f w now nowText hostname alert members hmembers

theorem alert_delivered_once_per_subscriber_witness :
    redisSMembers exSendFails exSubscribed 0 ("subscription_" ++ exAlert.ValidatorADNL)
      = .ok ["5", "x", "7"] ∧
    notifyMessage exSendFails exSubscribed 0 "now" "host" (.alert exAlert)
      = sendEach exSendFails 0 (formatAlertMessage "now" "host" exAlert) exAlert exSubscribed
          [5, 7] ∧
    (notifyMessage exSendFails exSubscribed 0 "now" "host" (.alert exAlert)).sent.map
        (fun m => (m.ChatID, m.ok)) = [(7, true), (5, false)] :=
  ⟨by decide,
   (alert_delivered_once_per_subscriber exSendFails exSubscribed 0 "now" "host" exAlert
      ["5", "x", "7"] (by decide)).1,
   by decide⟩

/-! ## The rate-limit counter of one key -/

/-- An entry that is without expiry, or expires a minute after an instant of
the second `s`, is live at every instant of that second. -/
theorem live_same_second (w : World) (key : String) (e : Entry) (s : Int) (t : Time)
    (hl : w.kv.lookup key = some e)
    (hexp : e.expireAt = none ∨ ∃ t1 : Time, Time.Unix t1 = s ∧ e.expireAt = some (t1 + Minute))
    (ht : Time.Unix t = s) : w.live t key = some e := by
  unfold World.live
  rw [hl]
  rcases hexp with h | ⟨t1, h1, h⟩
  · simp [h]
  · have hM : Minute = (60000000000 : Int) := by decide
    have hn : ¬ (t1 + Minute ≤ t) := by
      unfold Time.Unix at h1 ht
      rw [hM]
      delta Time at *
      omega
    simp [h, hn]

/-- `sendMessage` in terms of its counter key. -/
theorem sendMessage_key (f : Faults) (w : World) (now : Time) (chatID : Int) (message : String)
    (alert : Alert) :
    sendMessage f w now chatID message alert =
      match redisIncr f w now (rateLimitKey chatID (Time.Unix now)) with
      | (w1, .error _) => w1
      | (w1, .ok messageCount) =>
        if messageCount > MaxMessagesPerMinute then
          (if messageCount = 1 then
            (redisExpire f w1 now (rateLimitKey chatID (Time.Unix now)) Minute).1 else w1)
        else
          { (if messageCount = 1 then
              (redisExpire f w1 now (rateLimitKey chatID (Time.Unix now)) Minute).1 else w1) with
            sent := handedMessage f now chatID message alert ::
              (if messageCount = 1 then
                (redisExpire f w1 now (rateLimitKey chatID (Time.Unix now)) Minute).1
               else w1).sent } := rfl

theorem redisExpire_sent (f : Faults) (w : World) (now : Time) (key : String) (ttl : Duration) :
    (redisExpire f w now key ttl).1.sent = w.sent := by
  unfold redisExpire
  split
  · rfl
  · split <;> rfl

/-- The first call on a key: the counter becomes 1 and the message is handed
to the bot. -/
theorem sendMessage_first (f : Faults) (w : World) (now : Time) (chatID : Int) (message : String)
    (alert : Alert) (s : Int) (hs : Time.Unix now = s)
    (hincr : f.incr (rateLimitKey chatID s) = false)
    (habs : w.kv.lookup (rateLimitKey chatID s) = none) :
    (∃ e, (sendMessage f w now chatID message alert).kv.lookup (rateLimitKey chatID s) = some e ∧
      e.val = .int 1 ∧
      (e.expireAt = none ∨ ∃ t1 : Time, Time.Unix t1 = s ∧ e.expireAt = some (t1 + Minute))) ∧
    (sendMessage f w now chatID message alert).sent
      = handedMessage f now chatID message alert :: w.sent := by
  subst hs
  rw [sendMessage_key]
  generalize rateLimitKey chatID (Time.Unix now) = key at hincr habs ⊢
  have hlive : w.live now key = none := by simp [World.live, habs]
  have hi : redisIncr f w now key
      = ({ w with kv := (key, { val := .int 1, expireAt := none }) :: w.kv }, .ok 1) := by
    simp [redisIncr, hincr, hlive]
  rw [hi]
  have hgt : ¬ ((1 : Int) > MaxMessagesPerMinute) := by decide
  simp only [hgt, if_true, if_false, redisExpire_sent]
  refine ⟨?_, trivial⟩
  unfold redisExpire
  by_cases hexp : f.expire key = true
  · simp only [hexp, if_true]
    exact ⟨{ val := .int 1, expireAt := none }, by simp [List.lookup_cons], rfl, Or.inl rfl⟩
  · simp only [hexp, live_cons_self]
    exact ⟨{ val := .int 1, expireAt := some (now + Minute) }, by simp [List.lookup_cons], rfl,
      Or.inr ⟨now, rfl, rfl⟩⟩

/-- A later call on the key: the counter goes from `k` to `k + 1`, and the
message is handed to the bot exactly when `k + 1` is at most 20. -/
theorem sendMessage_next (f : Faults) (w : World) (now : Time) (chatID : Int) (message : String)
    (alert : Alert) (s : Int) (k : Int) (hs : Time.Unix now = s)
    (hincr : f.incr (rateLimitKey chatID s) = false) (hk1 : 1 ≤ k) (hk2 : k < maxInt64)
    (hinv : ∃ e, w.kv.lookup (rateLimitKey chatID s) = some e ∧ e.val = .int k ∧
      (e.expireAt = none ∨ ∃ t1 : Time, Time.Unix t1 = s ∧ e.expireAt = some (t1 + Minute))) :
    (∃ e, (sendMessage f w now chatID message alert).kv.lookup (rateLimitKey chatID s) = some e ∧
      e.val = .int (k + 1) ∧
      (e.expireAt = none ∨ ∃ t1 : Time, Time.Unix t1 = s ∧ e.expireAt = some (t1 + Minute))) ∧
    (sendMessage f w now chatID message alert).sent
      = if k + 1 ≤ 20 then handedMessage f now chatID message alert :: w.sent else w.sent := by
  obtain ⟨e, hl, hv, hexp⟩ := hinv
  have hlive := live_same_second w _ e s now hl hexp hs
  rw [sendMessage_key, hs]
  generalize rateLimitKey chatID s = key at hincr hl hlive ⊢
  have hi : redisIncr f w now key
      = ({ w with kv := (key, { val := .int (k + 1), expireAt := e.expireAt }) :: w.kv },
          .ok (k + 1)) := by
    simp [redisIncr, hincr, hlive, hv, hk2]
  rw [hi]
  have hne : ¬ (k + 1 = 1) := by omega
  simp only [hne, if_false]
  by_cases hle : k + 1 ≤ 20
  · have hgt : ¬ (k + 1 > MaxMessagesPerMinute) := by
      unfold MaxMessagesPerMinute
      omega
    simp only [hgt, hle, if_true, if_false]
    exact ⟨⟨{ val := .int (k + 1), expireAt := e.expireAt }, by simp [List.lookup_cons], rfl,
      hexp⟩, trivial⟩
  · have hgt : k + 1 > MaxMessagesPerMinute := by
      unfold MaxMessagesPerMinute
      omega
    simp only [hgt, hle, if_true, if_false]
    exact ⟨⟨{ val := .int (k + 1), expireAt := e.expireAt }, by simp [List.lookup_cons], rfl,
      hexp⟩, trivial⟩

/-- One call within the second `s` takes the counter from `k` to `k + 1` and
hands its message to the bot exactly when `k < 20`. -/
theorem sendMessage_counter_step (f : Faults) (w : World) (now : Time) (chatID : Int)
    (message : String) (alert : Alert) (s : Int) (k : Nat) (hs : Time.Unix now = s)
    (hincr : f.incr (rateLimitKey chatID s) = false) (hk : (k : Int) < maxInt64)
    (hinv : RateCounterIs w (rateLimitKey chatID s) s k) :
    RateCounterIs (sendMessage f w now chatID message alert) (rateLimitKey chatID s) s (k + 1) ∧
    (sendMessage f w now chatID message alert).sent
      = if k < 20 then handedMessage f now chatID message alert :: w.sent else w.sent := by
  cases k with
  | zero =>
    obtain ⟨h1, h2⟩ := sendMessage_first f w now chatID message alert s hs hincr hinv
    exact ⟨h1, by simpa using h2⟩
  | succ j =>
    obtain ⟨h1, h2⟩ := sendMessage_next f w now chatID message alert s ((j + 1 : Nat) : Int) hs
      hincr (by omega) hk hinv
    refine ⟨h1, ?_⟩
    rw [h2]
    by_cases hj : j + 1 < 20
    · have hi : ((j + 1 : Nat) : Int) + 1 ≤ 20 := by omega
      rw [if_pos hi, if_pos hj]
    · have hi : ¬ (((j + 1 : Nat) : Int) + 1 ≤ 20) := by omega
      rw [if_neg hi, if_neg hj]

theorem sendAll_counter (f : Faults) (chatID : Int) (message : String) (alert : Alert) (s : Int)
    (hincr : f.incr (rateLimitKey chatID s) = false) (times : List Time) :
    ∀ (w : World) (k : Nat), (∀ t ∈ times, Time.Unix t = s) →
      ((k + times.length : Nat) : Int) ≤ maxInt64 →
      RateCounterIs w (rateLimitKey chatID s) s k →
      RateCounterIs (sendAll f chatID message alert w times) (rateLimitKey chatID s) s
          (k + times.length) ∧
      (sendAll f chatID message alert w times).sent
        = ((times.take (20 - k)).map
            (fun t => handedMessage f t chatID message alert)).reverse ++ w.sent := by
  induction times with
  | nil =>
    intro w k _ _ hinv
    exact ⟨hinv, by simp [sendAll]⟩
  | cons t rest ih =>
    intro w k hsec hlen hinv
    have hlen2 : ((k + (rest.length + 1) : Nat) : Int) ≤ maxInt64 := by simpa using hlen
    obtain ⟨h1, h2⟩ := sendMessage_counter_step f w t chatID message alert s k
      (hsec t (List.mem_cons_self _ _)) hincr (by omega) hinv
    obtain ⟨g1, g2⟩ := ih (sendMessage f w t chatID message alert) (k + 1)
      (fun u hu => hsec u (List.mem_cons_of_mem _ hu))
      (by
        have e : k + 1 + rest.length = k + (rest.length + 1) := by omega
        rw [e]
        exact hlen2) h1
    have e : k + (t :: rest).length = k + 1 + rest.length := by
      simp only [List.length_cons]
      omega
    refine ⟨by rw [e]; exact g1, ?_⟩
    show (sendAll f chatID message alert (sendMessage f w t chatID message alert) rest).sent = _
    rw [g2, h2]
    by_cases hk : k < 20
    · have e2 : 20 - k = (20 - (k + 1)) + 1 := by omega
      rw [e2]
      simp [hk]
    · have e3 : 20 - k = 0 := by omega
      have e4 : 20 - (k + 1) = 0 := by omega
      simp [hk, e3, e4]

theorem counterValue_of_counter (w : World) (key : String) (s : Int) (k : Nat) (t : Time)
    (ht : Time.Unix t = s) (hinv : RateCounterIs w key s k) :
    counterValue w t key = k := by
  cases k with
  | zero =>
    have h : w.kv.lookup key = none := hinv
    simp [counterValue, World.live, h]
  | succ j =>
    obtain ⟨e, hl, hv, hexp⟩ := hinv
    have hlive := live_same_second w key e s t hl hexp ht
    unfold counterValue
    rw [hlive]
    cases e with
    | mk val expireAt =>
      simp only at hv
      subst hv
      rfl

theorem sendAll_same_key (f : Faults) (w : World) (chatID : Int) (message : String)
    (alert : Alert) (s : Int) (times : List Time)
    (hincr : f.incr (rateLimitKey chatID s) = false)
    (habs : w.kv.lookup (rateLimitKey chatID s) = none)
    (hsec : ∀ t ∈ times, Time.Unix t = s)
    (hlen : (times.length : Int) ≤ maxInt64) :
    (sendAll f chatID message alert w times).sent
      = ((times.take 20).map (fun t => handedMessage f t chatID message alert)).reverse
          ++ w.sent ∧
    ∀ t : Time, Time.Unix t = s →
      counterValue (sendAll f chatID message alert w times) t (rateLimitKey chatID s)
        = times.length := by
  obtain ⟨h1, h2⟩ := sendAll_counter f chatID message alert s hincr times w 0 hsec
    (by simpa using hlen) habs
  refine ⟨by simpa using h2, fun t ht => ?_⟩
  have := counterValue_of_counter _ _ s _ t ht h1
  simpa using this

/-- C20. For a recipient and a second `s`, the counter key
`rate_limit_<recipient>_<s>` not yet present and its increments succeeding:
of any number of `sendMessage` calls made within that second (so all on that
key), exactly the first 20 are handed to the bot, in order, and every later
one is dropped; after `n` calls the counter reads `n` at every instant of the
second, so dropped calls count too and the counter is never reset or
lowered. (A counter cannot reach 2^63 calls.) -/
theorem first_twenty_calls_on_a_key_are_sent (f : Faults) (w : World) (chatID : Int)
    (message : String) (alert : Alert) (s : Int) (times : List Time)
    (hincr : f.incr (rateLimitKey chatID s) = false)
    (habs : w.kv.lookup (rateLimitKey chatID s) = none)
    (hsec : ∀ t ∈ times, Time.Unix t = s)
    (hlen : (times.length : Int) ≤ maxInt64) :
    (sendAll f chatID message alert w times).sent
      = ((times.take 20).map (fun t => handedMessage f t chatID message alert)).reverse
          ++ w.sent ∧
    ∀ t : Time, Time.Unix t = s →
      counterValue (sendAll f chatID message alert w times) t (rateLimitKey chatID s)
        = times.length :=
  sendAll_same_key f w chatID message alert s times hincr habs hsec hlen

theorem first_twenty_calls_on_a_key_are_sent_witness :
    (sendAll noFaults 5 "m" exAlert World.empty (List.replicate 23 0)).sent
      = (((List.replicate 23 (0 : Time)).take 20).map
          (fun t => handedMessage noFaults t 5 "m" exAlert)).reverse ++ World.empty.sent ∧
    counterValue (sendAll noFaults 5 "m" exAlert World.empty (List.replicate 23 0)) 999999999
        (rateLimitKey 5 0) = 23 :=
  ⟨(first_twenty_calls_on_a_key_are_sent noFaults World.empty 5 "m" exAlert 0
      (List.replicate 23 0) (by decide) (by decide) (by decide) (by decide)).1,
   (first_twenty_calls_on_a_key_are_sent noFaults World.empty 5 "m" exAlert 0
      (List.replicate 23 0) (by decide) (by decide) (by decide) (by decide)).2 999999999
      (by decide)⟩

/-! ## The handlers and failing dependencies -/

/-- C21, the defect at a concrete input. A chart request for validator `A`
over 0 s to 3600 s while the writes to the cache fail: the store query
succeeds and `GetEfficiencyChartDataCached` returns the fresh series (its own
failed write is only logged), but `GetChartData` then answers 500 `Failed to
cache data` because its own write of the series fails. With the cache writes
succeeding the same request is answered with the series. -/
theorem GetChartData_cache_write_failure_fails_request :
    (GetEfficiencyChartDataCached exChartEnv exSetFails World.empty 10000000000000 "A"
        (TimeOfUnix 0) (TimeOfUnix 3600)).2
      = .ok [{ ADNLAddr := "", ValidatorADNL := "A", IntervalStart := 0, Efficiency := 1,
               CycleID := 1 }] ∧
    (GetChartData exChartEnv exSetFails World.empty 10000000000000 ["A"] "0" "3600").1.queries
      = [.chart 60 "A" 0 3600000000000] ∧
    (GetChartData exChartEnv exSetFails World.empty 10000000000000 ["A"] "0" "3600").2
      = .error 500 "Failed to cache data" ∧
    (GetChartData exChartEnv noFaults World.empty 10000000000000 ["A"] "0" "3600").2
      = .ok [{ ADNL := "A", Efficiency := [{ Timestamp := 0, Value := 1, CycleID := 1 }] }] :=
  ⟨by decide, by decide, by decide, by decide⟩

/-- C22, the defect at a concrete input. A status grid request for 0 s to
3600 s and group 1 while the store fails the query for the validators of the
range: `GetValidatorsStatuses` returns that error, the metadata call that
follows succeeds and overwrites it, and the handler answers with a success
response whose `statuses` is the nil map. -/
theorem handler_swallows_statuses_error :
    (GetValidatorsStatuses exGridEnv exListQueryFails World.empty 10000000000000
        (TimeOfUnix 0) (TimeOfUnix 3600) 1).2 = .error "clickhouse: query failed" ∧
    (ValidatorStatusesHandler exGridEnv exListQueryFails World.empty 10000000000000
        "0" "3600" 1).2
      = .returned (.ok
          { Statuses := none,
            Meta := [("A", { Weight := "3", Index := 0, Stake := "5", WalletAddress := "wa",
                             AvgEfficiency := 1, CycleID := 1 })] }) :=
  ⟨by decide, by decide⟩

/-- C23, the defect at concrete inputs. A status grid request for 0 s to
3600 s and group 1: when the store fails the statuses query,
`GetValidatorsStatuses` ends in `log.Fatalf` and the handler with it, without
a response; when the store fails the metadata query, the handler writes the
500 response and ends in `log.Fatal`. With every call succeeding the handler
returns the grid. -/
theorem store_failure_terminates_process :
    (GetValidatorsStatuses exGridEnv exStatusesQueryFails World.empty 10000000000000
        (TimeOfUnix 0) (TimeOfUnix 3600) 1).2 = .fatal "clickhouse: query failed" ∧
    (ValidatorStatusesHandler exGridEnv exStatusesQueryFails World.empty 10000000000000
        "0" "3600" 1).2 = .fatal none "clickhouse: query failed" ∧
    (ValidatorStatusesHandler exGridEnv exMetaQueryFails World.empty 10000000000000
        "0" "3600" 1).2
      = .fatal (some (.error 500 "Couldn't get validators statuses"))
          "clickhouse: query failed" ∧
    (ValidatorStatusesHandler exGridEnv noFaults World.empty 10000000000000
        "0" "3600" 1).2
      = .returned (.ok
          { Statuses := some [("A", [(60, 0), (0, 1)])],
            Meta := [("A", { Weight := "3", Index := 0, Stake := "5", WalletAddress := "wa",
                             AvgEfficiency := 1, CycleID := 1 })] }) :=
  ⟨by decide, by decide, by decide, by decide⟩

/-! ## Connecting at startup -/

/-- C24, the defect at a concrete input. The cache server refuses every
connection and every failed client closes without error: `GetRedisClient`
makes five attempts, sleeping 1, 2, 4 and 8 seconds in between, and returns a
nil client together with a nil error, because the error it stores after the
last attempt is the nil error of `client.Close`, not the error of the ping;
`NewCacheService` then dereferences the nil client. -/
theorem GetRedisClient_returns_nil_without_error :
    GetRedisClient exRedisDown
      = { redisInstance := none, redisInitErr := none, attempts := [1, 2, 3, 4, 5],
          sleeps := [1 * Second, 2 * Second, 4 * Second, 8 * Second] } ∧
    NewCacheService exRedisDown
      = .panic "runtime error: invalid memory address or nil pointer dereference" :=
  ⟨by decide, by decide⟩

/-- An attempt that fails, the failed connection closing without error, is
followed by a sleep of the current delay, and the next attempt is made with
the delay doubled. -/
theorem clickhouseConnectLoop_failed (srv : Nat → ConnAttempt) (i : Nat) (rest : List Nat)
    (backoff : Duration) (err : Option Error) (s : ClickHouseInit) (e : Error)
    (h : (srv i).failure = some e) :
    clickhouseConnectLoop srv (i :: rest) backoff err s
      = clickhouseConnectLoop srv rest (backoff * 2) (some e)
          { s with attempts := s.attempts ++ [i], sleeps := s.sleeps ++ [backoff] } := by
  cases hs : srv i with
  | openFails e1 =>
    rw [hs] at h
    simp only [ConnAttempt.failure, Option.some.injEq] at h
    subst h
    simp only [clickhouseConnectLoop, hs]
  | pingFails e1 closeErr =>
    rw [hs] at h
    cases closeErr with
    | none =>
      simp only [ConnAttempt.failure, Option.some.injEq] at h
      subst h
      simp [clickhouseConnectLoop, hs]
    | some c => simp [ConnAttempt.failure] at h
  | connected =>
    rw [hs] at h
    simp [ConnAttempt.failure] at h

/-- An attempt that connects ends the loop with its connection kept. -/
theorem clickhouseConnectLoop_connected (srv : Nat → ConnAttempt) (i : Nat) (rest : List Nat)
    (backoff : Duration) (err : Option Error) (s : ClickHouseInit) (h : srv i = .connected) :
    clickhouseConnectLoop srv (i :: rest) backoff err s
      = { s with attempts := s.attempts ++ [i], clickhouseInstance := some i } := by
  simp only [clickhouseConnectLoop, h]

theorem GetClickHouseClient_all_fail (srv : Nat → ConnAttempt)
    (hfail : ∀ i, i < 5 → (srv i).failure ≠ none) :
    GetClickHouseClient srv
      = { clickhouseInstance := none, clickhouseInitErr := (srv 4).failure,
          attempts := [0, 1, 2, 3, 4],
          sleeps := [2 * Second, 4 * Second, 8 * Second, 16 * Second, 32 * Second] } ∧
    (srv 4).failure ≠ none := by
  obtain ⟨e0, h0⟩ := Option.ne_none_iff_exists'.1 (hfail 0 (by decide))
  obtain ⟨e1, h1⟩ := Option.ne_none_iff_exists'.1 (hfail 1 (by decide))
  obtain ⟨e2, h2⟩ := Option.ne_none_iff_exists'.1 (hfail 2 (by decide))
  obtain ⟨e3, h3⟩ := Option.ne_none_iff_exists'.1 (hfail 3 (by decide))
  obtain ⟨e4, h4⟩ := Option.ne_none_iff_exists'.1 (hfail 4 (by decide))
  have hr : List.range 5 = [0, 1, 2, 3, 4] := by decide
  refine ⟨?_, by simp [h4]⟩
  unfold GetClickHouseClient
  simp only [hr]
  rw [clickhouseConnectLoop_failed srv 0 _ _ _ _ e0 h0,
    clickhouseConnectLoop_failed srv 1 _ _ _ _ e1 h1,
    clickhouseConnectLoop_failed srv 2 _ _ _ _ e2 h2,
    clickhouseConnectLoop_failed srv 3 _ _ _ _ e3 h3,
    clickhouseConnectLoop_failed srv 4 _ _ _ _ e4 h4, h4]
  simp only [clickhouseConnectLoop, List.nil_append, List.cons_append, ClickHouseInit.mk.injEq,
    true_and, List.cons.injEq, and_true]
  decide

theorem GetClickHouseClient_first_success (srv : Nat → ConnAttempt) (k : Nat)
    (hk1 : 1 ≤ k) (hk5 : k ≤ 5)
    (hfail : ∀ i, i < k - 1 → (srv i).failure ≠ none)
    (hok : srv (k - 1) = .connected) :
    GetClickHouseClient srv
      = { clickhouseInstance := some (k - 1), clickhouseInitErr := none,
          attempts := List.range k,
          sleeps := (List.range (k - 1)).map (fun j => 2 * Second * 2 ^ j) } := by
  have hr : List.range 5 = [0, 1, 2, 3, 4] := by decide
  unfold GetClickHouseClient
  simp only [hr]
  interval_cases k
  · rw [clickhouseConnectLoop_connected srv 0 _ _ _ _ hok]
    decide
  · obtain ⟨e0, h0⟩ := Option.ne_none_iff_exists'.1 (hfail 0 (by decide))
    rw [clickhouseConnectLoop_failed srv 0 _ _ _ _ e0 h0,
      clickhouseConnectLoop_connected srv 1 _ _ _ _ hok]
    decide
  · obtain ⟨e0, h0⟩ := Option.ne_none_iff_exists'.1 (hfail 0 (by decide))
    obtain ⟨e1, h1⟩ := Option.ne_none_iff_exists'.1 (hfail 1 (by decide))
    rw [clickhouseConnectLoop_failed srv 0 _ _ _ _ e0 h0,
      clickhouseConnectLoop_failed srv 1 _ _ _ _ e1 h1,
      clickhouseConnectLoop_connected srv 2 _ _ _ _ hok]
    decide
  · obtain ⟨e0, h0⟩ := Option.ne_none_iff_exists'.1 (hfail 0 (by decide))
    obtain ⟨e1, h1⟩ := Option.ne_none_iff_exists'.1 (hfail 1 (by decide))
    obtain ⟨e2, h2⟩ := Option.ne_none_iff_exists'.1 (hfail 2 (by decide))
    rw [clickhouseConnectLoop_failed srv 0 _ _ _ _ e0 h0,
      clickhouseConnectLoop_failed srv 1 _ _ _ _ e1 h1,
      clickhouseConnectLoop_failed srv 2 _ _ _ _ e2 h2,
      clickhouseConnectLoop_connected srv 3 _ _ _ _ hok]
    decide
  · obtain ⟨e0, h0⟩ := Option.ne_none_iff_exists'.1 (hfail 0 (by decide))
    obtain ⟨e1, h1⟩ := Option.ne_none_iff_exists'.1 (hfail 1 (by decide))
    obtain ⟨e2, h2⟩ := Option.ne_none_iff_exists'.1 (hfail 2 (by decide))
    obtain ⟨e3, h3⟩ := Option.ne_none_iff_exists'.1 (hfail 3 (by decide))
    rw [clickhouseConnectLoop_failed srv 0 _ _ _ _ e0 h0,
      clickhouseConnectLoop_failed srv 1 _ _ _ _ e1 h1,
      clickhouseConnectLoop_failed srv 2 _ _ _ _ e2 h2,
      clickhouseConnectLoop_failed srv 3 _ _ _ _ e3 h3,
      clickhouseConnectLoop_connected srv 4 _ _ _ _ hok]
    decide

/-- C25. With every failed connection closing without error: if each of the
five attempts of `GetClickHouseClient` fails (open or ping), exactly five
attempts are made, with sleeps of 2, 4, 8, 16 and 32 seconds after them, and
the function returns a nil client with the error of the fifth attempt, which
is not nil; if attempt `k <= 5` is the first to connect, exactly `k` attempts
are made, with sleeps of 2, 4, ... seconds after the `k - 1` failed ones, and
the client of attempt `k` is returned with a nil error. -/
theorem GetClickHouseClient_retries (srv : Nat → ConnAttempt) :
    ((∀ i, i < 5 → (srv i).failure ≠ none) →
      GetClickHouseClient srv
        = { clickhouseInstance := none, clickhouseInitErr := (srv 4).failure,
            attempts := [0, 1, 2, 3, 4],
            sleeps := [2 * Second, 4 * Second, 8 * Second, 16 * Second, 32 * Second] } ∧
      (srv 4).failure ≠ none) ∧
    ∀ k, 1 ≤ k → k ≤ 5 → (∀ i, i < k - 1 → (srv i).failure ≠ none) →
      srv (k - 1) = .connected →
      GetClickHouseClient srv
        = { clickhouseInstance := some (k - 1), clickhouseInitErr := none,
            attempts := List.range k,
            sleeps := (List.range (k - 1)).map (fun j => 2 * Second * 2 ^ j) } :=
  ⟨GetClickHouseClient_all_fail srv,
   fun k hk1 hk5 hfail hok => GetClickHouseClient_first_success srv k hk1 hk5 hfail hok⟩

theorem GetClickHouseClient_retries_witness :
    (GetClickHouseClient exStoreDown
        = { clickhouseInstance := none, clickhouseInitErr := (exStoreDown 4).failure,
            attempts := [0, 1, 2, 3, 4],
            sleeps := [2 * Second, 4 * Second, 8 * Second, 16 * Second, 32 * Second] } ∧
      (exStoreDown 4).failure ≠ none) ∧
    GetClickHouseClient exStoreSlow
      = { clickhouseInstance := some (3 - 1), clickhouseInitErr := none,
          attempts := List.range 3,
          sleeps := (List.range (3 - 1)).map (fun j => 2 * Second * 2 ^ j) } ∧
    (exStoreDown 4).failure = some "read: connection reset" :=
  ⟨(GetClickHouseClient_retries exStoreDown).1 (by decide),
   (GetClickHouseClient_retries exStoreSlow).2 3 (by decide) (by decide) (by decide)
     (by decide),
   by decide⟩

/-! ## Publishing an alert -/

theorem PublishAlert_success (f : Faults) (w : World) (now : Time) (alert : Alert)
    (hset : f.set ("alert_" ++ FormatInt alert.ID) = false) (hpub : f.publish = false) :
    PublishAlert f w now alert
      = ({ w with
           kv := ("alert_" ++ FormatInt alert.ID,
                  { val := .alert alert, expireAt := none }) :: w.kv,
           published := ("validator_notifications", .alert alert) :: w.published }, none) := by
  simp [PublishAlert, redisSet, redisPublish, hset, hpub]

theorem PublishAlert_store_fails (f : Faults) (w : World) (now : Time) (alert : Alert)
    (hset : f.set ("alert_" ++ FormatInt alert.ID) = true) :
    PublishAlert f w now alert
      = (w, some ("failed to save alert to Redis: " ++ "redis: set failed")) := by
  simp [PublishAlert, redisSet, hset]

/-- C26. For every alert: when the cache accepts the write and the
publication, `PublishAlert` returns no error, has stored the alert's JSON
under `alert_<ID>` without expiry and has published exactly one message on
`validator_notifications`, whose payload is the stored value; when the write
fails, it returns an error and leaves the cache and the channel as they
were. -/
theorem PublishAlert_stores_then_publishes (f : Faults) (w : World) (now : Time)
    (alert : Alert) :
    (f.set ("alert_" ++ FormatInt alert.ID) = false → f.publish = false →
      PublishAlert f w now alert
        = ({ w with
             kv := ("alert_" ++ FormatInt alert.ID,
                    { val := .alert alert, expireAt := none }) :: w.kv,
             published := ("validator_notifications", .alert alert) :: w.published },
           none)) ∧
    (f.set ("alert_" ++ FormatInt alert.ID) = true →
      PublishAlert f w now alert
        = (w, some ("failed to save alert to Redis: " ++ "redis: set failed"))) :=
  ⟨PublishAlert_success f w now alert, PublishAlert_store_fails f w now alert⟩

theorem PublishAlert_stores_then_publishes_witness :
    PublishAlert noFaults World.empty 100 exAlert
      = ({ World.empty with
           kv := ("alert_" ++ FormatInt exAlert.ID,
                  { val := .alert exAlert, expireAt := none }) :: World.empty.kv,
           published := ("validator_notifications", .alert exAlert)
             :: World.empty.published }, none) ∧
    PublishAlert exSetFails World.empty 100 exAlert
      = (World.empty, some ("failed to save alert to Redis: " ++ "redis: set failed")) ∧
    "alert_" ++ FormatInt exAlert.ID = "alert_7" :=
  ⟨(PublishAlert_stores_then_publishes noFaults World.empty 100 exAlert).1 rfl rfl,
   (PublishAlert_stores_then_publishes exSetFails World.empty 100 exAlert).2 rfl,
   by decide⟩

/-! ## A transition whose alert id cannot be generated -/

theorem transitionTail_counter_fails (f : Faults) (w1 : World) (now : Time)
    (ADNLAddr validatorADNL : String) (efficiency : ℚ) (cls : ValidatorStatus)
    (previous : ValidatorStatusInfo) (hincr : f.incr "alert_id" = true) :
    transitionTail f w1 now ADNLAddr validatorADNL efficiency cls previous
      = (w1, some ("failed to generate alert ID: " ++
          ("failed to generate alert ID: " ++
            ("failed to increment counter: " ++ "redis: incr failed")))) := by
  simp [transitionTail, generateAlertID, IncrementCounter, redisIncr, hincr]

theorem checkStatusChange_counter_fails (f : Faults) (w : World) (now : Time)
    (ADNLAddr validatorADNL : String) (efficiency threshold : ℚ)
    (found : Option ValidatorStatusInfo)
    (hget : GetCachedData decodeStatusInfo f w now ("validator_status:" ++ validatorADNL)
      = .ok found)
    (hchange : classification efficiency threshold ≠ (previousOf found now).Status)
    (hset : f.set ("validator_status:" ++ validatorADNL) = false)
    (hincr : f.incr "alert_id" = true) :
    checkStatusChange f w now ADNLAddr validatorADNL efficiency threshold
      = ({ w with kv := ("validator_status:" ++ validatorADNL,
            { val := .statusInfo
                { Status := classification efficiency threshold, Timestamp := now },
              expireAt := none }) :: w.kv },
         some ("failed to generate alert ID: " ++
          ("failed to generate alert ID: " ++
            ("failed to increment counter: " ++ "redis: incr failed")))) := by
  rw [checkStatusChange_stages, hget]
  simp only [hchange, hset, if_false, Bool.false_eq_true]
  exact transitionTail_counter_fails f _ now ADNLAddr validatorADNL efficiency _ _ hincr

theorem checkStatusChange_after_counter_failure (f f2 : Faults) (w : World) (now now2 : Time)
    (ADNLAddr ADNLAddr2 validatorADNL : String) (efficiency threshold efficiency2 threshold2 : ℚ)
    (found : Option ValidatorStatusInfo)
    (hget : GetCachedData decodeStatusInfo f w now ("validator_status:" ++ validatorADNL)
      = .ok found)
    (hchange : classification efficiency threshold ≠ (previousOf found now).Status)
    (hset : f.set ("validator_status:" ++ validatorADNL) = false)
    (hincr : f.incr "alert_id" = true)
    (hget2 : f2.get ("validator_status:" ++ validatorADNL) = false)
    (hsame : classification efficiency2 threshold2 = classification efficiency threshold) :
    (checkStatusChange f w now ADNLAddr validatorADNL efficiency threshold).2
      = some ("failed to generate alert ID: " ++
          ("failed to generate alert ID: " ++
            ("failed to increment counter: " ++ "redis: incr failed"))) ∧
    (checkStatusChange f w now ADNLAddr validatorADNL efficiency threshold).1.published
      = w.published ∧
    (checkStatusChange f w now ADNLAddr validatorADNL efficiency threshold).1.statusHistory
      = w.statusHistory ∧
    cachedStatus (checkStatusChange f w now ADNLAddr validatorADNL efficiency threshold).1 now2
        validatorADNL = classification efficiency threshold ∧
    checkStatusChange f2
        (checkStatusChange f w now ADNLAddr validatorADNL efficiency threshold).1 now2
        ADNLAddr2 validatorADNL efficiency2 threshold2
      = ((checkStatusChange f w now ADNLAddr validatorADNL efficiency threshold).1, none) := by
  rw [checkStatusChange_counter_fails f w now ADNLAddr validatorADNL efficiency threshold found
    hget hchange hset hincr]
  have hlive := live_cons_self w now2 ("validator_status:" ++ validatorADNL)
    (.statusInfo { Status := classification efficiency threshold, Timestamp := now })
  refine ⟨rfl, rfl, rfl, ?_, ?_⟩
  · simp [cachedStatus, cachedInfo, hlive]
  · exact checkStatusChange_same_world f2 _ now2 ADNLAddr2 validatorADNL efficiency2 threshold2
      { Status := classification efficiency threshold, Timestamp := now } none hget2 hlive hsame

/-- C27. When a sample changes the status of a validator (the cached status
read, the new status written) and the increment of the alert-id counter
fails: `checkStatusChange` returns the error of the counter, publishes no
alert and appends no status record, while the cache holds the new status; a
following sample of the same classification, at any later instant, is then
treated as unchanged: it returns no error and changes nothing, so the
transition is neither alerted nor recorded. -/
theorem failed_alert_id_loses_transition (f f2 : Faults) (w : World) (now now2 : Time)
    (ADNLAddr ADNLAddr2 validatorADNL : String) (efficiency threshold efficiency2 threshold2 : ℚ)
    (found : Option ValidatorStatusInfo)
    (hget : GetCachedData decodeStatusInfo f w now ("validator_status:" ++ validatorADNL)
      = .ok found)
    (hchange : classification efficiency threshold ≠ (previousOf found now).Status)
    (hset : f.set ("validator_status:" ++ validatorADNL) = false)
    (hincr : f.incr "alert_id" = true)
    (hget2 : f2.get ("validator_status:" ++ validatorADNL) = false)
    (hsame : classification efficiency2 threshold2 = classification efficiency threshold) :
    (checkStatusChange f w now ADNLAddr validatorADNL efficiency threshold).2
      = some ("failed to generate alert ID: " ++
          ("failed to generate alert ID: " ++
            ("failed to increment counter: " ++ "redis: incr failed"))) ∧
    (checkStatusChange f w now ADNLAddr validatorADNL efficiency threshold).1.published
      = w.published ∧
    (checkStatusChange f w now ADNLAddr validatorADNL efficiency threshold).1.statusHistory
      = w.statusHistory ∧
    cachedStatus (checkStatusChange f w now ADNLAddr validatorADNL efficiency threshold).1 now2
        validatorADNL = classification efficiency threshold ∧
    checkStatusChange f2
        (checkStatusChange f w now ADNLAddr validatorADNL efficiency threshold).1 now2
        ADNLAddr2 validatorADNL efficiency2 threshold2
      = ((checkStatusChange f w now ADNLAddr validatorADNL efficiency threshold).1, none) :=
  checkStatusChange_after_counter_failure f f2 w now now2 ADNLAddr ADNLAddr2 validatorADNL
    efficiency threshold efficiency2 threshold2 found hget hchange hset hincr hget2 hsame

theorem failed_alert_id_loses_transition_witness :
    (checkStatusChange exCounterFails World.empty 100 "A" "V" 0 1).2
      = some ("failed to generate alert ID: " ++
          ("failed to generate alert ID: " ++
            ("failed to increment counter: " ++ "redis: incr failed"))) ∧
    (checkStatusChange exCounterFails World.empty 100 "A" "V" 0 1).1.published
      = World.empty.published ∧
    (checkStatusChange exCounterFails World.empty 100 "A" "V" 0 1).1.statusHistory
      = World.empty.statusHistory ∧
    cachedStatus (checkStatusChange exCounterFails World.empty 100 "A" "V" 0 1).1 200 "V"
      = classification 0 1 ∧
    checkStatusChange noFaults
        (checkStatusChange exCounterFails World.empty 100 "A" "V" 0 1).1 200 "A" "V" 0 1
      = ((checkStatusChange exCounterFails World.empty 100 "A" "V" 0 1).1, none) :=
  failed_alert_id_loses_transition exCounterFails noFaults World.empty 100 200 "A" "A" "V"
    0 1 0 1 none (by decide) (by decide) (by decide) (by decide) (by decide) rfl

/-! ## Rounding a rounded window again -/

theorem roundTimeRange_again (now now2 from_ to_ : Int) (hle : now ≤ now2)
    (hfit : now < Time.Round to_ Minute →
      minDuration ≤ Time.Round to_ Minute - Time.Round from_ Minute ∧
      Time.Round to_ Minute - Time.Round from_ Minute ≤ maxDuration) :
    roundTimeRange now2 (roundTimeRange now from_ to_).1 (roundTimeRange now from_ to_).2
      = roundTimeRange now from_ to_ := by
  have hf := round_minute_mod from_
  have ht := round_minute_mod to_
  have hn := round_minute_mod now
  have hend := roundTimeRange_end_le_now now from_ to_
  have hend2 : (roundTimeRange now from_ to_).2 ≤ now2 := le_trans hend hle
  rcases roundTimeRange_cases now from_ to_ with ⟨_, hr⟩ | ⟨hlt, hr⟩
  · rw [hr] at hend2 ⊢
    exact roundTimeRange_fixed now2 _ _ hf ht hend2
  · obtain ⟨h1, h2⟩ := hfit hlt
    rw [sub_of_fits _ _ h1 h2] at hr
    rw [hr] at hend2 ⊢
    refine roundTimeRange_fixed now2 _ _ ?_ ?_ hend2
    · simp only
      have hf2 : @Eq Int (Time.Round from_ Minute % 60000000000) 0 := hf
      have ht2 : @Eq Int (Time.Round to_ Minute % 60000000000) 0 := ht
      have hn2 : @Eq Int (Time.Round now Minute % 60000000000) 0 := hn
      omega
    · simp only
      have hn2 : @Eq Int (Time.Round now Minute % 60000000000) 0 := hn
      omega

theorem fetchEfficiencyChartDataFromDB_same_window (env : Env) (f : Faults) (w : World)
    (now now2 : Int) (adnl : String) (from_ to_ : Int) (hle : now ≤ now2)
    (hfit : now < Time.Round to_ Minute →
      minDuration ≤ Time.Round to_ Minute - Time.Round from_ Minute ∧
      Time.Round to_ Minute - Time.Round from_ Minute ≤ maxDuration) :
    (fetchEfficiencyChartDataFromDB env f w now2 adnl (roundTimeRange now from_ to_).1
        (roundTimeRange now from_ to_).2).1.queries = w.queries ∨
    (fetchEfficiencyChartDataFromDB env f w now2 adnl (roundTimeRange now from_ to_).1
        (roundTimeRange now from_ to_).2).1.queries
      = .chart (env.totalSeconds (Time.Sub (roundTimeRange now from_ to_).2
            (roundTimeRange now from_ to_).1) / 60) adnl
          (roundTimeRange now from_ to_).1 (roundTimeRange now from_ to_).2 :: w.queries := by
  have h := fetchEfficiencyChartDataFromDB_queries env f w now2 adnl
    (roundTimeRange now from_ to_).1 (roundTimeRange now from_ to_).2
  rw [roundTimeRange_again now now2 from_ to_ hle hfit] at h
  rcases h with h | ⟨_, h⟩
  · exact Or.inl h
  · exact Or.inr h

/-- C28 as amended. For every `from`, `to` and instants `now <= now2`, when the
rounded end of the request is not after `now`, or the distance of the two
rounded ends fits in a `Duration`: `roundTimeRange` at `now2` applied to the
window `roundTimeRange` returned at `now` returns that window, and the chart
query `fetchEfficiencyChartDataFromDB` sends at `now2` for that window, if it
sends one, carries exactly the two ends of that window. -/
theorem roundTimeRange_idempotent (env : Env) (f : Faults) (w : World) (adnl : String)
    (now now2 from_ to_ : Time) (hle : now ≤ now2)
    (hfit : now < Time.Round to_ Minute →
      minDuration ≤ Time.Round to_ Minute - Time.Round from_ Minute ∧
      Time.Round to_ Minute - Time.Round from_ Minute ≤ maxDuration) :
    roundTimeRange now2 (roundTimeRange now from_ to_).1 (roundTimeRange now from_ to_).2
      = roundTimeRange now from_ to_ ∧
    ((fetchEfficiencyChartDataFromDB env f w now2 adnl (roundTimeRange now from_ to_).1
        (roundTimeRange now from_ to_).2).1.queries = w.queries ∨
     (fetchEfficiencyChartDataFromDB env f w now2 adnl (roundTimeRange now from_ to_).1
        (roundTimeRange now from_ to_).2).1.queries
      = .chart (env.totalSeconds (Time.Sub (roundTimeRange now from_ to_).2
            (roundTimeRange now from_ to_).1) / 60) adnl
          (roundTimeRange now from_ to_).1 (roundTimeRange now from_ to_).2 :: w.queries) :=
  ⟨roundTimeRange_again now now2 from_ to_ hle hfit,
   fetchEfficiencyChartDataFromDB_same_window env f w now now2 adnl from_ to_ hle hfit⟩

theorem roundTimeRange_idempotent_witness :
    roundTimeRange 10060000000000
        (roundTimeRange 10000000000000 90000000000 20000000000000).1
        (roundTimeRange 10000000000000 90000000000 20000000000000).2
      = roundTimeRange 10000000000000 90000000000 20000000000000 ∧
    roundTimeRange 10000000000000 90000000000 20000000000000
      = (-9900000000000, 9960000000000) :=
  ⟨(roundTimeRange_idempotent exEnv noFaults World.empty "A" 10000000000000 10060000000000
      90000000000 20000000000000 (by decide) (by decide)).1,
   by decide⟩

/-- C28, counterexample. The request from the epoch to 9300000000 s after it,
rounded at 1700000000 s, returns a window whose start is not a whole minute,
the distance of 9300000000 s being replaced by the largest `Duration`;
rounding that window again at the same instant moves its start. -/
theorem roundTimeRange_long_range_rounds_again :
    roundTimeRange 1700000000000000000 0 9300000000000000000
      = (-7523372116854775807, 1699999920000000000) ∧
    roundTimeRange 1700000000000000000
        (roundTimeRange 1700000000000000000 0 9300000000000000000).1
        (roundTimeRange 1700000000000000000 0 9300000000000000000).2
      = (-7523372100000000000, 1699999920000000000) ∧
    roundTimeRange 1700000000000000000
        (roundTimeRange 1700000000000000000 0 9300000000000000000).1
        (roundTimeRange 1700000000000000000 0 9300000000000000000).2
      ≠ roundTimeRange 1700000000000000000 0 9300000000000000000 :=
  ⟨by decide, by decide, by decide⟩

/-! ## The acknowledge button and the key of its alert -/

theorem digitChar_parses :
    ∀ d, d < 10 → ('0' ≤ Nat.digitChar d ∧ Nat.digitChar d ≤ '9') ∧
      (Nat.digitChar d).toNat - '0'.toNat = d := by
  decide

/-- Reading back the digits `Nat.toDigitsCore` puts in front of `ds`. -/
theorem parseDigits_toDigitsCore (fuel : Nat) :
    ∀ (n : Nat) (ds : List Char), n < fuel →
      parseDigits (Nat.toDigitsCore 10 fuel n ds) 0 = parseDigits ds n := by
  induction fuel with
  | zero => intro n ds h; omega
  | succ k ih =>
    intro n ds h
    obtain ⟨hd1, hd2⟩ := digitChar_parses (n % 10) (Nat.mod_lt _ (by decide))
    have hstep : parseDigits (Nat.digitChar (n % 10) :: ds) (n / 10) = parseDigits ds n := by
      rw [parseDigits, if_pos hd1, hd2]
      have e : n / 10 * 10 + n % 10 = n := by omega
      rw [e]
    unfold Nat.toDigitsCore
    by_cases h0 : n / 10 = 0
    · simp only [h0, if_true]
      rw [← hstep, h0]
    · simp only [h0, if_false]
      rw [ih (n / 10) _ (by omega), hstep]

theorem parseDigits_toDigits (n : Nat) : parseDigits (Nat.toDigits 10 n) 0 = some n := by
  unfold Nat.toDigits
  rw [parseDigits_toDigitsCore (n + 1) n [] (by omega)]
  rfl

/-- Distinct integers have distinct decimal renderings. -/
theorem FormatInt_injective (a b : Int) (h : FormatInt a = FormatInt b) : a = b := by
  have h2 := congrArg String.data h
  cases a with
  | ofNat m =>
    cases b with
    | ofNat k =>
      simp only [FormatInt] at h2
      have hm := parseDigits_toDigits m
      rw [h2, parseDigits_toDigits k] at hm
      injection hm with e
      rw [e]
    | negSucc k =>
      simp only [FormatInt] at h2
      have hm := parseDigits_toDigits m
      rw [h2] at hm
      simp [parseDigits] at hm
  | negSucc m =>
    cases b with
    | ofNat k =>
      simp only [FormatInt] at h2
      have hk := parseDigits_toDigits k
      rw [← h2] at hk
      simp [parseDigits] at hk
    | negSucc k =>
      simp only [FormatInt, List.cons.injEq, true_and] at h2
      have hm := parseDigits_toDigits (m + 1)
      rw [h2, parseDigits_toDigits (k + 1)] at hm
      injection hm with e
      have e2 : m = k := by omega
      rw [e2]

theorem alertKey_injective (a b : Int) (h : "alert_" ++ FormatInt a = "alert_" ++ FormatInt b) :
    a = b := by
  have h2 := congrArg String.data h
  rw [String.data_append, String.data_append] at h2
  exact FormatInt_injective a b (String.ext (List.append_cancel_left h2))

theorem PublishAlert_live (w : World) (now now2 : Time) (alert : Alert) :
    (PublishAlert noFaults w now alert).1.live now2 ("alert_" ++ FormatInt alert.ID)
      = some { val := .alert alert, expireAt := none } := by
  rw [PublishAlert_success noFaults w now alert rfl rfl]
  simp [World.live, List.lookup_cons]

theorem ack_button_round_trip (w : World) (now now2 now3 : Time) (chatID : Int)
    (message : String) (alert : Alert) (user : User) (mc : Option Int) :
    (alert.Status = StatusNotOK →
      (sendMessage noFaults World.empty now chatID message alert).sent.map
          (fun m => m.CallbackData) = [some ("ack_" ++ FormatInt alert.ID)]) ∧
    (len ("ack_" ++ FormatInt alert.ID) > 4 ∧ sliceTo ("ack_" ++ FormatInt alert.ID) 4 = "ack_") ∧
    "alert_" ++ sliceFrom ("ack_" ++ FormatInt alert.ID) 4 = "alert_" ++ FormatInt alert.ID ∧
    (PublishAlert noFaults w now2 alert).1.live now3
        ("alert_" ++ sliceFrom ("ack_" ++ FormatInt alert.ID) 4)
      = some { val := .alert alert, expireAt := none } ∧
    (handleCallback noFaults (PublishAlert noFaults w now2 alert).1 now3
        { CallbackQuery := some { From := user, Data := "ack_" ++ FormatInt alert.ID,
                                  MessageChatID := mc } }).statusHistory
      = { adnl_addr := alert.ADNLAddr, validator_adnl := alert.ValidatorADNL,
          timestamp := Time.Unix now3, status := StatusAcknowledged }
          :: (PublishAlert noFaults w now2 alert).1.statusHistory ∧
    ∀ id1 id2 : Int, "alert_" ++ FormatInt id1 = "alert_" ++ FormatInt id2 → id1 = id2 := by
  obtain ⟨hacc, hfrom⟩ := ack_data (FormatInt alert.ID) (FormatInt_ne_empty alert.ID)
  have hlive := PublishAlert_live w now2 now3 alert
  refine ⟨?_, hacc, by rw [hfrom], by rw [hfrom]; exact hlive, ?_, alertKey_injective⟩
  · intro hs
    have h := (sendMessage_first noFaults World.empty now chatID message alert (Time.Unix now)
      rfl rfl rfl).2
    rw [h]
    simp [handedMessage, hs, World.empty]
  · exact handleCallback_stored _ now3 (FormatInt alert.ID) (FormatInt_ne_empty alert.ID) user mc
      alert none hlive

/-- C29. For every alert, whatever its id (negative ids included): the
acknowledge button `sendMessage` attaches to a NOT_OK alert carries the data
`ack_` followed by the decimal id; `handleCallback` accepts that data (longer
than 4, starting with `ack_`) and turns it into the key `alert_<id>`, which is
the key under which `PublishAlert` stored that alert, so that with every call
succeeding the acknowledgement records the addresses of that very alert; and
the keys of two distinct ids are distinct. -/
theorem ack_button_resolves_to_alert_key (w : World) (now now2 now3 : Time) (chatID : Int)
    (message : String) (alert : Alert) (user : User) (mc : Option Int) :
    (alert.Status = StatusNotOK →
      (sendMessage noFaults World.empty now chatID message alert).sent.map
          (fun m => m.CallbackData) = [some ("ack_" ++ FormatInt alert.ID)]) ∧
    (len ("ack_" ++ FormatInt alert.ID) > 4 ∧ sliceTo ("ack_" ++ FormatInt alert.ID) 4 = "ack_") ∧
    "alert_" ++ sliceFrom ("ack_" ++ FormatInt alert.ID) 4 = "alert_" ++ FormatInt alert.ID ∧
    (PublishAlert noFaults w now2 alert).1.live now3
        ("alert_" ++ sliceFrom ("ack_" ++ FormatInt alert.ID) 4)
      = some { val := .alert alert, expireAt := none } ∧
    (handleCallback noFaults (PublishAlert noFaults w now2 alert).1 now3
        { CallbackQuery := some { From := user, Data := "ack_" ++ FormatInt alert.ID,
                                  MessageChatID := mc } }).statusHistory
      = { adnl_addr := alert.ADNLAddr, validator_adnl := alert.ValidatorADNL,
          timestamp := Time.Unix now3, status := StatusAcknowledged }
          :: (PublishAlert noFaults w now2 alert).1.statusHistory ∧
    ∀ id1 id2 : Int, "alert_" ++ FormatInt id1 = "alert_" ++ FormatInt id2 → id1 = id2 :=
  ack_button_round_trip w now now2 now3 chatID message alert user mc

theorem ack_button_resolves_to_alert_key_witness :
    (sendMessage noFaults World.empty 100 5 "m" { exAlert with ID := -3 }).sent.map
        (fun m => m.CallbackData) = [some ("ack_" ++ FormatInt (-3))] ∧
    "ack_" ++ FormatInt (-3) = "ack_-3" ∧
    (PublishAlert noFaults World.empty 100 { exAlert with ID := -3 }).1.live 200
        ("alert_" ++ sliceFrom ("ack_" ++ FormatInt (-3)) 4)
      = some { val := .alert { exAlert with ID := -3 }, expireAt := none } :=
  ⟨(ack_button_resolves_to_alert_key World.empty 100 100 200 5 "m" { exAlert with ID := -3 }
      { ID := 42, Username := "bob" } none).1 (by decide),
   by decide,
   (ack_button_resolves_to_alert_key World.empty 100 100 200 5 "m" { exAlert with ID := -3 }
      { ID := 42, Username := "bob" } none).2.2.2.1⟩

/-! ## The window end and the seconds of the cache keys -/

theorem wrapInt64_of_fits (n : Int) (h1 : -9223372036854775808 ≤ n)
    (h2 : n ≤ 9223372036854775807) : wrapInt64 n = n := by
  unfold wrapInt64
  omega

/-- `time.Unix(sec, 0)` is the instant asked for when the stored second does
not wrap. -/
theorem TimeOfUnix_of_fits (sec : Int) (h1 : -9223372036854775808 ≤ sec)
    (h2 : sec ≤ 9223371974719179007) : TimeOfUnix sec = sec * 1000000000 := by
  have hs : Second = (1000000000 : Int) := by decide
  unfold TimeOfUnix unixToInternal
  rw [wrapInt64_of_fits _ (by omega) (by omega), hs]
  ring

/-- `t.Unix()` is the Unix second of the instant when that is an `int64`. -/
theorem Unix64_of_fits (t : Int) (h1 : -9223372036854775808 ≤ Time.Unix t)
    (h2 : Time.Unix t ≤ 9223372036854775807) : Time.Unix64 t = Time.Unix t := by
  unfold Time.Unix64
  exact wrapInt64_of_fits _ h1 h2

theorem Unix_mono (a b : Int) (h : a ≤ b) : Time.Unix a ≤ Time.Unix b := by
  unfold Time.Unix
  omega

theorem end_second_le_now (now from_ to_ : Int)
    (hend : -9223372036854775808 ≤ Time.Unix (roundTimeRange now from_ to_).2)
    (hnow : Time.Unix now ≤ 9223372036854775807) :
    Time.Unix64 (roundTimeRange now from_ to_).2 ≤ Time.Unix64 now := by
  have hle := Unix_mono _ _ (roundTimeRange_end_le_now now from_ to_)
  rw [Unix64_of_fits _ hend (le_trans hle hnow), Unix64_of_fits now (le_trans hend hle) hnow]
  exact hle

/-- The Unix second of the window end is an `int64` for a request whose `to`
is an `int64` that `time.Unix` does not wrap. -/
theorem request_end_second_fits (now : Int) (fromSec toSec : Int)
    (hto1 : -9223372036854775808 ≤ toSec) (hto2 : toSec ≤ 9223371974719179007)
    (hnow : 0 ≤ now) :
    -9223372036854775808
      ≤ Time.Unix (roundTimeRange now (TimeOfUnix fromSec) (TimeOfUnix toSec)).2 := by
  have hmt := round_minute_mod (TimeOfUnix toSec)
  have hmn := round_minute_mod now
  have hmt2 : @Eq Int (Time.Round (TimeOfUnix toSec) Minute % 60000000000) 0 := hmt
  have hmn2 : @Eq Int (Time.Round now Minute % 60000000000) 0 := hmn
  have ht := TimeOfUnix_of_fits toSec hto1 hto2
  rcases roundTimeRange_cases now (TimeOfUnix fromSec) (TimeOfUnix toSec) with ⟨_, hr⟩ | ⟨_, hr⟩
  · rw [hr]
    simp only
    rcases round_minute_cases (TimeOfUnix toSec) with ⟨h1, h2⟩ | ⟨h1, h2⟩
    · have h1b : @Eq Int (Time.Round (TimeOfUnix toSec) Minute)
          (TimeOfUnix toSec - TimeOfUnix toSec % 60000000000) := h1
      have htb : @Eq Int (TimeOfUnix toSec) (toSec * 1000000000) := ht
      unfold Time.Unix
      generalize (Time.Round (TimeOfUnix toSec) Minute : Int) = R at hmt2 h1b ⊢
      generalize (TimeOfUnix toSec : Int) = T at h1b h2 htb
      omega
    · have h1b : @Eq Int (Time.Round (TimeOfUnix toSec) Minute)
          (TimeOfUnix toSec + (60000000000 - TimeOfUnix toSec % 60000000000)) := h1
      have htb : @Eq Int (TimeOfUnix toSec) (toSec * 1000000000) := ht
      unfold Time.Unix
      generalize (Time.Round (TimeOfUnix toSec) Minute : Int) = R at hmt2 h1b ⊢
      generalize (TimeOfUnix toSec : Int) = T at h1b h2 htb
      omega
  · rw [hr]
    simp only
    rcases round_minute_cases now with ⟨h1, h2⟩ | ⟨h1, h2⟩
    · have h1b : @Eq Int (Time.Round now Minute) (now - now % 60000000000) := h1
      unfold Time.Unix
      generalize (Time.Round now Minute : Int) = R at hmn2 h1b ⊢
      omega
    · have h1b : @Eq Int (Time.Round now Minute) (now + (60000000000 - now % 60000000000)) := h1
      unfold Time.Unix
      generalize (Time.Round now Minute : Int) = R at hmn2 h1b ⊢
      omega

theorem window_end_and_key_second (now from_ to_ : Int) (fromSec toSec : Int) :
    (roundTimeRange now from_ to_).2 ≤ now ∧
    (-9223372036854775808 ≤ Time.Unix (roundTimeRange now from_ to_).2 →
      Time.Unix now ≤ 9223372036854775807 →
      Time.Unix64 (roundTimeRange now from_ to_).2 ≤ Time.Unix64 now) ∧
    (-9223372036854775808 ≤ toSec → toSec ≤ 9223371974719179007 → 0 ≤ now →
      Time.Unix now ≤ 9223372036854775807 →
      Time.Unix64 (roundTimeRange now (TimeOfUnix fromSec) (TimeOfUnix toSec)).2
        ≤ Time.Unix64 now) :=
  ⟨roundTimeRange_end_le_now now from_ to_,
   end_second_le_now now from_ to_,
   fun h1 h2 h3 h4 =>
     end_second_le_now now _ _ (request_end_second_fits now fromSec toSec h1 h2 h3) h4⟩

/-- C11 as amended. For every `from`, `to` and `now`, the end of the window
returned by `roundTimeRange` is never after `now` as an instant. The second
the cache keys carry for it, `end.Unix()`, is not after `now.Unix()` whenever
the Unix second of the end is an `int64`; that is so for every request whose
`to` is an `int64` not above 9223371974719179007, the largest second
`time.Unix` stores without wrapping (the clock not before the epoch). -/
theorem window_end_not_after_now (now from_ to_ : Time) (fromSec toSec : Int) :
    (roundTimeRange now from_ to_).2 ≤ now ∧
    (-9223372036854775808 ≤ Time.Unix (roundTimeRange now from_ to_).2 →
      Time.Unix now ≤ 9223372036854775807 →
      Time.Unix64 (roundTimeRange now from_ to_).2 ≤ Time.Unix64 now) ∧
    (-9223372036854775808 ≤ toSec → toSec ≤ 9223371974719179007 → 0 ≤ now →
      Time.Unix now ≤ 9223372036854775807 →
      Time.Unix64 (roundTimeRange now (TimeOfUnix fromSec) (TimeOfUnix toSec)).2
        ≤ Time.Unix64 now) :=
  window_end_and_key_second now from_ to_ fromSec toSec

theorem window_end_not_after_now_witness :
    (roundTimeRange 10000000000000 (TimeOfUnix 0) (TimeOfUnix 20000)).2 ≤ 10000000000000 ∧
    Time.Unix64 (roundTimeRange 10000000000000 (TimeOfUnix 0) (TimeOfUnix 20000)).2
      ≤ Time.Unix64 10000000000000 ∧
    roundTimeRange 10000000000000 (TimeOfUnix 0) (TimeOfUnix 20000)
      = (-10020000000000, 9960000000000) ∧
    (getCachedADNLList exGridEnv noFaults World.empty 10000000000000 (-10020000000000)
        9960000000000).1.kv
      = [("ADNLList:-10020:9960", { val := .adnlList ["A", "B"],
                                     expireAt := some 13600000000000 })] :=
  ⟨(window_end_not_after_now 10000000000000 (TimeOfUnix 0) (TimeOfUnix 20000) 0 20000).1,
   (window_end_not_after_now 10000000000000 (TimeOfUnix 0) (TimeOfUnix 20000) 0 20000).2.2
     (by decide) (by decide) (by decide) (by decide),
   by decide, by decide⟩

/-- C11, counterexample. A status grid request with `from = 0` and
`to = 9223372036854775747` at 1700000000 s after the epoch: the handler's
`ParseInt` accepts the value, `time.Unix` wraps and returns an instant before
`now`, so `roundTimeRange` does not move the window; `end.Unix()` wraps back to
9223372036854775756, a second long after `now`, and that is the second in the
key `ADNLList:0:9223372036854775756` the request writes to the cache. -/
theorem wrapped_request_key_second_after_now :
    ParseInt "9223372036854775747" = some 9223372036854775747 ∧
    TimeOfUnix 9223372036854775747 = -9223372036854775869000000000 ∧
    roundTimeRange 1700000000000000000 (TimeOfUnix 0) (TimeOfUnix 9223372036854775747)
      = (0, -9223372036854775860000000000) ∧
    Time.Unix64 (-9223372036854775860000000000) = 9223372036854775756 ∧
    Time.Unix64 1700000000000000000 = 1700000000 ∧
    ¬ (Time.Unix64 (roundTimeRange 1700000000000000000 (TimeOfUnix 0)
        (TimeOfUnix 9223372036854775747)).2 ≤ Time.Unix64 1700000000000000000) ∧
    (getCachedADNLList exGridEnv noFaults World.empty 1700000000000000000 0
        (-9223372036854775860000000000)).1.kv
      = [("ADNLList:0:9223372036854775756", { val := .adnlList ["A", "B"],
                                               expireAt := some 1700003600000000000 })] ∧
    (ValidatorStatusesHandler exGridEnv noFaults World.empty 1700000000000000000
        "0" "9223372036854775747" 0).1.kv.lookup "ADNLList:0:9223372036854775756"
      = some { val := .adnlList ["A", "B"], expireAt := some 1700003600000000000 } :=
  ⟨by decide, by decide, by decide, by decide, by decide, by decide, by decide, by decide⟩

end ValidatorsMonitoring
